import Mathlib

/-!
# ocenb/marketplace: transaction coordinator, store adapter, auth core and feed

A shallow embedding of `internal/storage`, `internal/repos/{auth,user,listing}`,
`internal/services/{user,auth,listing}`, `internal/handlers/{auth,listing}`,
`internal/middlewares/auth.go` and `internal/utils` of the repository.

Stateful Go code is rendered by explicit state passing over `St σ`: the state of the
outside world (`σ`: database, clock, random source) together with a ghost trace of
the calls made to it.  What lies outside the repository (database/sql and the
database behind it, the clock, bcrypt, golang-jwt) is a parameter: `Env σ` for the
stateful part, `Lib` for the pure part.
-/

namespace Marketplace

/-! ## Go values -/

/-- A `time.Time`, as nanoseconds since the Unix epoch. -/
abbrev Time := Int

/-- A `time.Duration`, in nanoseconds. -/
abbrev Duration := Int

/-- The method `Time.Unix`: whole seconds since the epoch (rounded down). -/
def Time.Unix (t : Time) : Int := t / 1000000000

/-- Error values that are created outside this repository (database/sql, the driver,
bcrypt, golang-jwt).  `ErrNoRows` and `ErrTxDone` are the sentinels of database/sql;
`wrap` is an error whose `Unwrap` yields `inner`. -/
inductive ExtError where
  | ErrNoRows
  | ErrTxDone
  | other (msg : String)
  | wrap (pfx : String) (inner : ExtError)
  deriving DecidableEq, Repr

/-- Go `error` values as the repository sees them.  The first four are the sentinels
declared in `services/auth` (`errors.New` gives each an identity no other package can
produce); `ext` is an error received from outside; `wrapf pfx inner` is
`fmt.Errorf(pfx + "%w", inner)`; `errorsNew` is any other error built in the repository
that wraps nothing (`errors.New(msg)`, `fmt.Errorf` with only `%v`); `panic` is not an
error value: it marks the result of a call that panicked instead of returning. -/
inductive GoError where
  | ErrInvalidCredentials
  | ErrInvalidToken
  | ErrUserAlreadyExists
  | ErrUserNotFound
  | ext (e : ExtError)
  | wrapf (pfx : String) (inner : GoError)
  | errorsNew (msg : String)
  | panic (msg : String)
  deriving DecidableEq, Repr

/-- The method `Error()` of an external error. -/
def ExtError.Error : ExtError → String
  | .ErrNoRows => "sql: no rows in result set"
  | .ErrTxDone => "sql: transaction has already been committed or rolled back"
  | .other msg => msg
  | .wrap pfx inner => pfx ++ inner.Error

/-- The method `Error()`. -/
def GoError.Error : GoError → String
  | .ErrInvalidCredentials => "invalid credentials"
  | .ErrInvalidToken => "invalid token"
  | .ErrUserAlreadyExists => "user with this login already exists"
  | .ErrUserNotFound => "user not found"
  | .ext e => e.Error
  | .wrapf pfx inner => pfx ++ inner.Error
  | .errorsNew msg => msg
  | .panic msg => msg

/-- `errors.Is` on external errors: `target` is met somewhere on the `Unwrap` chain. -/
def ExtError.Is : ExtError → ExtError → Bool
  | .wrap pfx inner, target => (ExtError.wrap pfx inner == target) || inner.Is target
  | e, target => e == target

/-- `errors.Is(err, target)`. -/
def GoError.Is : GoError → GoError → Bool
  | .wrapf pfx inner, target => (GoError.wrapf pfx inner == target) || inner.Is target
  | .ext e, .ext t => e.Is t
  | e, target => e == target

/-- `errors.Unwrap`. -/
def GoError.Unwrap : GoError → Option GoError
  | .wrapf _ inner => some inner
  | .ext (.wrap _ inner) => some (.ext inner)
  | _ => none

/-- The sentinel `sql.ErrNoRows`. -/
def sqlErrNoRows : GoError := .ext .ErrNoRows

/-- A transaction handle (`storage.SqlTx`, in production a `*sql.Tx`).  The methods of the
interface are the operations of `Env` applied to the handle. -/
structure SqlTx where
  id : Nat
  deriving DecidableEq, Repr

/-- The receiver on which a statement is issued: the pool (`*sql.DB`) or a transaction. -/
inductive Conn where
  | pool
  | tx (t : SqlTx)
  deriving DecidableEq, Repr

/-- Values passed as statement arguments and read from result columns. -/
inductive SqlVal where
  | null
  | bool (b : Bool)
  | int64 (n : Int)
  | str (s : String)
  | time (t : Time)
  deriving DecidableEq, Repr

/-- The struct `sql.TxOptions`. -/
structure TxOptions where
  Isolation : Nat
  ReadOnly : Bool
  deriving DecidableEq, Repr

/-- A `sql.Result`. -/
structure SqlResult where
  lastInsertId : Int
  rowsAffected : Int
  deriving DecidableEq, Repr

/-- A `*sql.Row`: the columns of the first row, or the error `Scan` will report. -/
abbrev Row := Except ExtError (List SqlVal)

/-- A `*sql.Rows`: the rows `Next`/`Scan` walk through, the error `Err` reports after
the walk and the error `Close` reports. -/
structure Rows where
  rows : List (List SqlVal)
  err : Option ExtError
  closeErr : Option ExtError

/-! ## context.Context -/

/-- The keys under which this repository binds context values. -/
inductive CtxKey where
  | TxKey
  | UserIDKey
  deriving DecidableEq, Repr

/-- The values this repository binds in a context. -/
inductive CtxVal where
  | sqlTx (tx : SqlTx)
  | int64 (n : Int)
  deriving DecidableEq, Repr

/-- A `context.Context`, reduced to its chain of bound values (newest first). -/
abbrev Context := List (CtxKey × CtxVal)

/-- The call `context.WithValue(ctx, key, val)`. -/
def Context.WithValue (ctx : Context) (key : CtxKey) (val : CtxVal) : Context :=
  (key, val) :: ctx

/-- The method `ctx.Value(key)`: the newest binding of `key`, if any. -/
def Context.Value : Context → CtxKey → Option CtxVal
  | [], _ => none
  | (k, v) :: rest, key => if k = key then some v else Context.Value rest key

/-! ## Token values (golang-jwt) -/

/-- A `jwt.SigningMethod`: `HMAC alg` stands for the values of type
`*jwt.SigningMethodHMAC` (HS256, HS384, HS512), `other alg` for every other method. -/
inductive SigningMethod where
  | HMAC (alg : String)
  | other (alg : String)
  deriving DecidableEq, Repr

/-- The value `jwt.SigningMethodHS256`. -/
def SigningMethodHS256 : SigningMethod := .HMAC "HS256"

/-- The method `Alg()`. -/
def SigningMethod.Alg : SigningMethod → String
  | .HMAC alg => alg
  | .other alg => alg

/-- A value held in a `jwt.MapClaims`.  `float64 x` is a finite float64, given by the
rational it denotes (what the JSON decoder yields for a number); `int64` is what
`createToken` stores before signing; `other` is any value of another dynamic type. -/
inductive ClaimVal where
  | int64 (n : Int)
  | float64 (x : Rat)
  | other (raw : String)
  deriving DecidableEq, Repr

/-- A `jwt.MapClaims`, as an association list. -/
abbrev MapClaims := List (String × ClaimVal)

/-- Index a claim set: `claims[name]`. -/
def MapClaims.get (claims : MapClaims) (name : String) : Option ClaimVal :=
  (claims.find? (fun p => p.1 == name)).map Prod.snd

/-- A `*jwt.Token`. -/
structure Token where
  Method : SigningMethod
  Claims : MapClaims
  Valid : Bool
  deriving DecidableEq, Repr

/-! ## The outside world -/

/-- One call made to a collaborator: the calls to database/sql and, so that signing is
visible in a trace, `SignedString` for `NewWithClaims(method, claims).SignedString(key)`. -/
inductive Event where
  | BeginTx (opts : Option TxOptions)
  | Commit (tx : SqlTx)
  | Rollback (tx : SqlTx)
  | Exec (conn : Conn) (query : String) (args : List SqlVal)
  | QueryRow (conn : Conn) (query : String) (args : List SqlVal)
  | Query (conn : Conn) (query : String) (args : List SqlVal)
  | SignedString (method : SigningMethod) (claims : MapClaims) (key : String)
  deriving DecidableEq, Repr

/-- The stateful collaborators: database/sql over the database, the wall clock and the
random source.  Each operation maps the state of the world to its result and the next
state. -/
structure Env (σ : Type) where
  beginTx : Option TxOptions → σ → Except ExtError SqlTx × σ
  commit : SqlTx → σ → Option ExtError × σ
  rollback : SqlTx → σ → Option ExtError × σ
  exec : Conn → String → List SqlVal → σ → Except ExtError SqlResult × σ
  queryRow : Conn → String → List SqlVal → σ → Row × σ
  query : Conn → String → List SqlVal → σ → Except ExtError Rows × σ
  now : σ → Time × σ
  rand : σ → Nat × σ

/-- The state threaded through the program: the world and the calls made so far. -/
structure St (σ : Type) where
  world : σ
  trace : List Event

/-- Lift an external result into a Go `(value, error)` pair. -/
def liftExcept {α : Type} : Except ExtError α → Except GoError α
  | .ok a => .ok a
  | .error e => .error (.ext e)

/-- The method `(*sql.DB).BeginTx`. -/
def DB.BeginTx {σ : Type} (env : Env σ) (_ctx : Context) (opts : Option TxOptions)
    (s : St σ) : Except GoError SqlTx × St σ :=
  (liftExcept (env.beginTx opts s.world).1,
    { world := (env.beginTx opts s.world).2, trace := s.trace ++ [Event.BeginTx opts] })

/-- The method `Commit` of a transaction. -/
def SqlTx.Commit {σ : Type} (env : Env σ) (tx : SqlTx) (s : St σ) : Option GoError × St σ :=
  ((env.commit tx s.world).1.map GoError.ext,
    { world := (env.commit tx s.world).2, trace := s.trace ++ [Event.Commit tx] })

/-- The method `Rollback` of a transaction. -/
def SqlTx.Rollback {σ : Type} (env : Env σ) (tx : SqlTx) (s : St σ) : Option GoError × St σ :=
  ((env.rollback tx s.world).1.map GoError.ext,
    { world := (env.rollback tx s.world).2, trace := s.trace ++ [Event.Rollback tx] })

/-- The method `ExecContext` of the pool or of a transaction. -/
def Conn.ExecContext {σ : Type} (env : Env σ) (conn : Conn) (_ctx : Context) (query : String)
    (args : List SqlVal) (s : St σ) : Except GoError SqlResult × St σ :=
  (liftExcept (env.exec conn query args s.world).1,
    { world := (env.exec conn query args s.world).2,
      trace := s.trace ++ [Event.Exec conn query args] })

/-- The method `QueryRowContext` of the pool or of a transaction. -/
def Conn.QueryRowContext {σ : Type} (env : Env σ) (conn : Conn) (_ctx : Context) (query : String)
    (args : List SqlVal) (s : St σ) : Row × St σ :=
  ((env.queryRow conn query args s.world).1,
    { world := (env.queryRow conn query args s.world).2,
      trace := s.trace ++ [Event.QueryRow conn query args] })

/-- The method `QueryContext` of the pool or of a transaction. -/
def Conn.QueryContext {σ : Type} (env : Env σ) (conn : Conn) (_ctx : Context) (query : String)
    (args : List SqlVal) (s : St σ) : Except GoError Rows × St σ :=
  (liftExcept (env.query conn query args s.world).1,
    { world := (env.query conn query args s.world).2,
      trace := s.trace ++ [Event.Query conn query args] })

/-- The call `time.Now()`. -/
def timeNow {σ : Type} (env : Env σ) (s : St σ) : Time × St σ :=
  ((env.now s.world).1, { world := (env.now s.world).2, trace := s.trace })

/-! ## internal/storage/storage.go -/

namespace storage

/-- The interface `BeginTx`: anything with a method `BeginTx(ctx, opts)`. -/
abbrev BeginTx (σ : Type) := Context → Option TxOptions → St σ → Except GoError SqlTx × St σ

/-- The deferred closure of `WithTransaction`: it rolls back and, when the rollback fails
while the local `txErr` is nil, stores a fresh error in `txErr`.  Returns the new value
of `txErr` and the state. -/
def WithTransaction.deferred {σ : Type} (env : Env σ) (tx : SqlTx) (txErr : Option GoError)
    (s : St σ) : Option GoError × St σ :=
  match SqlTx.Rollback env tx s with
  | (some rbErr, s') =>
    if txErr = none then
      (some (.errorsNew ("tx err: <nil>, rb err: " ++ rbErr.Error)), s')
    else (txErr, s')
  | (none, s') => (txErr, s')

/-- The statements of `WithTransaction` after the `defer`, up to its `return`: the
returned error, the variables the closure captured and the state. -/
def WithTransaction.body {σ κ : Type} (env : Env σ) (ctx : Context) (tx : SqlTx)
    (fn : Context → κ → St σ → (Option GoError × κ) × St σ) (k : κ) (s : St σ) :
    (Option GoError × κ) × St σ :=
  let txCtx := ctx.WithValue CtxKey.TxKey (CtxVal.sqlTx tx)
  match fn txCtx k s with
  | ((some err, k'), s') => ((some err, k'), s')
  | ((none, k'), s') =>
    match SqlTx.Commit env tx s' with
    | (some err, s'') => ((some (.wrapf "failed to commit transaction: " err), k'), s'')
    | (none, s'') => ((none, k'), s'')

/-- The function `WithTransaction(ctx, repo, fn)`.  `κ` holds the variables `fn` captures
and assigns (a Go closure shares them with its caller); the result carries their final
values beside the returned error.  The deferred closure runs after the return value is
fixed, and the local `txErr` it assigns is not the return value. -/
def WithTransaction {σ κ : Type} (env : Env σ) (ctx : Context) (repo : BeginTx σ)
    (fn : Context → κ → St σ → (Option GoError × κ) × St σ) (k : κ) (s : St σ) :
    (Option GoError × κ) × St σ :=
  match repo ctx none s with
  | (.error err, s1) => ((some (.wrapf "failed to start transaction: " err), k), s1)
  | (.ok tx, s1) =>
    let r := WithTransaction.body env ctx tx fn k s1
    (r.1, (WithTransaction.deferred env tx none r.2).2)

/-- The function `getTxFromContext`: Go's `(tx, ok)` is `some tx`, and `ok = false` is
`none`. -/
def getTxFromContext (ctx : Context) : Option SqlTx :=
  match ctx.Value CtxKey.TxKey with
  | some (CtxVal.sqlTx tx) => some tx
  | _ => none

/-- The function `ExecWithTx(ctx, db, query, args...)`. -/
def ExecWithTx {σ : Type} (env : Env σ) (ctx : Context) (query : String) (args : List SqlVal)
    (s : St σ) : Except GoError SqlResult × St σ :=
  match getTxFromContext ctx with
  | some tx => Conn.ExecContext env (Conn.tx tx) ctx query args s
  | none => Conn.ExecContext env Conn.pool ctx query args s

/-- The function `QueryRowWithTx(ctx, db, query, args...)`. -/
def QueryRowWithTx {σ : Type} (env : Env σ) (ctx : Context) (query : String)
    (args : List SqlVal) (s : St σ) : Row × St σ :=
  match getTxFromContext ctx with
  | some tx => Conn.QueryRowContext env (Conn.tx tx) ctx query args s
  | none => Conn.QueryRowContext env Conn.pool ctx query args s

/-- The function `QueryWithTx(ctx, db, query, args...)`. -/
def QueryWithTx {σ : Type} (env : Env σ) (ctx : Context) (query : String) (args : List SqlVal)
    (s : St σ) : Except GoError Rows × St σ :=
  match getTxFromContext ctx with
  | some tx => Conn.QueryContext env (Conn.tx tx) ctx query args s
  | none => Conn.QueryContext env Conn.pool ctx query args s

end storage

/-! ## internal/models/models.go, internal/config/config.go -/

/-- The struct `models.User`. -/
structure User where
  ID : Int
  Login : String
  PasswordHash : String
  CreatedAt : Time
  deriving DecidableEq, Repr

/-- The struct `models.UserPublic`. -/
structure UserPublic where
  ID : Int
  Login : String
  CreatedAt : Time
  deriving DecidableEq, Repr

/-- The struct `config.JWTConfig`. -/
structure JWTConfig where
  JWTSecret : String
  TokenLiveTime : Duration
  BCryptCost : Int
  deriving DecidableEq, Repr

/-- The struct `config.Config`, reduced to the part the auth core reads. -/
structure Config where
  JWT : JWTConfig
  deriving DecidableEq, Repr

/-! ## The libraries: bcrypt and golang-jwt -/

/-- The pure functions of the libraries the auth core calls.  `bcryptGenerate password
cost salt` is the hash `bcrypt.GenerateFromPassword` computes once it has drawn `salt`;
`bcryptCompare hash password` is `bcrypt.CompareHashAndPassword` (nil when they match);
`jwtSign` is `NewWithClaims(method, claims).SignedString(key)`; `jwtDecode` splits and
decodes a token string into its method and claims without verifying it; `jwtVerify method
tokenString key` tells whether the signature of the token string verifies. -/
structure Lib where
  bcryptGenerate : String → Int → Nat → Except ExtError String
  bcryptCompare : String → String → Option ExtError
  jwtSign : SigningMethod → MapClaims → String → Except ExtError String
  jwtDecode : String → Except ExtError (SigningMethod × MapClaims)
  jwtVerify : SigningMethod → String → String → Bool

namespace bcrypt

/-- The function `bcrypt.GenerateFromPassword(password, cost)`: draws a salt and hashes. -/
def GenerateFromPassword {σ : Type} (lib : Lib) (env : Env σ) (password : String) (cost : Int)
    (s : St σ) : Except GoError String × St σ :=
  (liftExcept (lib.bcryptGenerate password cost (env.rand s.world).1),
    { world := (env.rand s.world).2, trace := s.trace })

/-- The function `bcrypt.CompareHashAndPassword(hashedPassword, password)`. -/
def CompareHashAndPassword (lib : Lib) (hashedPassword password : String) : Option GoError :=
  (lib.bcryptCompare hashedPassword password).map GoError.ext

end bcrypt

/-- The conversion `int64(x)` of a float64: the fraction is dropped (rounding toward
zero).  Outside the int64 range Go leaves the result to the implementation; amd64 yields
the least int64. -/
def float64ToInt64 (x : Rat) : Int :=
  if -9223372036854775808 ≤ x.num.tdiv x.den ∧ x.num.tdiv x.den ≤ 9223372036854775807 then
    x.num.tdiv x.den
  else -9223372036854775808

/-- A mathematical integer wrapped to 64 bits in two's complement (Go's `int64`, and `int`
taken as 64 bits): the result of machine arithmetic whose exact result is `x`. -/
def wrapInt (x : Int) : Int := (x + 2 ^ 63) % 2 ^ 64 - 2 ^ 63

namespace jwt

/-- The constant `unixToInternal` of package time: the seconds from the zero `time.Time`
(January 1 of year 1) to the Unix epoch. -/
def unixToInternal : Int := 62135596800

/-- The function `newNumericDateFromSeconds(f)` of golang-jwt v5, which is
`NewNumericDate(time.Unix(int64(round), int64(frac*1e9)))` for
`round, frac := math.Modf(f)`, as the instant it denotes.  `int64(frac*1e9)` is negative
exactly when the float64 product is at most -1, that is when `frac * 1e9` is at most
`-(1 - 2^-54)`, and `time.Unix` then borrows one second; the seconds are kept as the int64
`sec + unixToInternal`; `Truncate(time.Second)` drops the nanoseconds. -/
def newNumericDateFromSeconds (f : Rat) : Time :=
  let round : Int := f.num.tdiv f.den
  let sec : Int := float64ToInt64 f
  let borrow : Bool :=
    decide ((f.num - round * f.den) * 1000000000 * 2 ^ 54 ≤ -((2 ^ 54 - 1) * f.den))
  let sec1 : Int := if borrow then wrapInt (sec - 1) else sec
  (wrapInt (sec1 + unixToInternal) - unixToInternal) * 1000000000

/-- A registered date claim as the default validator of golang-jwt v5 reads it from a
`MapClaims`: absent (or the number 0) is `ok none`, a number is the instant
`newNumericDateFromSeconds` gives, a value of any other type is an error. -/
def numericDate (claims : MapClaims) (name : String) : Except Unit (Option Time) :=
  match claims.get name with
  | none => .ok none
  | some (.float64 x) => if x = 0 then .ok none else .ok (some (newNumericDateFromSeconds x))
  | some _ => .error ()

/-- The default claim validation of golang-jwt v5 at time `now`: `exp`, when present, must
lie after `now`; `nbf`, when present, must not lie after `now`; `iat` is not checked. -/
def validate (claims : MapClaims) (now : Time) : Bool :=
  (match numericDate claims "exp" with
    | .ok none => true
    | .ok (some exp) => decide (now < exp)
    | .error _ => false) &&
  (match numericDate claims "nbf" with
    | .ok none => true
    | .ok (some nbf) => decide (nbf ≤ now)
    | .error _ => false)

/-- The function `jwt.Parse(tokenString, keyFunc)` with no parser options: decode, ask
`keyFunc` for the key, verify the signature, validate the claims against the clock. -/
def Parse {σ : Type} (lib : Lib) (env : Env σ) (tokenString : String)
    (keyFunc : Token → Except GoError String) (s : St σ) : Except GoError Token × St σ :=
  match lib.jwtDecode tokenString with
  | .error e => (.error (.ext e), s)
  | .ok (method, claims) =>
    match keyFunc { Method := method, Claims := claims, Valid := false } with
    | .error e =>
      (.error (.wrapf "token is unverifiable: error while executing keyfunc: " e), s)
    | .ok key =>
      if lib.jwtVerify method tokenString key then
        if validate claims (timeNow env s).1 then
          (.ok { Method := method, Claims := claims, Valid := true }, (timeNow env s).2)
        else (.error (.ext (.other "token has invalid claims")), (timeNow env s).2)
      else (.error (.ext (.other "token signature is invalid")), s)

end jwt

/-! ## Row.Scan -/

/-- `row.Scan(&b)` into one `bool`. -/
def scanBool : Row → Except GoError Bool
  | .error e => .error (.ext e)
  | .ok [SqlVal.bool b] => .ok b
  | .ok _ => .error (.ext (.other "sql: Scan error"))

/-- `row.Scan(&user.ID, &user.Login, &user.CreatedAt)`. -/
def scanUserPublic : Row → Except GoError UserPublic
  | .error e => .error (.ext e)
  | .ok [SqlVal.int64 id, SqlVal.str login, SqlVal.time createdAt] =>
    .ok { ID := id, Login := login, CreatedAt := createdAt }
  | .ok _ => .error (.ext (.other "sql: Scan error"))

/-- `row.Scan(&user.ID, &user.Login, &user.PasswordHash, &user.CreatedAt)`. -/
def scanUser : Row → Except GoError User
  | .error e => .error (.ext e)
  | .ok [SqlVal.int64 id, SqlVal.str login, SqlVal.str passwordHash, SqlVal.time createdAt] =>
    .ok { ID := id, Login := login, PasswordHash := passwordHash, CreatedAt := createdAt }
  | .ok _ => .error (.ext (.other "sql: Scan error"))

/-! ## internal/repos/user/user.go -/

namespace UserRepo

/-- The statement of `Create`. -/
def createQuery : String :=
  "\n\t\tINSERT INTO users (login, password_hash) \n\t\tVALUES ($1, $2)\n\t\tRETURNING id, login, created_at\n\t"

/-- The statement of `GetByLogin`. -/
def getByLoginQuery : String :=
  "\n\t\tSELECT id, login, password_hash, created_at\n\t\tFROM users\n\t\tWHERE login = $1\n\t"

/-- The statement of `GetByID`. -/
def getByIDQuery : String :=
  "\n\t\tSELECT id, login, password_hash, created_at\n\t\tFROM users\n\t\tWHERE id = $1\n\t"

/-- The statement of `CheckExists`. -/
def checkExistsQuery : String :=
  "SELECT EXISTS(SELECT 1 FROM users WHERE login = $1)"

/-- The method `(*UserRepo).Create`. -/
def Create {σ : Type} (env : Env σ) (ctx : Context) (login passwordHash : String) (s : St σ) :
    Except GoError UserPublic × St σ :=
  let r := storage.QueryRowWithTx env ctx createQuery [.str login, .str passwordHash] s
  (scanUserPublic r.1, r.2)

/-- The method `(*UserRepo).GetByLogin`. -/
def GetByLogin {σ : Type} (env : Env σ) (ctx : Context) (login : String) (s : St σ) :
    Except GoError User × St σ :=
  let r := storage.QueryRowWithTx env ctx getByLoginQuery [.str login] s
  (scanUser r.1, r.2)

/-- The method `(*UserRepo).GetByID`. -/
def GetByID {σ : Type} (env : Env σ) (ctx : Context) (id : Int) (s : St σ) :
    Except GoError User × St σ :=
  let r := storage.QueryRowWithTx env ctx getByIDQuery [.int64 id] s
  (scanUser r.1, r.2)

/-- The method `(*UserRepo).CheckExists`. -/
def CheckExists {σ : Type} (env : Env σ) (ctx : Context) (login : String) (s : St σ) :
    Except GoError Bool × St σ :=
  let r := storage.QueryRowWithTx env ctx checkExistsQuery [.str login] s
  (scanBool r.1, r.2)

end UserRepo

/-! ## internal/repos/auth/auth.go -/

namespace AuthRepo

/-- The statement of `CheckTokenExists`. -/
def checkTokenExistsQuery : String :=
  "SELECT EXISTS(SELECT 1 FROM tokens WHERE token = $1)"

/-- The statement of `CreateToken`. -/
def createTokenQuery : String :=
  "INSERT INTO tokens (token, user_id, expires_at) VALUES ($1, $2, $3)"

/-- The statement of `DeleteExpiredTokens`. -/
def deleteExpiredTokensQuery : String :=
  "DELETE FROM tokens WHERE expires_at < $1"

/-- The method `(*AuthRepo).BeginTx`. -/
def BeginTx {σ : Type} (env : Env σ) : storage.BeginTx σ :=
  fun ctx opts s => DB.BeginTx env ctx opts s

/-- The method `(*AuthRepo).CheckTokenExists`. -/
def CheckTokenExists {σ : Type} (env : Env σ) (ctx : Context) (token : String) (s : St σ) :
    Except GoError Bool × St σ :=
  let r := storage.QueryRowWithTx env ctx checkTokenExistsQuery [.str token] s
  (scanBool r.1, r.2)

/-- The method `(*AuthRepo).CreateToken`. -/
def CreateToken {σ : Type} (env : Env σ) (ctx : Context) (token : String) (userID : Int)
    (expiresAt : Time) (s : St σ) : Option GoError × St σ :=
  match storage.ExecWithTx env ctx createTokenQuery
      [.str token, .int64 userID, .time expiresAt] s with
  | (.error err, s') => (some err, s')
  | (.ok _, s') => (none, s')

/-- The method `(*AuthRepo).DeleteExpiredTokens`. -/
def DeleteExpiredTokens {σ : Type} (env : Env σ) (ctx : Context) (s : St σ) :
    Option GoError × St σ :=
  let n := timeNow env s
  match storage.ExecWithTx env ctx deleteExpiredTokensQuery [.time n.1] n.2 with
  | (.error err, s') => (some err, s')
  | (.ok _, s') => (none, s')

end AuthRepo

/-! ## internal/services/user/user.go -/

namespace UserService

/-- The method `(*UserService).Create`. -/
def Create {σ : Type} (env : Env σ) (ctx : Context) (login passwordHash : String) (s : St σ) :
    Except GoError UserPublic × St σ :=
  match UserRepo.Create env ctx login passwordHash s with
  | (.error err, s') => (.error err, s')
  | (.ok user, s') => (.ok user, s')

/-- The method `(*UserService).GetByLogin`. -/
def GetByLogin {σ : Type} (env : Env σ) (ctx : Context) (login : String) (s : St σ) :
    Except GoError User × St σ :=
  match UserRepo.GetByLogin env ctx login s with
  | (.error err, s') => (.error err, s')
  | (.ok user, s') => (.ok user, s')

/-- The method `(*UserService).CheckExists`. -/
def CheckExists {σ : Type} (env : Env σ) (ctx : Context) (login : String) (s : St σ) :
    Except GoError Bool × St σ :=
  match UserRepo.CheckExists env ctx login s with
  | (.error err, s') => (.error err, s')
  | (.ok found, s') => (.ok found, s')

end UserService

/-! ## internal/services/auth/auth.go -/

namespace AuthService

/-- The method `(*AuthService).createToken`: Go's `(string, error)`.  The clock is read
twice, for `expiresAt` and for `iat`; the signing call is recorded in the trace. -/
def createToken {σ : Type} (lib : Lib) (env : Env σ) (cfg : Config) (ctx : Context)
    (userID : Int) (s : St σ) : (String × Option GoError) × St σ :=
  let n1 := timeNow env s
  let expiresAt : Time := n1.1 + cfg.JWT.TokenLiveTime
  let n2 := timeNow env n1.2
  let payload : MapClaims :=
    [("userID", .int64 userID), ("exp", .int64 (Time.Unix expiresAt)),
      ("iat", .int64 (Time.Unix n2.1))]
  let s3 : St σ :=
    { world := n2.2.world,
      trace := n2.2.trace ++ [Event.SignedString SigningMethodHS256 payload cfg.JWT.JWTSecret] }
  match lib.jwtSign SigningMethodHS256 payload cfg.JWT.JWTSecret with
  | .error err => (("", some (.ext err)), s3)
  | .ok tokenString =>
    match AuthRepo.CreateToken env ctx tokenString userID expiresAt s3 with
    | (some err, s4) => (("", some err), s4)
    | (none, s4) => ((tokenString, none), s4)

/-- The closure `Register` hands to `WithTransaction`; the captured variable is `newUser`. -/
def Register.fn {σ : Type} (lib : Lib) (env : Env σ) (cfg : Config) (login password : String)
    (txCtx : Context) (newUser : Option UserPublic) (s : St σ) :
    (Option GoError × Option UserPublic) × St σ :=
  match UserService.CheckExists env txCtx login s with
  | (.error err, s1) => ((some err, newUser), s1)
  | (.ok true, s1) => ((some .ErrUserAlreadyExists, newUser), s1)
  | (.ok false, s1) =>
    match bcrypt.GenerateFromPassword lib env password cfg.JWT.BCryptCost s1 with
    | (.error err, s2) => ((some err, newUser), s2)
    | (.ok hashedPassword, s2) =>
      match UserService.Create env txCtx login hashedPassword s2 with
      | (.error err, s3) => ((some err, none), s3)
      | (.ok user, s3) => ((none, some user), s3)

/-- The method `(*AuthService).Register`: Go's `(*models.UserPublic, error)`. -/
def Register {σ : Type} (lib : Lib) (env : Env σ) (cfg : Config) (ctx : Context)
    (login password : String) (s : St σ) : (Option UserPublic × Option GoError) × St σ :=
  match storage.WithTransaction env ctx (AuthRepo.BeginTx env)
      (Register.fn lib env cfg login password) none s with
  | ((some err, _), s') => ((none, some err), s')
  | ((none, newUser), s') => ((newUser, none), s')

/-- The closure `Login` hands to `WithTransaction`; the captured variables are `token`
and `existingUser`. -/
def Login.fn {σ : Type} (lib : Lib) (env : Env σ) (cfg : Config) (login password : String)
    (txCtx : Context) (k : String × Option User) (s : St σ) :
    (Option GoError × (String × Option User)) × St σ :=
  match UserService.GetByLogin env txCtx login s with
  | (.error err, s1) =>
    if err.Is sqlErrNoRows then ((some .ErrUserNotFound, k), s1) else ((some err, k), s1)
  | (.ok user, s1) =>
    match bcrypt.CompareHashAndPassword lib user.PasswordHash password with
    | some _ => ((some .ErrInvalidCredentials, k), s1)
    | none =>
      match createToken lib env cfg txCtx user.ID s1 with
      | ((token, some err), s2) => ((some err, (token, k.2)), s2)
      | ((token, none), s2) => ((none, (token, some user)), s2)

/-- The method `(*AuthService).Login`: Go's `(*models.UserPublic, string, error)`.  The
last case dereferences a nil `existingUser`. -/
def Login {σ : Type} (lib : Lib) (env : Env σ) (cfg : Config) (ctx : Context)
    (login password : String) (s : St σ) :
    (Option UserPublic × String × Option GoError) × St σ :=
  match storage.WithTransaction env ctx (AuthRepo.BeginTx env)
      (Login.fn lib env cfg login password) ("", none) s with
  | ((some err, _), s') => ((none, "", some err), s')
  | ((none, (token, some existingUser)), s') =>
    ((some { ID := existingUser.ID, Login := existingUser.Login,
             CreatedAt := existingUser.CreatedAt }, token, none), s')
  | ((none, (_, none)), s') =>
    ((none, "", some (.panic "invalid memory address or nil pointer dereference")), s')

/-- The key function `ValidateToken` hands to `jwt.Parse`. -/
def ValidateToken.keyFunc (cfg : Config) (token : Token) : Except GoError String :=
  match token.Method with
  | .HMAC _ => .ok cfg.JWT.JWTSecret
  | .other _ => .error .ErrInvalidToken

/-- The method `(*AuthService).ValidateToken`: Go's `(int64, error)`. -/
def ValidateToken {σ : Type} (lib : Lib) (env : Env σ) (cfg : Config) (ctx : Context)
    (tokenString : String) (s : St σ) : (Int × Option GoError) × St σ :=
  match jwt.Parse lib env tokenString (ValidateToken.keyFunc cfg) s with
  | (.error _, s1) => ((0, some .ErrInvalidToken), s1)
  | (.ok token, s1) =>
    if !token.Valid then ((0, some .ErrInvalidToken), s1)
    else
      match token.Claims.get "userID" with
      | some (.float64 userID) =>
        match AuthRepo.CheckTokenExists env ctx tokenString s1 with
        | (.error err, s2) => ((0, some err), s2)
        | (.ok false, s2) => ((0, some .ErrInvalidToken), s2)
        | (.ok true, s2) => ((float64ToInt64 userID, none), s2)
      | _ => ((0, some .ErrInvalidToken), s1)

/-- The method `(*AuthService).CleanupExpiredTokens`; the context is a fresh
`context.Background()` with a timeout. -/
def CleanupExpiredTokens {σ : Type} (env : Env σ) (s : St σ) : St σ :=
  (AuthRepo.DeleteExpiredTokens env [] s).2

end AuthService

/-! ## Go `int`, package strings, package strconv -/

/-- The function `strings.ToUpper`, on the ASCII letters (other characters are kept). -/
def strings.ToUpper (s : String) : String := String.mk (s.data.map Char.toUpper)

/-- The function `strings.Join(elems, sep)`. -/
def strings.Join : List String → String → String
  | [], _ => ""
  | [e], _ => e
  | e :: rest, sep => e ++ sep ++ strings.Join rest sep

/-- The pieces of `cs` between the occurrences of `sep`; `cur` holds the characters of the
piece being read, newest first. -/
def strings.Split.go (sep : Char) : List Char → List Char → List String
  | [], cur => [String.mk cur.reverse]
  | c :: rest, cur =>
    if c = sep then String.mk cur.reverse :: strings.Split.go sep rest []
    else strings.Split.go sep rest (c :: cur)

/-- The function `strings.Split(s, sep)` for a separator of one character. -/
def strings.Split (s : String) (sep : Char) : List String := strings.Split.go sep s.data []

/-- The value of a non-empty string of decimal digits; `none` for anything else. -/
def strconv.digits : List Char → Option Nat
  | [] => none
  | cs =>
    cs.foldl
      (fun acc c => acc.bind (fun n => if c.isDigit then some (10 * n + (c.toNat - 48)) else none))
      (some 0)

/-- The function `strconv.ParseInt(s, 10, 64)`: an optional sign and decimal digits,
within the int64 range; `none` stands for a non-nil error. -/
def strconv.ParseInt (s : String) : Option Int :=
  match s.data with
  | [] => none
  | c :: rest =>
    if c = '+' then
      (strconv.digits rest).bind (fun n => if n ≤ 9223372036854775807 then some (n : Int) else none)
    else if c = '-' then
      (strconv.digits rest).bind (fun n => if n ≤ 9223372036854775808 then some (-(n : Int)) else none)
    else
      (strconv.digits (c :: rest)).bind
        (fun n => if n ≤ 9223372036854775807 then some (n : Int) else none)

/-- The function `strconv.Atoi` (with a 64-bit `int`). -/
def strconv.Atoi (s : String) : Option Int := strconv.ParseInt s

/-! ## internal/models/models.go: listings -/

/-- The struct `models.Listing`. -/
structure Listing where
  ID : Int
  UserID : Int
  Title : String
  Description : String
  ImageURL : String
  Price : Int
  CreatedAt : Time
  AuthorLogin : String
  IsOwner : Bool
  deriving DecidableEq, Repr

/-- The struct `models.ListingsFeed`. -/
structure ListingsFeed where
  Listings : List Listing
  Total : Int
  Page : Int
  Limit : Int
  deriving DecidableEq, Repr

/-! ## internal/utils/utils.go -/

/-- The function `utils.GetInfoFromContext`: the user id bound under `UserIDKey`, or
`(-1, false)`. -/
def utils.GetInfoFromContext (ctx : Context) : Int × Bool :=
  match ctx.Value CtxKey.UserIDKey with
  | some (CtxVal.int64 userID) => (userID, true)
  | _ => (-1, false)

/-! ## internal/repos/listing/listing.go -/

namespace ListingRepo

/-- The state of `whereClauses`, `args` and `argCounter` after the two price tests of
`GetFeed`. -/
def GetFeed.filters (minPrice maxPrice : Int) : List String × List SqlVal × Nat :=
  let st0 : List String × List SqlVal × Nat := ([], [], 1)
  let st1 : List String × List SqlVal × Nat :=
    if minPrice > 0 then
      (st0.1 ++ ["l.price >= $" ++ toString st0.2.2], st0.2.1 ++ [SqlVal.int64 minPrice],
        st0.2.2 + 1)
    else st0
  if maxPrice > 0 then
    (st1.1 ++ ["l.price <= $" ++ toString st1.2.2], st1.2.1 ++ [SqlVal.int64 maxPrice],
      st1.2.2 + 1)
  else st1

/-- The local `whereClause` of `GetFeed`. -/
def GetFeed.whereClause (minPrice maxPrice : Int) : String :=
  if (GetFeed.filters minPrice maxPrice).1.length > 0 then
    "WHERE " ++ strings.Join (GetFeed.filters minPrice maxPrice).1 " AND "
  else ""

/-- The local `orderByClause` of `GetFeed`. -/
def GetFeed.orderByClause (sortBy sortOrder : String) : String :=
  if sortBy = "createdAt" then "ORDER BY l.created_at " ++ strings.ToUpper sortOrder
  else if sortBy = "price" then "ORDER BY l.price " ++ strings.ToUpper sortOrder
  else "ORDER BY l.created_at DESC"

/-- The local `offset` of `GetFeed`: `(page - 1) * limit` in machine arithmetic. -/
def GetFeed.offset (page limit : Int) : Int := wrapInt (wrapInt (page - 1) * limit)

/-- The text of the feed statement before the WHERE clause. -/
def GetFeed.selectFrom : String :=
  "\n\t\tSELECT\n\t\t\tl.id,\n\t\t\tl.user_id,\n\t\t\tu.login AS author_login,\n\t\t\tl.title,\n\t\t\tl.description,\n\t\t\tl.image_url,\n\t\t\tl.price,\n\t\t\tl.created_at\n\t\tFROM\n\t\t\tlistings AS l\n\t\tJOIN\n\t\t\tusers AS u ON l.user_id = u.id\n\t\t"

/-- The local `mainQuery` of `GetFeed`: the format string with the WHERE clause, the ORDER
BY clause, `argCounter` and `argCounter + 1` filled in. -/
def GetFeed.mainQuery (sortBy sortOrder : String) (minPrice maxPrice : Int) : String :=
  GetFeed.selectFrom ++ GetFeed.whereClause minPrice maxPrice ++ "\n\t\t" ++
    GetFeed.orderByClause sortBy sortOrder ++ "\n\t\tLIMIT $" ++
    toString (GetFeed.filters minPrice maxPrice).2.2 ++ " OFFSET $" ++
    toString ((GetFeed.filters minPrice maxPrice).2.2 + 1) ++ ";\n\t"

/-- The local `queryArgs` of `GetFeed`. -/
def GetFeed.queryArgs (page limit minPrice maxPrice : Int) : List SqlVal :=
  (GetFeed.filters minPrice maxPrice).2.1 ++
    [SqlVal.int64 limit, SqlVal.int64 (GetFeed.offset page limit)]

/-- `rows.Scan` into the eight fields of a fresh `models.Listing`. -/
def scanListing : List SqlVal → Except GoError Listing
  | [SqlVal.int64 id, SqlVal.int64 userID, SqlVal.str authorLogin, SqlVal.str title,
      SqlVal.str description, SqlVal.str imageURL, SqlVal.int64 price,
      SqlVal.time createdAt] =>
    .ok { ID := id, UserID := userID, Title := title, Description := description,
          ImageURL := imageURL, Price := price, CreatedAt := createdAt,
          AuthorLogin := authorLogin, IsOwner := false }
  | _ => .error (.ext (.other "sql: Scan error"))

/-- The loop `for rows.Next()` of `GetFeed` over the remaining rows, with the listings
appended so far. -/
def GetFeed.scanRows (userID : Int) : List (List SqlVal) → List Listing →
    Except GoError (List Listing)
  | [], listings => .ok listings
  | row :: rest, listings =>
    match scanListing row with
    | .error err => .error (.wrapf "failed to scan listing row: " err)
    | .ok listing =>
      GetFeed.scanRows userID rest
        (listings ++
          [if userID > 0 then { listing with IsOwner := decide (listing.UserID = userID) }
           else listing])

/-- The method `(*ListingRepo).GetFeed`. -/
def GetFeed {σ : Type} (env : Env σ) (ctx : Context) (userID page limit : Int)
    (sortBy sortOrder : String) (minPrice maxPrice : Int) (s : St σ) :
    Except GoError ListingsFeed × St σ :=
  match storage.QueryWithTx env ctx (GetFeed.mainQuery sortBy sortOrder minPrice maxPrice)
      (GetFeed.queryArgs page limit minPrice maxPrice) s with
  | (.error err, s1) => (.error (.wrapf "failed to query listing feed: " err), s1)
  | (.ok rows, s1) =>
    match GetFeed.scanRows userID rows.rows [] with
    | .error err => (.error err, s1)
    | .ok listings =>
      match rows.err with
      | some err => (.error (.wrapf "rows iteration error: " (.ext err)), s1)
      | none =>
        (.ok { Listings := listings, Total := (listings.length : Int), Page := page,
               Limit := limit }, s1)

/-- The statement of `Create`. -/
def createQuery : String :=
  "\n\t\tWITH inserted_listing AS (\n\t\t\tINSERT INTO listings (user_id, title, description, image_url, price)\n\t\t\tVALUES ($1, $2, $3, $4, $5)\n\t\t\tRETURNING id, user_id, title, description, image_url, price, created_at\n\t\t)\n\t\tSELECT\n\t\t\til.id,\n\t\t\til.user_id,\n\t\t\tu.login AS author_login,\n\t\t\til.title,\n\t\t\til.description,\n\t\t\til.image_url,\n\t\t\til.price,\n\t\t\til.created_at\n\t\tFROM\n\t\t\tinserted_listing AS il\n\t\tJOIN\n\t\t\tusers AS u ON il.user_id = u.id;\n\t"

/-- The statement of `CheckExists`. -/
def checkExistsQuery : String :=
  "SELECT EXISTS(SELECT 1 FROM listing WHERE id = $1)"

/-- The method `(*ListingRepo).Create`: the listing starts as `models.Listing{IsOwner: true}`
and the row is scanned into its other eight fields. -/
def Create {σ : Type} (env : Env σ) (ctx : Context) (userID : Int)
    (title description imageUrl : String) (price : Int) (s : St σ) :
    Except GoError Listing × St σ :=
  let r := storage.QueryRowWithTx env ctx createQuery
    [.int64 userID, .str title, .str description, .str imageUrl, .int64 price] s
  match r.1 with
  | .ok [SqlVal.int64 id, SqlVal.int64 rowUserID, SqlVal.str authorLogin, SqlVal.str rowTitle,
      SqlVal.str rowDescription, SqlVal.str rowImageURL, SqlVal.int64 rowPrice,
      SqlVal.time createdAt] =>
    (.ok { ID := id, UserID := rowUserID, Title := rowTitle, Description := rowDescription,
           ImageURL := rowImageURL, Price := rowPrice, CreatedAt := createdAt,
           AuthorLogin := authorLogin, IsOwner := true }, r.2)
  | .ok _ =>
    (.error (.wrapf "failed to scan created listing with author login: "
      (.ext (.other "sql: Scan error"))), r.2)
  | .error e =>
    if (GoError.ext e).Is sqlErrNoRows then
      (.error (.wrapf "listing creation failed or author not found: " (.ext e)), r.2)
    else (.error (.wrapf "failed to scan created listing with author login: " (.ext e)), r.2)

/-- The method `(*ListingRepo).CheckExists`. -/
def CheckExists {σ : Type} (env : Env σ) (ctx : Context) (id : Int) (s : St σ) :
    Except GoError Bool × St σ :=
  let r := storage.QueryRowWithTx env ctx checkExistsQuery [.int64 id] s
  (scanBool r.1, r.2)

end ListingRepo

/-! ## internal/services/listing/listing.go -/

namespace ListingService

/-- The method `(*ListingService).GetFeed`. -/
def GetFeed {σ : Type} (env : Env σ) (ctx : Context) (userID page limit : Int)
    (sortBy sortOrder : String) (minPrice maxPrice : Int) (s : St σ) :
    Except GoError ListingsFeed × St σ :=
  ListingRepo.GetFeed env ctx userID page limit sortBy sortOrder minPrice maxPrice s

/-- The method `(*ListingService).CheckExists`. -/
def CheckExists {σ : Type} (env : Env σ) (ctx : Context) (id : Int) (s : St σ) :
    Except GoError Bool × St σ :=
  ListingRepo.CheckExists env ctx id s

end ListingService

/-! ## internal/utils/httputil/response.go, internal/handlers/listing/listing.go -/

/-- What a handler encodes as the JSON body of its response. -/
inductive Body where
  | ErrorResponse (Message : String)
  | feed (f : ListingsFeed)
  | LoginResponse (Token : String) (User : UserPublic)
  deriving DecidableEq, Repr

/-- The response a handler writes with `httputil.WriteJSON(w, data, statusCode, log)`. -/
structure Response where
  statusCode : Nat
  data : Body
  deriving DecidableEq, Repr

/-- The function `httputil.BadRequestError`. -/
def httputil.BadRequestError (msg : String) : Response :=
  { statusCode := 400, data := .ErrorResponse msg }

/-- The function `httputil.InternalError`. -/
def httputil.InternalError : Response :=
  { statusCode := 500, data := .ErrorResponse "internal server error" }

/-- The function `httputil.UnauthorizedError`. -/
def httputil.UnauthorizedError (msg : String) : Response :=
  { statusCode := 401, data := .ErrorResponse msg }

/-- An `*http.Request`, reduced to its context, its URL query (pairs in order), its header
(pairs in order, names in canonical form) and its body. -/
structure Request where
  ctx : Context
  query : List (String × String)
  header : List (String × String) := []
  body : String := ""
  deriving DecidableEq, Repr

/-- The call `r.URL.Query().Get(key)`: the first value of `key`, or the empty string. -/
def Request.queryGet (r : Request) (key : String) : String :=
  match r.query.find? (fun p => p.1 == key) with
  | some p => p.2
  | none => ""

/-- The call `r.Header.Get(key)`: the first value of `key`, or the empty string. -/
def Request.headerGet (r : Request) (key : String) : String :=
  match r.header.find? (fun p => p.1 == key) with
  | some p => p.2
  | none => ""

/-- The method `r.WithContext(ctx)`. -/
def Request.WithContext (r : Request) (ctx : Context) : Request := { r with ctx := ctx }

/-- What `validate.Struct(dst)` returns: nil, a `validator.ValidationErrors` with its
message, or an error of another type. -/
inductive ValidateResult where
  | nil
  | ValidationErrors (msg : String)
  | other (err : ExtError)
  deriving DecidableEq, Repr

/-- The two library calls of `DecodeAndValidate` for a destination of type `α`:
`json.NewDecoder(r.Body).Decode(dst)` as a function of the body, and
`validate.Struct(dst)`. -/
structure Codec (α : Type) where
  decode : String → Except ExtError α
  validateStruct : α → ValidateResult

/-- The function `httputil.DecodeAndValidate`: the decoded value when it returns true, the
response it wrote when it returns false. -/
def httputil.DecodeAndValidate {α : Type} (codec : Codec α) (r : Request) :
    Except Response α :=
  match codec.decode r.body with
  | .error _ => .error (httputil.BadRequestError "Invalid request payload")
  | .ok dst =>
    match codec.validateStruct dst with
    | .ValidationErrors msg => .error (httputil.BadRequestError ("Validation failed: " ++ msg))
    | .other _ => .error httputil.InternalError
    | .nil => .ok dst

namespace ListingHandler

/-- The struct `GetFeedParams`. -/
structure GetFeedParams where
  Page : Int
  Limit : Int
  SortBy : String
  SortOrder : String
  MinPrice : Int
  MaxPrice : Int
  deriving DecidableEq, Repr

/-- The interface method `ListingServiceInterface.GetFeed`. -/
abbrev FeedService (σ : Type) :=
  Context → Int → Int → Int → String → String → Int → Int → St σ →
    Except GoError ListingsFeed × St σ

/-- The `page` block of `GetFeed`: the new `params.Page`, or the message of the 400. -/
def GetFeed.page (r : Request) (params : GetFeedParams) : Except String GetFeedParams :=
  if r.queryGet "page" ≠ "" then
    match strconv.Atoi (r.queryGet "page") with
    | some val =>
      if val ≥ 1 then .ok { params with Page := val } else .error "Invalid 'page' parameter"
    | none => .error "Invalid 'page' parameter"
  else .ok params

/-- The `limit` block of `GetFeed`. -/
def GetFeed.limit (r : Request) (params : GetFeedParams) : Except String GetFeedParams :=
  if r.queryGet "limit" ≠ "" then
    match strconv.Atoi (r.queryGet "limit") with
    | some val =>
      if val ≥ 1 ∧ val ≤ 100 then .ok { params with Limit := val }
      else .error "Invalid 'limit' parameter (must be 1-100)"
    | none => .error "Invalid 'limit' parameter (must be 1-100)"
  else .ok params

/-- The `sortBy` block of `GetFeed`. -/
def GetFeed.sortBy (r : Request) (params : GetFeedParams) : Except String GetFeedParams :=
  if r.queryGet "sortBy" ≠ "" then
    if r.queryGet "sortBy" = "createdAt" ∨ r.queryGet "sortBy" = "price" then
      .ok { params with SortBy := r.queryGet "sortBy" }
    else .error "Invalid 'sortBy' parameter (must be 'createdAt' or 'price')"
  else .ok params

/-- The `sortOrder` block of `GetFeed`. -/
def GetFeed.sortOrder (r : Request) (params : GetFeedParams) : Except String GetFeedParams :=
  if r.queryGet "sortOrder" ≠ "" then
    if r.queryGet "sortOrder" = "asc" ∨ r.queryGet "sortOrder" = "desc" then
      .ok { params with SortOrder := r.queryGet "sortOrder" }
    else .error "Invalid 'sortOrder' parameter (must be 'asc' or 'desc')"
  else .ok params

/-- The `minPrice` block of `GetFeed`. -/
def GetFeed.minPrice (r : Request) (params : GetFeedParams) : Except String GetFeedParams :=
  if r.queryGet "minPrice" ≠ "" then
    match strconv.ParseInt (r.queryGet "minPrice") with
    | some val =>
      if val ≥ 0 then .ok { params with MinPrice := val }
      else .error "Invalid 'minPrice' parameter"
    | none => .error "Invalid 'minPrice' parameter"
  else .ok params

/-- The `maxPrice` block of `GetFeed`. -/
def GetFeed.maxPrice (r : Request) (params : GetFeedParams) : Except String GetFeedParams :=
  if r.queryGet "maxPrice" ≠ "" then
    match strconv.ParseInt (r.queryGet "maxPrice") with
    | some val =>
      if val ≥ 0 then .ok { params with MaxPrice := val }
      else .error "Invalid 'maxPrice' parameter"
    | none => .error "Invalid 'maxPrice' parameter"
  else .ok params

/-- The last test of `GetFeed` before the service call. -/
def GetFeed.priceOrder (params : GetFeedParams) : Except String GetFeedParams :=
  if params.MaxPrice > 0 ∧ params.MinPrice > 0 ∧ params.MaxPrice < params.MinPrice then
    .error "'maxPrice' cannot be less than 'minPrice'"
  else .ok params

/-- The statements of `GetFeed` from the defaults to the last test, in order; each block
either updates `params` or ends the handler with a 400 and its message. -/
def GetFeed.params (r : Request) : Except String GetFeedParams :=
  match GetFeed.page r { Page := 1, Limit := 10, SortBy := "createdAt", SortOrder := "desc",
                         MinPrice := 0, MaxPrice := 0 } with
  | .error msg => .error msg
  | .ok p1 =>
    match GetFeed.limit r p1 with
    | .error msg => .error msg
    | .ok p2 =>
      match GetFeed.sortBy r p2 with
      | .error msg => .error msg
      | .ok p3 =>
        match GetFeed.sortOrder r p3 with
        | .error msg => .error msg
        | .ok p4 =>
          match GetFeed.minPrice r p4 with
          | .error msg => .error msg
          | .ok p5 =>
            match GetFeed.maxPrice r p5 with
            | .error msg => .error msg
            | .ok p6 => GetFeed.priceOrder p6

/-- The method `(*ListingHandler).GetFeed`: the response written and the state after. -/
def GetFeed {σ : Type} (listingService : FeedService σ) (r : Request) (s : St σ) :
    Response × St σ :=
  match GetFeed.params r with
  | .error msg => (httputil.BadRequestError msg, s)
  | .ok params =>
    match listingService r.ctx (utils.GetInfoFromContext r.ctx).1 params.Page params.Limit
        params.SortBy params.SortOrder params.MinPrice params.MaxPrice s with
    | (.error _, s1) => (httputil.InternalError, s1)
    | (.ok feed, s1) => ({ statusCode := 200, data := .feed feed }, s1)

end ListingHandler

/-! ## internal/handlers/auth/auth.go -/

namespace AuthHandler

/-- The struct `LoginRequest`. -/
structure LoginRequest where
  Login : String
  Password : String
  deriving DecidableEq, Repr

/-- The interface method `AuthServiceInterface.Login`. -/
abbrev LoginService (σ : Type) :=
  Context → String → String → St σ → (Option UserPublic × String × Option GoError) × St σ

/-- The method `(*AuthHandler).Login`: the response written and the state after; no
response when the handler ends in a panic (the service panicked, or it returned a nil
user with a nil error and `*user` is dereferenced). -/
def Login {σ : Type} (authService : LoginService σ) (codec : Codec LoginRequest)
    (r : Request) (s : St σ) : Option Response × St σ :=
  match httputil.DecodeAndValidate codec r with
  | .error resp => (some resp, s)
  | .ok req =>
    match authService r.ctx req.Login req.Password s with
    | ((_, _, some (.panic _)), s1) => (none, s1)
    | ((_, _, some err), s1) =>
      if err.Is .ErrInvalidCredentials || err.Is .ErrUserNotFound then
        (some (httputil.UnauthorizedError GoError.ErrInvalidCredentials.Error), s1)
      else (some httputil.InternalError, s1)
    | ((some user, token, none), s1) =>
      (some { statusCode := 200, data := .LoginResponse token user }, s1)
    | ((none, _, none), s1) => (none, s1)

end AuthHandler

/-! ## internal/middlewares/auth.go -/

namespace middlewares

/-- The interface method `AuthServiceInterface.ValidateToken`. -/
abbrev TokenValidator (σ : Type) := Context → String → St σ → (Int × Option GoError) × St σ

/-- An `http.Handler`: the response it writes for a request and the state after. -/
abbrev Handler (σ : Type) := Request → St σ → Response × St σ

/-- The function `validateToken`: Go's `(context.Context, error)`. -/
def validateToken {σ : Type} (authService : TokenValidator σ) (r : Request) (s : St σ) :
    Except GoError Context × St σ :=
  if r.headerGet "Authorization" = "" then
    (.error (.errorsNew "authorization header is missing"), s)
  else
    let tokenParts := strings.Split (r.headerGet "Authorization") ' '
    if tokenParts.length ≠ 2 ∨ tokenParts.getD 0 "" ≠ "Bearer" then
      (.error (.errorsNew "invalid authorization header format"), s)
    else
      match authService r.ctx (tokenParts.getD 1 "") s with
      | ((_, some err), s1) => (.error err, s1)
      | ((userID, none), s1) =>
        (.ok (r.ctx.WithValue CtxKey.UserIDKey (CtxVal.int64 userID)), s1)

/-- The handler `AuthMiddleware(log, authService)(h)`. -/
def AuthMiddleware {σ : Type} (authService : TokenValidator σ) (h : Handler σ) : Handler σ :=
  fun r s =>
    match validateToken authService r s with
    | (.error _, s1) => (httputil.UnauthorizedError "unauthorized", s1)
    | (.ok ctx, s1) => h (r.WithContext ctx) s1

/-- The handler `OptionalAuthMiddleware(log, authService)(h)`. -/
def OptionalAuthMiddleware {σ : Type} (authService : TokenValidator σ) (h : Handler σ) :
    Handler σ :=
  fun r s =>
    match validateToken authService r s with
    | (.error _, s1) => h r s1
    | (.ok ctx, s1) => h (r.WithContext ctx) s1

end middlewares

/-! ## A reference store

The database itself is outside the repository.  To state what a sequence of calls leaves
in the store, the tables of the persisted schema and the statements the repositories
issue are given a reference semantics here: `Store.env` is an `Env` over `Store.World`.
-/

namespace Store

/-- A row of `users(id, login UNIQUE, password_hash, created_at)`. -/
structure UserRow where
  id : Int
  login : String
  password_hash : String
  created_at : Time
  deriving DecidableEq, Repr

/-- A row of `tokens(token UNIQUE, user_id, expires_at)`. -/
structure TokenRow where
  token : String
  user_id : Int
  expires_at : Time
  deriving DecidableEq, Repr

/-- Modelled from the spec: the persisted schema of section 6 (the migrations are not among
the sources), restricted to `users` and `tokens`; `nextUserID` is the sequence behind
`users.id`. -/
structure Tables where
  users : List UserRow
  tokens : List TokenRow
  nextUserID : Int
  deriving DecidableEq, Repr

/-- The world behind the reference store: the committed tables, the open transactions
each with its working copy of the tables, the next transaction handle, the clock (it
advances by `tick` at every reading) and the random source. -/
structure World where
  committed : Tables
  active : List (SqlTx × Tables)
  nextTx : Nat
  clock : Time
  tick : Duration
  seed : Nat
  deriving DecidableEq, Repr

/-- The working copy of an open transaction. -/
def lookupTx : List (SqlTx × Tables) → SqlTx → Option Tables
  | [], _ => none
  | (t, tbl) :: rest, tx => if t = tx then some tbl else lookupTx rest tx

/-- Replace the working copy of an open transaction. -/
def updateTx : List (SqlTx × Tables) → SqlTx → Tables → List (SqlTx × Tables)
  | [], _, _ => []
  | (t, tbl) :: rest, tx, new =>
    if t = tx then (t, new) :: rest else (t, tbl) :: updateTx rest tx new

/-- Close a transaction. -/
def removeTx : List (SqlTx × Tables) → SqlTx → List (SqlTx × Tables)
  | [], _ => []
  | (t, tbl) :: rest, tx => if t = tx then rest else (t, tbl) :: removeTx rest tx

/-- The error the reference store reports for a statement or argument list it does not
know. -/
def errUnknownStatement : ExtError := .other "pq: unknown statement"

/-- The error of a violated UNIQUE constraint. -/
def errUniqueViolation : ExtError :=
  .other "pq: duplicate key value violates unique constraint"

/-- The columns `id, login, password_hash, created_at` of a user row. -/
def userColumns (u : UserRow) : List SqlVal :=
  [.int64 u.id, .str u.login, .str u.password_hash, .time u.created_at]

/-- The words after the characters `cs` of a statement text; `cur` holds the characters
of the word being read, newest first. -/
def words.go : List Char → List Char → List String
  | [], cur => if cur = [] then [] else [String.mk cur.reverse]
  | c :: rest, cur =>
    if c = ' ' ∨ c = '\t' ∨ c = '\n' ∨ c = '\r' then
      (if cur = [] then [] else [String.mk cur.reverse]) ++ words.go rest []
    else words.go rest (c :: cur)

/-- The words of a statement text: the maximal runs of characters other than blanks, tabs
and line breaks, in order. -/
def words (query : String) : List String := words.go query.data []

/-- A comparison operator of a WHERE clause. -/
inductive CompareOp where
  | lt
  | le
  | gt
  | ge
  | eq
  deriving DecidableEq, Repr

/-- The operator a word of a statement stands for. -/
def CompareOp.read (word : String) : Option CompareOp :=
  if word = "<" then some .lt
  else if word = "<=" then some .le
  else if word = ">" then some .gt
  else if word = ">=" then some .ge
  else if word = "=" then some .eq
  else none

/-- Whether `a op b` holds. -/
def CompareOp.holds : CompareOp → Int → Int → Bool
  | .lt, a, b => decide (a < b)
  | .le, a, b => decide (a ≤ b)
  | .gt, a, b => decide (b < a)
  | .ge, a, b => decide (b ≤ a)
  | .eq, a, b => decide (a = b)

/-- The statements issued through `QueryRowContext`, read from their text and run on tables
at server time `now`: the row (or the error `Scan` reports) and the tables afterwards.
An existence test on `users.login` or `tokens.token`, the insert of a user returning
`id, login, created_at`, and the selection of a user by `login` or by `id`. -/
def queryRowOn (query : String) (args : List SqlVal) (now : Time) (t : Tables) :
    Row × Tables :=
  if words query =
      ["SELECT", "EXISTS(SELECT", "1", "FROM", "users", "WHERE", "login", "=", "$1)"] then
    match args with
    | [.str login] => (.ok [.bool (t.users.any (fun u => u.login == login))], t)
    | _ => (.error errUnknownStatement, t)
  else if words query =
      ["INSERT", "INTO", "users", "(login,", "password_hash)", "VALUES", "($1,", "$2)",
        "RETURNING", "id,", "login,", "created_at"] then
    match args with
    | [.str login, .str hash] =>
      if t.users.any (fun u => u.login == login) then (.error errUniqueViolation, t)
      else
        (.ok [.int64 t.nextUserID, .str login, .time now],
          { t with
            users := t.users ++
              [{ id := t.nextUserID, login := login, password_hash := hash, created_at := now }],
            nextUserID := t.nextUserID + 1 })
    | _ => (.error errUnknownStatement, t)
  else if words query =
      ["SELECT", "id,", "login,", "password_hash,", "created_at", "FROM", "users", "WHERE",
        "login", "=", "$1"] then
    match args with
    | [.str login] =>
      match t.users.find? (fun u => u.login == login) with
      | some u => (.ok (userColumns u), t)
      | none => (.error .ErrNoRows, t)
    | _ => (.error errUnknownStatement, t)
  else if words query =
      ["SELECT", "id,", "login,", "password_hash,", "created_at", "FROM", "users", "WHERE",
        "id", "=", "$1"] then
    match args with
    | [.int64 id] =>
      match t.users.find? (fun u => u.id == id) with
      | some u => (.ok (userColumns u), t)
      | none => (.error .ErrNoRows, t)
    | _ => (.error errUnknownStatement, t)
  else if words query =
      ["SELECT", "EXISTS(SELECT", "1", "FROM", "tokens", "WHERE", "token", "=", "$1)"] then
    match args with
    | [.str token] => (.ok [.bool (t.tokens.any (fun r => r.token == token))], t)
    | _ => (.error errUnknownStatement, t)
  else (.error errUnknownStatement, t)

/-- The statements issued through `ExecContext`, read from their text and run on tables:
the insert of a token row, and `DELETE FROM tokens WHERE expires_at op $1` for a comparison
operator `op`, which deletes the rows whose `expires_at` stands in that relation to the
argument. -/
def execOn (query : String) (args : List SqlVal) (t : Tables) :
    Except ExtError SqlResult × Tables :=
  if words query =
      ["INSERT", "INTO", "tokens", "(token,", "user_id,", "expires_at)", "VALUES", "($1,",
        "$2,", "$3)"] then
    match args with
    | [.str token, .int64 userID, .time expiresAt] =>
      if t.tokens.any (fun r => r.token == token) then (.error errUniqueViolation, t)
      else
        (.ok { lastInsertId := 0, rowsAffected := 1 },
          { t with
            tokens := t.tokens ++
              [{ token := token, user_id := userID, expires_at := expiresAt }] })
    | _ => (.error errUnknownStatement, t)
  else
    match words query, args with
    | ["DELETE", "FROM", "tokens", "WHERE", "expires_at", op, "$1"], [.time bound] =>
      match CompareOp.read op with
      | some cmp =>
        (.ok { lastInsertId := 0,
               rowsAffected :=
                 ((t.tokens.filter (fun r => cmp.holds r.expires_at bound)).length : Int) },
          { t with tokens := t.tokens.filter (fun r => !cmp.holds r.expires_at bound) })
      | none => (.error errUnknownStatement, t)
    | _, _ => (.error errUnknownStatement, t)

/-- Run a statement on a receiver: the pool works on the committed tables, an open
transaction on its working copy, a closed transaction reports `ErrTxDone`. -/
def onConn {α : Type} (conn : Conn) (run : Tables → α × Tables) (failed : ExtError → α)
    (w : World) : α × World :=
  match conn with
  | .pool => ((run w.committed).1, { w with committed := (run w.committed).2 })
  | .tx tx =>
    match lookupTx w.active tx with
    | none => (failed .ErrTxDone, w)
    | some tbl => ((run tbl).1, { w with active := updateTx w.active tx (run tbl).2 })

/-- Begin a transaction: a fresh handle whose working copy starts as the committed tables. -/
def beginTx (_opts : Option TxOptions) (w : World) : Except ExtError SqlTx × World :=
  (.ok { id := w.nextTx },
    { w with active := ({ id := w.nextTx }, w.committed) :: w.active, nextTx := w.nextTx + 1 })

/-- Commit: the working copy becomes the committed tables and the transaction closes. -/
def commit (tx : SqlTx) (w : World) : Option ExtError × World :=
  match lookupTx w.active tx with
  | none => (some .ErrTxDone, w)
  | some tbl => (none, { w with committed := tbl, active := removeTx w.active tx })

/-- Rollback: the working copy is dropped and the transaction closes. -/
def rollback (tx : SqlTx) (w : World) : Option ExtError × World :=
  match lookupTx w.active tx with
  | none => (some .ErrTxDone, w)
  | some _ => (none, { w with active := removeTx w.active tx })

/-- The reference store as an `Env`. -/
def env : Env World where
  beginTx := beginTx
  commit := commit
  rollback := rollback
  exec := fun conn query args w => onConn conn (execOn query args) Except.error w
  queryRow := fun conn query args w => onConn conn (queryRowOn query args w.clock) Except.error w
  query := fun _ _ _ w => (.error errUnknownStatement, w)
  now := fun w => (w.clock, { w with clock := w.clock + w.tick })
  rand := fun w => (w.seed, { w with seed := w.seed + 1 })

/-- A world with the given committed tables, no open transaction and the given clock. -/
def World.init (tables : Tables) (clock : Time) : World :=
  { committed := tables, active := [], nextTx := 1, clock := clock, tick := 1, seed := 0 }

end Store

/-- The nearest float64 to an int64 (ties to even), as the integer it denotes: what a
JSON number written from an int64 decodes to.  Up to 2 ^ 53 in magnitude the value is
exact; above, `e` is the number of low bits that do not fit the 53-bit significand. -/
def float64OfInt64 (n : Int) : Int :=
  if n.natAbs ≤ 2 ^ 53 then n
  else
    let e := ((List.range 11).filter (fun i => decide (2 ^ 53 ≤ n.natAbs / 2 ^ i))).length
    let q := n.natAbs / 2 ^ e
    let r := n.natAbs % 2 ^ e
    let up := decide (2 ^ (e - 1) < r) || (decide (r = 2 ^ (e - 1)) && decide (q % 2 = 1))
    n.sign * (((if up then q + 1 else q) * 2 ^ e : Nat) : Int)

/-- A claim set after it was written as JSON and decoded again: every integer comes back
as the nearest float64. -/
def jsonRoundTrip (claims : MapClaims) : MapClaims :=
  claims.map (fun p =>
    match p.2 with
    | .int64 n => (p.1, ClaimVal.float64 (float64OfInt64 n))
    | v => (p.1, v))

/-- A library stub for closed examples: bcrypt hashes a password to `"$2a$" ++ password`
and accepts exactly that; every signing yields `tokenString`, which decodes to the
round trip of `payload` and verifies under `key`. -/
def stubLib (tokenString : String) (payload : MapClaims) (key : String) : Lib where
  bcryptGenerate := fun password _ _ => .ok ("$2a$" ++ password)
  bcryptCompare := fun hash password =>
    if hash = "$2a$" ++ password then none
    else some (.other "crypto/bcrypt: hashedPassword is not the hash of the given password")
  jwtSign := fun _ _ _ => .ok tokenString
  jwtDecode := fun t =>
    if t = tokenString then .ok (SigningMethodHS256, jsonRoundTrip payload)
    else .error (.other "token is malformed")
  jwtVerify := fun _ t k => decide (t = tokenString) && decide (k = key)

/-- An environment stub for closed examples of the feed: every query yields `rows`, every
other database call fails, the clock stands still. -/
def stubFeedEnv (rows : List (List SqlVal)) : Env Unit where
  beginTx := fun _ w => (.error (.other "stub"), w)
  commit := fun _ w => (some (.other "stub"), w)
  rollback := fun _ w => (some (.other "stub"), w)
  exec := fun _ _ _ w => (.error (.other "stub"), w)
  queryRow := fun _ _ _ w => (.error (.other "stub"), w)
  query := fun _ _ _ w => (.ok { rows := rows, err := none, closeErr := none }, w)
  now := fun w => (0, w)
  rand := fun w => (0, w)

/-! ## A reference store for listings -/

namespace ListingStore

/-- A row of `listings(id, user_id, title, description, image_url, price, created_at)`. -/
structure ListingRow where
  id : Int
  user_id : Int
  title : String
  description : String
  image_url : String
  price : Int
  created_at : Time
  deriving DecidableEq, Repr

/-- Modelled from the spec: the table `listings` of the persisted schema of section 6 (the
migrations are not among the sources), beside the ids and logins of `users`;
`nextListingID` is the sequence behind `listings.id`. -/
structure World where
  listings : List ListingRow
  users : List (Int × String)
  nextListingID : Int
  clock : Time
  deriving DecidableEq, Repr

/-- The relations of the persisted schema. -/
def relations : List String := ["users", "tokens", "listings"]

/-- The rest of `cs` after the literal `lit`, when `cs` starts with it. -/
def dropLiteral : List Char → List Char → Option (List Char)
  | [], cs => some cs
  | _ :: _, [] => none
  | l :: lit, c :: cs => if l = c then dropLiteral lit cs else none

/-- The relation named by a statement of the form
`SELECT EXISTS(SELECT 1 FROM relation WHERE id = $1)`. -/
def existsByIDRelation (query : String) : Option String :=
  match dropLiteral "SELECT EXISTS(SELECT 1 FROM ".data query.data with
  | none => none
  | some rest =>
    if rest.dropWhile (fun c => c.isAlphanum || c == '_') = " WHERE id = $1)".data ∧
        rest.takeWhile (fun c => c.isAlphanum || c == '_') ≠ [] then
      some (String.mk (rest.takeWhile (fun c => c.isAlphanum || c == '_')))
    else none

/-- The error of the database for a statement that names a relation it does not have. -/
def errUndefinedRelation (name : String) : ExtError :=
  .other ("pq: relation does not exist: " ++ name)

/-- One statement read as a single row.  The statement of `ListingRepo.Create` inserts a
listing for an existing user and returns it joined with the login of its author; an
existence test by id is answered on the relation it names. -/
def queryRow (_conn : Conn) (query : String) (args : List SqlVal) (w : World) : Row × World :=
  if query = ListingRepo.createQuery then
    match args with
    | [.int64 userID, .str title, .str description, .str imageUrl, .int64 price] =>
      match w.users.find? (fun u => u.1 == userID) with
      | some u =>
        (.ok [.int64 w.nextListingID, .int64 userID, .str u.2, .str title, .str description,
              .str imageUrl, .int64 price, .time w.clock],
          { w with
            listings := w.listings ++
              [{ id := w.nextListingID, user_id := userID, title := title,
                 description := description, image_url := imageUrl, price := price,
                 created_at := w.clock }],
            nextListingID := w.nextListingID + 1 })
      | none => (.error (.other "pq: foreign key violation: listings.user_id"), w)
    | _ => (.error Store.errUnknownStatement, w)
  else
    match existsByIDRelation query, args with
    | some name, [.int64 id] =>
      if name = "listings" then (.ok [.bool (w.listings.any (fun l => l.id == id))], w)
      else if name = "users" then (.ok [.bool (w.users.any (fun u => u.1 == id))], w)
      else if name ∈ relations then (.error (.other "pq: column id does not exist"), w)
      else (.error (errUndefinedRelation name), w)
    | _, _ => (.error Store.errUnknownStatement, w)

/-- The reference store for listings as an environment; statements are applied at once
on every receiver, and transactions, `Exec` and multi-row queries are not offered. -/
def env : Env World where
  beginTx := fun _ w => (.error (.other "not offered"), w)
  commit := fun _ w => (some .ErrTxDone, w)
  rollback := fun _ w => (some .ErrTxDone, w)
  exec := fun _ _ _ w => (.error Store.errUnknownStatement, w)
  queryRow := queryRow
  query := fun _ _ _ w => (.error Store.errUnknownStatement, w)
  now := fun w => (w.clock, w)
  rand := fun w => (0, w)

end ListingStore

/-! ## Vocabulary of the statements proved below -/

/-- The value `v` a query parameter with raw text `raw` stands for: the default `dflt`
when the text is empty, else what `parse` reads from it, which must be admissible. -/
def paramIs {α : Type} (raw : String) (dflt : α) (parse : String → Option α)
    (admissible : α → Prop) (v : α) : Prop :=
  (raw = "" ∧ v = dflt) ∨ (raw ≠ "" ∧ parse raw = some v ∧ admissible v)

/-- The identifiers after the characters `cs` of a statement text; `cur` holds the
characters of the identifier being read, newest first. -/
def identifiers.go : List Char → List Char → List String
  | [], cur => if cur = [] then [] else [String.mk cur.reverse]
  | c :: rest, cur =>
    if c.isAlphanum || c == '_' then identifiers.go rest (c :: cur)
    else (if cur = [] then [] else [String.mk cur.reverse]) ++ identifiers.go rest []

/-- The identifiers of a statement text (maximal runs of letters, digits and `_`), in
order of appearance. -/
def identifiers (query : String) : List String := identifiers.go query.data []

/-- A statement a unit of work issues through the store adapter. -/
inductive Stmt where
  | exec (query : String) (args : List SqlVal)
  | queryRow (query : String) (args : List SqlVal)
  | query (query : String) (args : List SqlVal)
  deriving DecidableEq, Repr

/-- Issue one statement through the adapter with context `ctx`. -/
def runStmt {σ : Type} (env : Env σ) (ctx : Context) (st : Stmt) (s : St σ) : St σ :=
  match st with
  | .exec q args => (storage.ExecWithTx env ctx q args s).2
  | .queryRow q args => (storage.QueryRowWithTx env ctx q args s).2
  | .query q args => (storage.QueryWithTx env ctx q args s).2

/-- Issue a list of statements in order through the adapter with context `ctx`. -/
def runScript {σ : Type} (env : Env σ) (ctx : Context) : List Stmt → St σ → St σ
  | [], s => s
  | st :: rest, s => runScript env ctx rest (runStmt env ctx st s)

/-- A unit of work that issues `script` with the context it is given and then returns
`result`. -/
def scriptedUnit {σ κ : Type} (env : Env σ) (script : List Stmt) (result : Option GoError) :
    Context → κ → St σ → (Option GoError × κ) × St σ :=
  fun txCtx k s => ((result, k), runScript env txCtx script s)

/-- Among `events`, exactly one of `Commit` and `Rollback` was invoked on `tx`, and that
one exactly once. -/
def exactlyOneOfCommitRollback (tx : SqlTx) (events : List Event) : Prop :=
  (events.count (Event.Commit tx) = 1 ∧ events.count (Event.Rollback tx) = 0) ∨
  (events.count (Event.Commit tx) = 0 ∧ events.count (Event.Rollback tx) = 1)

/-- The receiver the adapter picks for a context: the bound transaction, else the pool. -/
def connOf (ctx : Context) : Conn :=
  match storage.getTxFromContext ctx with
  | some tx => .tx tx
  | none => .pool

/-- The expiry `createToken` computes in state `s`: the first clock reading plus the
configured lifetime. -/
def mintedExpiry {σ : Type} (env : Env σ) (cfg : Config) (s : St σ) : Time :=
  (env.now s.world).1 + cfg.JWT.TokenLiveTime

/-- The claim set `createToken` signs for `userID` in state `s`; `iat` comes from the
second clock reading. -/
def mintedClaims {σ : Type} (env : Env σ) (cfg : Config) (userID : Int) (s : St σ) :
    MapClaims :=
  [("userID", .int64 userID), ("exp", .int64 (Time.Unix (mintedExpiry env cfg s))),
    ("iat", .int64 (Time.Unix (env.now (env.now s.world).2).1))]

/-- The world after the two clock readings of `createToken`. -/
def mintedWorld {σ : Type} (env : Env σ) (s : St σ) : σ :=
  (env.now (env.now s.world).2).2

/-- The user lookup `Login` performs from state `s`: `none` when `BeginTx` fails, else the
result of `GetByLogin` with the context of the begun transaction. -/
def loginLookup {σ : Type} (env : Env σ) (ctx : Context) (login : String) (s : St σ) :
    Option (Except GoError User) :=
  match AuthRepo.BeginTx env ctx none s with
  | (.error _, _) => none
  | (.ok tx, s1) =>
    some (UserService.GetByLogin env (ctx.WithValue CtxKey.TxKey (CtxVal.sqlTx tx)) login s1).1

/-- The claim set `createToken` signs on the reference store for `userID` when the clock
reads `clock` and advances by `tick` between readings. -/
def Store.claimsAt (cfg : Config) (userID : Int) (clock : Time) (tick : Duration) : MapClaims :=
  [("userID", .int64 userID), ("exp", .int64 (Time.Unix (clock + cfg.JWT.TokenLiveTime))),
    ("iat", .int64 (Time.Unix (clock + tick)))]

/-- The placeholders `$k` of a statement text after the characters `cs`, in order of
appearance; `cur` is `some none` right after a `$` and `some (some n)` while the digits of
`$n` are being read. -/
def placeholders.go : List Char → Option (Option Nat) → List Nat
  | [], some (some n) => [n]
  | [], _ => []
  | c :: rest, cur =>
    if c.isDigit then
      match cur with
      | some none => placeholders.go rest (some (some (c.toNat - 48)))
      | some (some n) => placeholders.go rest (some (some (10 * n + (c.toNat - 48))))
      | none => placeholders.go rest none
    else
      (match cur with
        | some (some n) => [n]
        | _ => []) ++ placeholders.go rest (if c = '$' then some none else none)

/-- The placeholders `$k` of a statement text, in order of appearance. -/
def placeholders (query : String) : List Nat := placeholders.go query.data none

/-- The four ORDER BY clauses the feed is meant to use. -/
def orderByWhitelist : List String :=
  ["ORDER BY l.created_at ASC", "ORDER BY l.created_at DESC", "ORDER BY l.price ASC",
    "ORDER BY l.price DESC"]

namespace Example

/-- A configuration: secret, a token lifetime of five seconds, bcrypt cost 12. -/
def cfg : Config :=
  { JWT := { JWTSecret := "secret", TokenLiveTime := 5000000000, BCryptCost := 12 } }

/-- An empty store at second 1. -/
def world : Store.World :=
  Store.World.init { users := [], tokens := [], nextUserID := 1 } 1000000000

/-- The empty store with nothing called yet. -/
def start : St Store.World := { world := world, trace := [] }

/-- The claims `createToken` signs for user 1 on the empty store at second 1. -/
def payload : MapClaims :=
  [("userID", .int64 1), ("exp", .int64 6), ("iat", .int64 1)]

/-- A library that signs every claim set as `"tok"`, which decodes to `payload`. -/
def lib : Lib := stubLib "tok" payload "secret"

/-- The store after `alice` registered on the empty store. -/
def registered : St Store.World :=
  (AuthService.Register lib Store.env cfg [] "alice" "password123" start).2

/-- The store after `alice` registered and logged in. -/
def loggedIn : St Store.World :=
  (AuthService.Login lib Store.env cfg [] "alice" "password123" registered).2

/-- An empty store at second 1 whose next user id is 2 ^ 53 + 1. -/
def bigStart : St Store.World :=
  { world := Store.World.init { users := [], tokens := [], nextUserID := 9007199254740993 }
      1000000000,
    trace := [] }

/-- A library that signs every claim set as `"tok"`, which decodes to the claims of user
2 ^ 53 + 1 after their JSON round trip. -/
def bigLib : Lib :=
  stubLib "tok" (Store.claimsAt cfg 9007199254740993 1000000000 1) "secret"

/-- The store after `alice` registered and logged in on `bigStart`. -/
def bigLoggedIn : St Store.World :=
  (AuthService.Login bigLib Store.env cfg [] "alice" "password123"
    (AuthService.Register bigLib Store.env cfg [] "alice" "password123" bigStart).2).2

/-- A library whose token `"tok"` decodes to claims of user 1 with `exp` at 10 ^ 19
seconds, a whole number beyond the int64 range. -/
def farLib : Lib :=
  stubLib "tok" [("userID", .float64 1), ("exp", .float64 10000000000000000000)] "secret"

/-- A store at second 1 whose only token row holds `"tok"` and expired at half a second. -/
def staleRow : St Store.World :=
  { world := Store.World.init
      { users := [], tokens := [{ token := "tok", user_id := 1, expires_at := 500000000 }],
        nextUserID := 2 } 1000000000,
    trace := [] }

/-- A store at second 1 with three token rows: one expiring a nanosecond before the clock,
one at the clock, one a nanosecond after it. -/
def threeRows : St Store.World :=
  { world := Store.World.init
      { users := [],
        tokens := [{ token := "a", user_id := 1, expires_at := 999999999 },
                   { token := "b", user_id := 1, expires_at := 1000000000 },
                   { token := "c", user_id := 2, expires_at := 1000000001 }],
        nextUserID := 3 } 1000000000,
    trace := [] }

/-- A unit of work that inserts user `bob` through the context it is given. -/
def insertBob : Context → Unit → St Store.World → (Option GoError × Unit) × St Store.World :=
  scriptedUnit Store.env [Stmt.queryRow UserRepo.createQuery [.str "bob", .str "hash"]] none

/-- A unit of work that inserts user `bob` through the context it is given and then
returns an error. -/
def insertBobThenFail :
    Context → Unit → St Store.World → (Option GoError × Unit) × St Store.World :=
  scriptedUnit Store.env [Stmt.queryRow UserRepo.createQuery [.str "bob", .str "hash"]]
    (some (GoError.errorsNew "unit failed"))

/-- A unit of work that opens a nested `WithTransaction` with the context it is given,
inserts `bob` there, and then fails. -/
def nestedThenFail :
    Context → Unit → St Store.World → (Option GoError × Unit) × St Store.World :=
  fun txCtx k s =>
    ((some (GoError.errorsNew "outer failed"), k),
      (storage.WithTransaction Store.env txCtx (AuthRepo.BeginTx Store.env) insertBob k s).2)

/-- Two rows of the feed statement: a listing of user 7 and a listing of user 8. -/
def feedRows : List (List SqlVal) :=
  [[.int64 1, .int64 7, .str "alice", .str "Lamp", .str "A desk lamp", .str "/img/1.png",
      .int64 1500, .time 100],
    [.int64 2, .int64 8, .str "bob", .str "Chair", .str "An oak chair", .str "/img/2.png",
      .int64 4000, .time 90]]

/-- The state before a feed example: nothing issued yet. -/
def feedStart : St Unit := { world := (), trace := [] }

/-- The listings read from `feedRows` for the caller with id 7. -/
def feedPage : ListingsFeed :=
  { Listings :=
      [{ ID := 1, UserID := 7, Title := "Lamp", Description := "A desk lamp",
         ImageURL := "/img/1.png", Price := 1500, CreatedAt := 100, AuthorLogin := "alice",
         IsOwner := true },
        { ID := 2, UserID := 8, Title := "Chair", Description := "An oak chair",
          ImageURL := "/img/2.png", Price := 4000, CreatedAt := 90, AuthorLogin := "bob",
          IsOwner := false }],
    Total := 2, Page := 1, Limit := 10 }

/-- The request `GET /listing/feed?minPrice=100&maxPrice=0` without a user id. -/
def minOnlyRequest : Request :=
  { ctx := [], query := [("minPrice", "100"), ("maxPrice", "0")] }

/-- The request `GET /listing/feed?minPrice=100&maxPrice=50` without a user id. -/
def invertedRequest : Request :=
  { ctx := [], query := [("minPrice", "100"), ("maxPrice", "50")] }

/-- The request `GET /listing/feed?page=9223372036854775807&limit=100`. -/
def lastPageRequest : Request :=
  { ctx := [], query := [("page", "9223372036854775807"), ("limit", "100")] }

/-- The request `GET /listing/feed?page=4611686018427387905&limit=4`. -/
def wrappedPageRequest : Request :=
  { ctx := [], query := [("page", "4611686018427387905"), ("limit", "4")] }

/-- A store of listings with the user 7, `alice`, and no listing, at instant 100. -/
def listingStart : St ListingStore.World :=
  { world := { listings := [], users := [(7, "alice")], nextListingID := 1, clock := 100 },
    trace := [] }

/-- The state after `ListingRepo.Create` for user 7 on `listingStart`. -/
def listingCreated : St ListingStore.World :=
  (ListingRepo.Create ListingStore.env [] 7 "Lamp" "A desk lamp" "/img/1.png" 1500
    listingStart).2

/-- A codec that reads a body of the form `login password`. -/
def loginCodec : Codec AuthHandler.LoginRequest where
  decode := fun body =>
    match strings.Split body ' ' with
    | [login, password] => .ok { Login := login, Password := password }
    | _ => .error (.other "unexpected end of JSON input")
  validateStruct := fun _ => .nil

/-- A login request of `alice` with a password that is not hers. -/
def loginRequest : Request :=
  { ctx := [], query := [], body := "alice wrong-password" }

/-- A feed request with the bearer token `tok`. -/
def bearerRequest : Request :=
  { ctx := [], query := [], header := [("Authorization", "Bearer tok")] }

/-- A feed request whose Authorization header is not of the bearer form. -/
def basicRequest : Request :=
  { ctx := [], query := [], header := [("Authorization", "Basic dXNlcjpwYXNz")] }

/-- A handler that answers 200 with an empty feed carrying, as `Total`, the user id it
finds in the context of the request (`-1` when there is none). -/
def echoHandler : middlewares.Handler Store.World :=
  fun r s =>
    ({ statusCode := 200,
       data := .feed { Listings := [], Total := (utils.GetInfoFromContext r.ctx).1,
                       Page := 1, Limit := 10 } }, s)

end Example

end Marketplace

namespace Marketplace
open storage

/-! ## Lemmas on the transaction coordinator -/

theorem deferred_state {σ : Type} (env : Env σ) (tx : SqlTx) (txErr : Option GoError) (s : St σ) :
    (WithTransaction.deferred env tx txErr s).2 =
      { world := (env.rollback tx s.world).2, trace := s.trace ++ [Event.Rollback tx] } := by
  unfold WithTransaction.deferred SqlTx.Rollback
  cases h : (env.rollback tx s.world).1 with
  | none => simp
  | some e => simp only [Option.map_some']; split <;> rfl

theorem WithTransaction_begin_error {σ κ : Type} (env : Env σ) (ctx : Context)
    (repo : BeginTx σ) (fn : Context → κ → St σ → (Option GoError × κ) × St σ) (k : κ)
    (s s1 : St σ) (b : GoError) (hbegin : repo ctx none s = (.error b, s1)) :
    WithTransaction env ctx repo fn k s =
      ((some (.wrapf "failed to start transaction: " b), k), s1) := by
  simp [WithTransaction, hbegin]

theorem WithTransaction_fn_error {σ κ : Type} (env : Env σ) (ctx : Context)
    (repo : BeginTx σ) (fn : Context → κ → St σ → (Option GoError × κ) × St σ) (k k' : κ)
    (s s1 s2 : St σ) (tx : SqlTx) (e : GoError)
    (hbegin : repo ctx none s = (.ok tx, s1))
    (hfn : fn (ctx.WithValue CtxKey.TxKey (CtxVal.sqlTx tx)) k s1 = ((some e, k'), s2)) :
    WithTransaction env ctx repo fn k s =
      ((some e, k'),
        { world := (env.rollback tx s2.world).2, trace := s2.trace ++ [Event.Rollback tx] }) := by
  simp [WithTransaction, hbegin, WithTransaction.body, hfn, deferred_state]

theorem WithTransaction_fn_ok {σ κ : Type} (env : Env σ) (ctx : Context)
    (repo : BeginTx σ) (fn : Context → κ → St σ → (Option GoError × κ) × St σ) (k k' : κ)
    (s s1 s2 : St σ) (tx : SqlTx)
    (hbegin : repo ctx none s = (.ok tx, s1))
    (hfn : fn (ctx.WithValue CtxKey.TxKey (CtxVal.sqlTx tx)) k s1 = ((none, k'), s2)) :
    WithTransaction env ctx repo fn k s =
      (((match (env.commit tx s2.world).1 with
          | some c => some (GoError.wrapf "failed to commit transaction: " (.ext c))
          | none => none), k'),
        { world := (env.rollback tx (env.commit tx s2.world).2).2,
          trace := s2.trace ++ [Event.Commit tx, Event.Rollback tx] }) := by
  simp only [WithTransaction, hbegin, WithTransaction.body, hfn, deferred_state, SqlTx.Commit]
  cases h : (env.commit tx s2.world).1 <;> simp [h]

theorem getTxFromContext_WithValue (ctx : Context) (tx : SqlTx) :
    getTxFromContext (ctx.WithValue CtxKey.TxKey (CtxVal.sqlTx tx)) = some tx := by
  simp [getTxFromContext, Context.WithValue, Context.Value]

theorem AuthRepo_BeginTx_eq {σ : Type} (env : Env σ) (ctx : Context) (opts : Option TxOptions)
    (s : St σ) :
    AuthRepo.BeginTx env ctx opts s =
      (liftExcept (env.beginTx opts s.world).1,
        { world := (env.beginTx opts s.world).2, trace := s.trace ++ [Event.BeginTx opts] }) :=
  rfl

/-! ## Lemmas on the reference store -/

theorem Store.onConn_tx_committed {α : Type} (tx : SqlTx) (run : Store.Tables → α × Store.Tables)
    (failed : ExtError → α) (w : Store.World) :
    (Store.onConn (Conn.tx tx) run failed w).2.committed = w.committed := by
  simp only [Store.onConn]
  split <;> rfl

theorem Store.rollback_committed (tx : SqlTx) (w : Store.World) :
    (Store.rollback tx w).2.committed = w.committed := by
  simp only [Store.rollback]
  split <;> rfl

theorem Store.runStmt_tx_committed (ctx : Context) (tx : SqlTx)
    (hctx : getTxFromContext ctx = some tx) (st : Stmt) (s : St Store.World) :
    (runStmt Store.env ctx st s).world.committed = s.world.committed := by
  cases st <;>
    simp [runStmt, ExecWithTx, QueryRowWithTx, QueryWithTx, hctx, Conn.ExecContext,
      Conn.QueryRowContext, Conn.QueryContext, Store.env, Store.onConn_tx_committed]

theorem Store.runScript_tx_committed (ctx : Context) (tx : SqlTx)
    (hctx : getTxFromContext ctx = some tx) (script : List Stmt) (s : St Store.World) :
    (runScript Store.env ctx script s).world.committed = s.world.committed := by
  induction script generalizing s with
  | nil => rfl
  | cons st rest ih => simp [runScript, ih, Store.runStmt_tx_committed ctx tx hctx]

/-! ## The transaction coordinator: C2 to C7 -/

/-- C2: when the unit of work returns an error `e` (after `BeginTx` succeeded),
`WithTransaction` returns `e` itself, the only call it makes after the unit of work is
`Rollback` on the transaction, and it never calls `Commit`.  On the reference store, a
unit of work that issued its statements with the context it was given leaves the
committed tables exactly as they were. -/
theorem C2_failed_unit_of_work_is_rolled_back {σ κ : Type} (env : Env σ) (ctx : Context)
    (repo : BeginTx σ) (fn : Context → κ → St σ → (Option GoError × κ) × St σ) (k k' : κ)
    (s s1 s2 : St σ) (tx : SqlTx) (e : GoError)
    (hbegin : repo ctx none s = (.ok tx, s1))
    (hfn : fn (ctx.WithValue CtxKey.TxKey (CtxVal.sqlTx tx)) k s1 = ((some e, k'), s2)) :
    (WithTransaction env ctx repo fn k s).1.1 = some e ∧
    (WithTransaction env ctx repo fn k s).2.trace = s2.trace ++ [Event.Rollback tx] ∧
    (WithTransaction env ctx repo fn k s).2.world = (env.rollback tx s2.world).2 ∧
    (∀ t, (WithTransaction env ctx repo fn k s).2.trace.count (Event.Commit t) =
      s2.trace.count (Event.Commit t)) ∧
    (∀ (c : Context) (script : List Stmt) (err : GoError) (w : St Store.World),
      (WithTransaction Store.env c (AuthRepo.BeginTx Store.env)
        (scriptedUnit Store.env script (some err)) () w).2.world.committed
        = w.world.committed) := by
  rw [WithTransaction_fn_error env ctx repo fn k k' s s1 s2 tx e hbegin hfn]
  refine ⟨rfl, rfl, rfl, ?_, ?_⟩
  · intro t
    simp [List.count_append]
  · intro c script err w
    rw [WithTransaction_fn_error Store.env c (AuthRepo.BeginTx Store.env)
      (scriptedUnit Store.env script (some err)) () () w
      { world := (Store.beginTx none w.world).2, trace := w.trace ++ [Event.BeginTx none] }
      (runScript Store.env (c.WithValue CtxKey.TxKey (CtxVal.sqlTx { id := w.world.nextTx }))
        script { world := (Store.beginTx none w.world).2, trace := w.trace ++ [Event.BeginTx none] })
      { id := w.world.nextTx } err rfl rfl]
    show (Store.rollback _ _).2.committed = _
    rw [Store.rollback_committed,
      Store.runScript_tx_committed _ _ (getTxFromContext_WithValue c _)]
    rfl

/-- C2 at a concrete input: on the empty store, a unit of work that inserts `bob` and then
fails is rolled back; its error comes back and no user is committed. -/
theorem C2_witness :
    (WithTransaction Store.env [] (AuthRepo.BeginTx Store.env) Example.insertBobThenFail ()
      Example.start).1.1 = some (GoError.errorsNew "unit failed") ∧
    (WithTransaction Store.env [] (AuthRepo.BeginTx Store.env) Example.insertBobThenFail ()
      Example.start).2.world.committed.users = [] :=
  ⟨(C2_failed_unit_of_work_is_rolled_back Store.env [] (AuthRepo.BeginTx Store.env)
      Example.insertBobThenFail () () Example.start
      (AuthRepo.BeginTx Store.env [] none Example.start).2
      (Example.insertBobThenFail [(CtxKey.TxKey, CtxVal.sqlTx { id := 1 })] ()
        (AuthRepo.BeginTx Store.env [] none Example.start).2).2
      { id := 1 } (GoError.errorsNew "unit failed") rfl rfl).1,
    by decide⟩

theorem ExtError.Is_self (e : ExtError) : e.Is e = true := by
  cases e <;> simp [ExtError.Is]

/-- C3: when the unit of work returns nil, the calls `WithTransaction` makes after it are
`Commit` once and then the deferred `Rollback`; if `Commit` succeeds the result is nil, and
if it fails with `c` the result wraps `c` behind "failed to commit transaction: ". -/
theorem C3_successful_unit_of_work_is_committed {σ κ : Type} (env : Env σ) (ctx : Context)
    (repo : BeginTx σ) (fn : Context → κ → St σ → (Option GoError × κ) × St σ) (k k' : κ)
    (s s1 s2 : St σ) (tx : SqlTx)
    (hbegin : repo ctx none s = (.ok tx, s1))
    (hfn : fn (ctx.WithValue CtxKey.TxKey (CtxVal.sqlTx tx)) k s1 = ((none, k'), s2)) :
    (WithTransaction env ctx repo fn k s).2.trace
      = s2.trace ++ [Event.Commit tx, Event.Rollback tx] ∧
    (WithTransaction env ctx repo fn k s).2.world
      = (env.rollback tx (env.commit tx s2.world).2).2 ∧
    ((env.commit tx s2.world).1 = none → (WithTransaction env ctx repo fn k s).1.1 = none) ∧
    (∀ c, (env.commit tx s2.world).1 = some c →
      (WithTransaction env ctx repo fn k s).1.1
        = some (GoError.wrapf "failed to commit transaction: " (.ext c)) ∧
      (GoError.wrapf "failed to commit transaction: " (.ext c)).Unwrap = some (.ext c) ∧
      (GoError.wrapf "failed to commit transaction: " (.ext c)).Is (.ext c) = true ∧
      (GoError.wrapf "failed to commit transaction: " (.ext c)).Error
        = "failed to commit transaction: " ++ c.Error) := by
  rw [WithTransaction_fn_ok env ctx repo fn k k' s s1 s2 tx hbegin hfn]
  refine ⟨rfl, rfl, ?_, ?_⟩
  · intro h
    simp [h]
  · intro c h
    simp [h, GoError.Unwrap, GoError.Is, GoError.Error, ExtError.Is_self]

/-- C3 at a concrete input: on the empty store, a unit of work that inserts `bob` and
returns nil is committed: the result is nil and `bob` is in the committed table. -/
theorem C3_witness :
    (WithTransaction Store.env [] (AuthRepo.BeginTx Store.env) Example.insertBob ()
      Example.start).2.trace =
      [Event.BeginTx none,
        Event.QueryRow (Conn.tx { id := 1 }) UserRepo.createQuery [.str "bob", .str "hash"],
        Event.Commit { id := 1 }, Event.Rollback { id := 1 }] ∧
    (WithTransaction Store.env [] (AuthRepo.BeginTx Store.env) Example.insertBob ()
      Example.start).1.1 = none :=
  ⟨(C3_successful_unit_of_work_is_committed Store.env [] (AuthRepo.BeginTx Store.env)
      Example.insertBob () () Example.start
      (AuthRepo.BeginTx Store.env [] none Example.start).2
      (Example.insertBob [(CtxKey.TxKey, CtxVal.sqlTx { id := 1 })] ()
        (AuthRepo.BeginTx Store.env [] none Example.start).2).2
      { id := 1 } rfl rfl).1,
    by decide⟩

/-- C4 as stated fails: on the empty store, when the unit of work returns nil,
`WithTransaction` invokes both `Commit` and `Rollback` on the transaction. -/
theorem C4_both_commit_and_rollback_are_invoked :
    (WithTransaction Store.env [] (AuthRepo.BeginTx Store.env) Example.insertBob ()
      Example.start).1.1 = none ∧
    (WithTransaction Store.env [] (AuthRepo.BeginTx Store.env) Example.insertBob ()
      Example.start).2.trace.count (Event.Commit { id := 1 }) = 1 ∧
    (WithTransaction Store.env [] (AuthRepo.BeginTx Store.env) Example.insertBob ()
      Example.start).2.trace.count (Event.Rollback { id := 1 }) = 1 ∧
    ¬ exactlyOneOfCommitRollback { id := 1 }
      (WithTransaction Store.env [] (AuthRepo.BeginTx Store.env) Example.insertBob ()
        Example.start).2.trace := by
  unfold exactlyOneOfCommitRollback
  decide

/-- C4, amended: on every exit path on which `BeginTx` succeeded, `Rollback` is invoked
exactly once, as the last call (the deferred call runs on every path); `Commit` is invoked
exactly once before it when the unit of work returned nil, and never when it returned an
error.  So exactly one of the two is invoked only on the path of a failed unit of work. -/
theorem C4_rollback_always_commit_iff_unit_succeeded {σ κ : Type} (env : Env σ)
    (ctx : Context) (repo : BeginTx σ)
    (fn : Context → κ → St σ → (Option GoError × κ) × St σ) (k : κ)
    (s s1 : St σ) (tx : SqlTx)
    (hbegin : repo ctx none s = (.ok tx, s1)) :
    (WithTransaction env ctx repo fn k s).2.trace =
      (fn (ctx.WithValue CtxKey.TxKey (CtxVal.sqlTx tx)) k s1).2.trace ++
        (match (fn (ctx.WithValue CtxKey.TxKey (CtxVal.sqlTx tx)) k s1).1.1 with
          | none => [Event.Commit tx, Event.Rollback tx]
          | some _ => [Event.Rollback tx]) ∧
    (∀ e, (fn (ctx.WithValue CtxKey.TxKey (CtxVal.sqlTx tx)) k s1).1.1 = some e →
      exactlyOneOfCommitRollback tx [Event.Rollback tx]) ∧
    ¬ exactlyOneOfCommitRollback tx [Event.Commit tx, Event.Rollback tx] := by
  refine ⟨?_, ?_, ?_⟩
  · rcases hfn : fn (ctx.WithValue CtxKey.TxKey (CtxVal.sqlTx tx)) k s1 with ⟨⟨_ | e, k'⟩, s2⟩
    · rw [WithTransaction_fn_ok env ctx repo fn k k' s s1 s2 tx hbegin hfn]
    · rw [WithTransaction_fn_error env ctx repo fn k k' s s1 s2 tx e hbegin hfn]
  · intro e _
    simp [exactlyOneOfCommitRollback]
  · simp [exactlyOneOfCommitRollback]

/-- C4, amended, at a concrete input: the failing unit of work on the empty store. -/
theorem C4_witness :
    (WithTransaction Store.env [] (AuthRepo.BeginTx Store.env) Example.insertBobThenFail ()
      Example.start).2.trace =
      [Event.BeginTx none,
        Event.QueryRow (Conn.tx { id := 1 }) UserRepo.createQuery [.str "bob", .str "hash"],
        Event.Rollback { id := 1 }] :=
  (C4_rollback_always_commit_iff_unit_succeeded Store.env [] (AuthRepo.BeginTx Store.env)
    Example.insertBobThenFail () Example.start
    (AuthRepo.BeginTx Store.env [] none Example.start).2 { id := 1 } rfl).1.trans (by decide)

/-- C5 as stated fails: on the empty store, a unit of work running inside a first
transaction calls `WithTransaction` with the context that binds that transaction.  The
nested call returns no error, calls `BeginTx` again and runs on a second transaction, and
that one is independent: the outer unit of work fails and is rolled back, yet the user
the nested one inserted is committed. -/
theorem C5_nested_call_opens_second_transaction :
    getTxFromContext [(CtxKey.TxKey, CtxVal.sqlTx { id := 1 })] = some { id := 1 } ∧
    (WithTransaction Store.env [(CtxKey.TxKey, CtxVal.sqlTx { id := 1 })]
      (AuthRepo.BeginTx Store.env) Example.insertBob ()
      (AuthRepo.BeginTx Store.env [] none Example.start).2).1.1 = none ∧
    (WithTransaction Store.env [] (AuthRepo.BeginTx Store.env) Example.nestedThenFail ()
      Example.start).2.trace =
      [Event.BeginTx none, Event.BeginTx none,
        Event.QueryRow (Conn.tx { id := 2 }) UserRepo.createQuery [.str "bob", .str "hash"],
        Event.Commit { id := 2 }, Event.Rollback { id := 2 }, Event.Rollback { id := 1 }] ∧
    (WithTransaction Store.env [] (AuthRepo.BeginTx Store.env) Example.nestedThenFail ()
      Example.start).2.world.committed.users =
      [{ id := 1, login := "bob", password_hash := "hash", created_at := 1000000000 }] := by
  decide

/-- C5, amended: `WithTransaction` does not look for a transaction already bound to the
context.  For every context, whatever it binds under `TxKey`, it calls `BeginTx` exactly
once; if that fails it returns the wrapped error without running the unit of work, and if
it yields `tx` it runs the unit of work with the context rebound to `tx`, which hides any
transaction bound before. -/
theorem C5_begins_a_transaction_for_every_context {σ κ : Type} (env : Env σ)
    (ctx : Context) (fn : Context → κ → St σ → (Option GoError × κ) × St σ) (k : κ)
    (s : St σ) :
    (∀ b, (env.beginTx none s.world).1 = .error b →
      WithTransaction env ctx (AuthRepo.BeginTx env) fn k s =
        ((some (.wrapf "failed to start transaction: " (.ext b)), k),
          { world := (env.beginTx none s.world).2,
            trace := s.trace ++ [Event.BeginTx none] })) ∧
    (∀ tx, (env.beginTx none s.world).1 = .ok tx →
      getTxFromContext (ctx.WithValue CtxKey.TxKey (CtxVal.sqlTx tx)) = some tx ∧
      ∃ rest,
        (WithTransaction env ctx (AuthRepo.BeginTx env) fn k s).2.trace =
          (fn (ctx.WithValue CtxKey.TxKey (CtxVal.sqlTx tx)) k
            { world := (env.beginTx none s.world).2,
              trace := s.trace ++ [Event.BeginTx none] }).2.trace ++ rest ∧
        (WithTransaction env ctx (AuthRepo.BeginTx env) fn k s).1.2 =
          (fn (ctx.WithValue CtxKey.TxKey (CtxVal.sqlTx tx)) k
            { world := (env.beginTx none s.world).2,
              trace := s.trace ++ [Event.BeginTx none] }).1.2) := by
  refine ⟨?_, ?_⟩
  · intro b hb
    exact WithTransaction_begin_error env ctx _ fn k s _ _
      (by rw [AuthRepo_BeginTx_eq, hb]; rfl)
  · intro tx htx
    have hbegin : AuthRepo.BeginTx env ctx none s =
        (.ok tx, { world := (env.beginTx none s.world).2,
                   trace := s.trace ++ [Event.BeginTx none] }) := by
      rw [AuthRepo_BeginTx_eq, htx]; rfl
    refine ⟨getTxFromContext_WithValue ctx tx, ?_⟩
    rcases hfn : fn (ctx.WithValue CtxKey.TxKey (CtxVal.sqlTx tx)) k
      { world := (env.beginTx none s.world).2, trace := s.trace ++ [Event.BeginTx none] }
      with ⟨⟨_ | e, k'⟩, s2⟩
    · rw [WithTransaction_fn_ok env ctx _ fn k k' s _ s2 tx hbegin hfn]
      exact ⟨_, rfl, rfl⟩
    · rw [WithTransaction_fn_error env ctx _ fn k k' s _ s2 tx e hbegin hfn]
      exact ⟨_, rfl, rfl⟩

/-- C6: each of `ExecWithTx`, `QueryRowWithTx` and `QueryWithTx` issues its statement
exactly once, on the transaction bound under `TxKey` when there is one and on the pool
otherwise, with the query text and arguments as given, and returns what that one call
returned. -/
theorem C6_adapter_routes_to_bound_transaction_or_pool {σ : Type} (env : Env σ)
    (ctx : Context) (query : String) (args : List SqlVal) (s : St σ) :
    (∀ tx, ctx.Value CtxKey.TxKey = some (CtxVal.sqlTx tx) → connOf ctx = Conn.tx tx) ∧
    (getTxFromContext ctx = none → connOf ctx = Conn.pool) ∧
    ExecWithTx env ctx query args s =
      (liftExcept (env.exec (connOf ctx) query args s.world).1,
        { world := (env.exec (connOf ctx) query args s.world).2,
          trace := s.trace ++ [Event.Exec (connOf ctx) query args] }) ∧
    QueryRowWithTx env ctx query args s =
      ((env.queryRow (connOf ctx) query args s.world).1,
        { world := (env.queryRow (connOf ctx) query args s.world).2,
          trace := s.trace ++ [Event.QueryRow (connOf ctx) query args] }) ∧
    QueryWithTx env ctx query args s =
      (liftExcept (env.query (connOf ctx) query args s.world).1,
        { world := (env.query (connOf ctx) query args s.world).2,
          trace := s.trace ++ [Event.Query (connOf ctx) query args] }) := by
  refine ⟨?_, ?_, ?_, ?_, ?_⟩
  · intro tx h
    simp [connOf, getTxFromContext, h]
  · intro h
    simp [connOf, h]
  · unfold ExecWithTx connOf
    cases getTxFromContext ctx <;> rfl
  · unfold QueryRowWithTx connOf
    cases getTxFromContext ctx <;> rfl
  · unfold QueryWithTx connOf
    cases getTxFromContext ctx <;> rfl

/-- C7: the context `WithTransaction` hands to the unit of work binds under `TxKey` the
transaction `BeginTx` returned; the unit of work is applied to that context only; and
every adapter call made with that context is issued on that transaction. -/
theorem C7_unit_of_work_runs_on_begun_transaction {σ κ : Type} (env : Env σ)
    (ctx : Context) (repo : BeginTx σ)
    (fn : Context → κ → St σ → (Option GoError × κ) × St σ) (k : κ)
    (s s1 : St σ) (tx : SqlTx)
    (hbegin : repo ctx none s = (.ok tx, s1)) :
    getTxFromContext (ctx.WithValue CtxKey.TxKey (CtxVal.sqlTx tx)) = some tx ∧
    (∀ fn' : Context → κ → St σ → (Option GoError × κ) × St σ,
      fn' (ctx.WithValue CtxKey.TxKey (CtxVal.sqlTx tx)) k s1
        = fn (ctx.WithValue CtxKey.TxKey (CtxVal.sqlTx tx)) k s1 →
      WithTransaction env ctx repo fn' k s = WithTransaction env ctx repo fn k s) ∧
    (∀ (query : String) (args : List SqlVal) (s' : St σ),
      ExecWithTx env (ctx.WithValue CtxKey.TxKey (CtxVal.sqlTx tx)) query args s' =
        Conn.ExecContext env (Conn.tx tx) (ctx.WithValue CtxKey.TxKey (CtxVal.sqlTx tx))
          query args s' ∧
      QueryRowWithTx env (ctx.WithValue CtxKey.TxKey (CtxVal.sqlTx tx)) query args s' =
        Conn.QueryRowContext env (Conn.tx tx) (ctx.WithValue CtxKey.TxKey (CtxVal.sqlTx tx))
          query args s' ∧
      QueryWithTx env (ctx.WithValue CtxKey.TxKey (CtxVal.sqlTx tx)) query args s' =
        Conn.QueryContext env (Conn.tx tx) (ctx.WithValue CtxKey.TxKey (CtxVal.sqlTx tx))
          query args s') := by
  refine ⟨getTxFromContext_WithValue ctx tx, ?_, ?_⟩
  · intro fn' h
    simp only [WithTransaction, hbegin, WithTransaction.body, h]
  · intro query args s'
    simp [ExecWithTx, QueryRowWithTx, QueryWithTx, getTxFromContext_WithValue]

/-- C7 at a concrete input: on the empty store the unit of work that inserts `bob` issues
its statement on transaction 1, the one `BeginTx` returned, and nothing on the pool. -/
theorem C7_witness :
    getTxFromContext (Context.WithValue [] CtxKey.TxKey (CtxVal.sqlTx { id := 1 }))
      = some { id := 1 } ∧
    (WithTransaction Store.env [] (AuthRepo.BeginTx Store.env) Example.insertBob ()
      Example.start).2.trace.filter
        (fun ev => decide (ev = Event.QueryRow (Conn.tx { id := 1 }) UserRepo.createQuery
          [.str "bob", .str "hash"])) =
      [Event.QueryRow (Conn.tx { id := 1 }) UserRepo.createQuery [.str "bob", .str "hash"]] :=
  ⟨(C7_unit_of_work_runs_on_begun_transaction Store.env [] (AuthRepo.BeginTx Store.env)
      Example.insertBob () Example.start
      (AuthRepo.BeginTx Store.env [] none Example.start).2 { id := 1 } rfl).1,
    by decide⟩


/-! ## Lemmas on the repositories -/

theorem UserService_CheckExists_tx {σ : Type} (env : Env σ) (ctx : Context) (tx : SqlTx)
    (login : String) (s : St σ) :
    UserService.CheckExists env (ctx.WithValue CtxKey.TxKey (CtxVal.sqlTx tx)) login s =
      (scanBool (env.queryRow (Conn.tx tx) UserRepo.checkExistsQuery [.str login] s.world).1,
        { world := (env.queryRow (Conn.tx tx) UserRepo.checkExistsQuery [.str login] s.world).2,
          trace := s.trace ++
            [Event.QueryRow (Conn.tx tx) UserRepo.checkExistsQuery [.str login]] }) := by
  simp only [UserService.CheckExists, UserRepo.CheckExists, QueryRowWithTx,
    getTxFromContext_WithValue, Conn.QueryRowContext]
  split <;> simp_all

theorem UserService_Create_tx {σ : Type} (env : Env σ) (ctx : Context) (tx : SqlTx)
    (login hash : String) (s : St σ) :
    UserService.Create env (ctx.WithValue CtxKey.TxKey (CtxVal.sqlTx tx)) login hash s =
      (scanUserPublic
          (env.queryRow (Conn.tx tx) UserRepo.createQuery [.str login, .str hash] s.world).1,
        { world :=
            (env.queryRow (Conn.tx tx) UserRepo.createQuery [.str login, .str hash] s.world).2,
          trace := s.trace ++
            [Event.QueryRow (Conn.tx tx) UserRepo.createQuery [.str login, .str hash]] }) := by
  simp only [UserService.Create, UserRepo.Create, QueryRowWithTx,
    getTxFromContext_WithValue, Conn.QueryRowContext]
  split <;> simp_all

theorem UserService_GetByLogin_tx {σ : Type} (env : Env σ) (ctx : Context) (tx : SqlTx)
    (login : String) (s : St σ) :
    UserService.GetByLogin env (ctx.WithValue CtxKey.TxKey (CtxVal.sqlTx tx)) login s =
      (scanUser (env.queryRow (Conn.tx tx) UserRepo.getByLoginQuery [.str login] s.world).1,
        { world := (env.queryRow (Conn.tx tx) UserRepo.getByLoginQuery [.str login] s.world).2,
          trace := s.trace ++
            [Event.QueryRow (Conn.tx tx) UserRepo.getByLoginQuery [.str login]] }) := by
  simp only [UserService.GetByLogin, UserRepo.GetByLogin, QueryRowWithTx,
    getTxFromContext_WithValue, Conn.QueryRowContext]
  split <;> simp_all

theorem AuthRepo_CreateToken_tx {σ : Type} (env : Env σ) (ctx : Context) (tx : SqlTx)
    (token : String) (userID : Int) (expiresAt : Time) (s : St σ) :
    AuthRepo.CreateToken env (ctx.WithValue CtxKey.TxKey (CtxVal.sqlTx tx)) token userID
        expiresAt s =
      ((match (env.exec (Conn.tx tx) AuthRepo.createTokenQuery
            [.str token, .int64 userID, .time expiresAt] s.world).1 with
          | .error e => some (GoError.ext e)
          | .ok _ => none),
        { world := (env.exec (Conn.tx tx) AuthRepo.createTokenQuery
            [.str token, .int64 userID, .time expiresAt] s.world).2,
          trace := s.trace ++ [Event.Exec (Conn.tx tx) AuthRepo.createTokenQuery
            [.str token, .int64 userID, .time expiresAt]] }) := by
  simp only [AuthRepo.CreateToken, ExecWithTx, getTxFromContext_WithValue, Conn.ExecContext]
  cases h : (env.exec (Conn.tx tx) AuthRepo.createTokenQuery
      [.str token, .int64 userID, .time expiresAt] s.world).1 <;> simp [liftExcept]

/-! ## Lemmas on the reference store, continued -/

theorem Store.queryRowOn_checkExists (login : String) (now : Time) (t : Store.Tables) :
    Store.queryRowOn UserRepo.checkExistsQuery [.str login] now t =
      (.ok [.bool (t.users.any (fun u => u.login == login))], t) := by
  have hw : Store.words UserRepo.checkExistsQuery =
      ["SELECT", "EXISTS(SELECT", "1", "FROM", "users", "WHERE", "login", "=", "$1)"] := by
    decide
  simp [Store.queryRowOn, hw]

theorem Store.queryRowOn_create (login hash : String) (now : Time) (t : Store.Tables)
    (hfree : t.users.any (fun u => u.login == login) = false) :
    Store.queryRowOn UserRepo.createQuery [.str login, .str hash] now t =
      (.ok [.int64 t.nextUserID, .str login, .time now],
        { t with
          users := t.users ++
            [{ id := t.nextUserID, login := login, password_hash := hash, created_at := now }],
          nextUserID := t.nextUserID + 1 }) := by
  have hw : Store.words UserRepo.createQuery =
      ["INSERT", "INTO", "users", "(login,", "password_hash)", "VALUES", "($1,", "$2)",
        "RETURNING", "id,", "login,", "created_at"] := by
    decide
  simp [Store.queryRowOn, hw, hfree]

theorem Store.queryRowOn_getByLogin (login : String) (now : Time) (t : Store.Tables) :
    Store.queryRowOn UserRepo.getByLoginQuery [.str login] now t =
      (match t.users.find? (fun u => u.login == login) with
        | some u => (.ok (Store.userColumns u), t)
        | none => (.error .ErrNoRows, t)) := by
  have hw : Store.words UserRepo.getByLoginQuery =
      ["SELECT", "id,", "login,", "password_hash,", "created_at", "FROM", "users", "WHERE",
        "login", "=", "$1"] := by
    decide
  cases h : t.users.find? (fun u => u.login == login) <;> simp [Store.queryRowOn, hw, h]

theorem Store.queryRowOn_checkTokenExists (token : String) (now : Time) (t : Store.Tables) :
    Store.queryRowOn AuthRepo.checkTokenExistsQuery [.str token] now t =
      (.ok [.bool (t.tokens.any (fun r => r.token == token))], t) := by
  have hw : Store.words AuthRepo.checkTokenExistsQuery =
      ["SELECT", "EXISTS(SELECT", "1", "FROM", "tokens", "WHERE", "token", "=", "$1)"] := by
    decide
  simp [Store.queryRowOn, hw]

theorem Store.execOn_createToken (token : String) (userID : Int) (expiresAt : Time)
    (t : Store.Tables) (hfresh : t.tokens.any (fun r => r.token == token) = false) :
    Store.execOn AuthRepo.createTokenQuery [.str token, .int64 userID, .time expiresAt] t =
      (.ok { lastInsertId := 0, rowsAffected := 1 },
        { t with
          tokens := t.tokens ++
            [{ token := token, user_id := userID, expires_at := expiresAt }] }) := by
  have hw : Store.words AuthRepo.createTokenQuery =
      ["INSERT", "INTO", "tokens", "(token,", "user_id,", "expires_at)", "VALUES", "($1,",
        "$2,", "$3)"] := by
    decide
  simp [Store.execOn, hw, hfresh]

/-- A statement on the transaction that was begun last works on its working copy. -/
theorem Store.onConn_tx_head {α : Type} (tx : SqlTx) (tbl c : Store.Tables)
    (rest : List (SqlTx × Store.Tables)) (run : Store.Tables → α × Store.Tables)
    (failed : ExtError → α) (n : Nat) (clock : Time) (tick : Duration) (seed : Nat) :
    Store.onConn (Conn.tx tx) run failed
        { committed := c, active := (tx, tbl) :: rest, nextTx := n, clock := clock,
          tick := tick, seed := seed } =
      ((run tbl).1,
        { committed := c, active := (tx, (run tbl).2) :: rest, nextTx := n, clock := clock,
          tick := tick, seed := seed }) := by
  simp [Store.onConn, Store.lookupTx, Store.updateTx]

theorem Store.onConn_pool {α : Type} (run : Store.Tables → α × Store.Tables)
    (failed : ExtError → α) (w : Store.World) :
    Store.onConn Conn.pool run failed w =
      ((run w.committed).1, { w with committed := (run w.committed).2 }) := rfl

theorem Store.commit_head (tx : SqlTx) (tbl c : Store.Tables)
    (rest : List (SqlTx × Store.Tables)) (n : Nat) (clock : Time) (tick : Duration)
    (seed : Nat) :
    Store.commit tx
        { committed := c, active := (tx, tbl) :: rest, nextTx := n, clock := clock,
          tick := tick, seed := seed } =
      (none,
        { committed := tbl, active := rest, nextTx := n, clock := clock, tick := tick,
          seed := seed }) := by
  simp [Store.commit, Store.lookupTx, Store.removeTx]

theorem Store.env_queryRow (conn : Conn) (query : String) (args : List SqlVal)
    (w : Store.World) :
    Store.env.queryRow conn query args w =
      Store.onConn conn (Store.queryRowOn query args w.clock) Except.error w := rfl

theorem Store.env_exec (conn : Conn) (query : String) (args : List SqlVal)
    (w : Store.World) :
    Store.env.exec conn query args w =
      Store.onConn conn (Store.execOn query args) Except.error w := rfl

theorem Store.env_commit (tx : SqlTx) (w : Store.World) :
    Store.env.commit tx w = Store.commit tx w := rfl

theorem Store.env_rollback (tx : SqlTx) (w : Store.World) :
    Store.env.rollback tx w = Store.rollback tx w := rfl

theorem Store.env_now (w : Store.World) :
    Store.env.now w = (w.clock, { w with clock := w.clock + w.tick }) := rfl

theorem Store.env_rand (w : Store.World) :
    Store.env.rand w = (w.seed, { w with seed := w.seed + 1 }) := rfl

theorem Store.rollback_fields (tx : SqlTx) (w : Store.World) :
    (Store.rollback tx w).2.committed = w.committed ∧
    (Store.rollback tx w).2.nextTx = w.nextTx ∧
    (Store.rollback tx w).2.clock = w.clock ∧
    (Store.rollback tx w).2.tick = w.tick ∧
    (Store.rollback tx w).2.seed = w.seed := by
  simp only [Store.rollback]
  split <;> simp

theorem Store.beginTx_eq (ctx : Context) (s : St Store.World) :
    AuthRepo.BeginTx Store.env ctx none s =
      (.ok { id := s.world.nextTx },
        { world := { s.world with
            active := ({ id := s.world.nextTx }, s.world.committed) :: s.world.active,
            nextTx := s.world.nextTx + 1 },
          trace := s.trace ++ [Event.BeginTx none] }) := rfl

theorem scanBool_ok (b : Bool) : scanBool (.ok [SqlVal.bool b]) = .ok b := rfl

/-- `Register` on the reference store when the login is taken. -/
theorem Store.Register_taken (lib : Lib) (cfg : Config) (ctx : Context)
    (login password : String) (s : St Store.World)
    (htaken : s.world.committed.users.any (fun u => u.login == login) = true) :
    (AuthService.Register lib Store.env cfg ctx login password s).1
      = (none, some GoError.ErrUserAlreadyExists) ∧
    (AuthService.Register lib Store.env cfg ctx login password s).2.world.committed
      = s.world.committed := by
  have hfn : AuthService.Register.fn lib Store.env cfg login password
      (ctx.WithValue CtxKey.TxKey (CtxVal.sqlTx { id := s.world.nextTx })) none
      { world := { s.world with
          active := ({ id := s.world.nextTx }, s.world.committed) :: s.world.active,
          nextTx := s.world.nextTx + 1 },
        trace := s.trace ++ [Event.BeginTx none] } =
      ((some GoError.ErrUserAlreadyExists, none),
        { world := { s.world with
            active := ({ id := s.world.nextTx }, s.world.committed) :: s.world.active,
            nextTx := s.world.nextTx + 1 },
          trace := s.trace ++ [Event.BeginTx none,
            Event.QueryRow (Conn.tx { id := s.world.nextTx }) UserRepo.checkExistsQuery
              [.str login]] }) := by
    simp [AuthService.Register.fn, UserService_CheckExists_tx, Store.env_queryRow,
      Store.onConn_tx_head, Store.queryRowOn_checkExists, htaken, scanBool_ok]
  simp only [AuthService.Register,
    WithTransaction_fn_error Store.env ctx _ _ none none s _ _ _ _ (Store.beginTx_eq ctx s) hfn]
  exact ⟨trivial, (Store.rollback_fields _ _).1⟩

theorem scanUserPublic_ok (id : Int) (login : String) (createdAt : Time) :
    scanUserPublic (.ok [SqlVal.int64 id, SqlVal.str login, SqlVal.time createdAt]) =
      .ok { ID := id, Login := login, CreatedAt := createdAt } := rfl

/-- `Register` on the reference store when the login is free and bcrypt fails. -/
theorem Store.Register_hash_error (lib : Lib) (cfg : Config) (ctx : Context)
    (login password : String) (s : St Store.World) (e : ExtError)
    (hfree : s.world.committed.users.any (fun u => u.login == login) = false)
    (hgen : lib.bcryptGenerate password cfg.JWT.BCryptCost s.world.seed = .error e) :
    (AuthService.Register lib Store.env cfg ctx login password s).1
      = (none, some (GoError.ext e)) := by
  have hfn : AuthService.Register.fn lib Store.env cfg login password
      (ctx.WithValue CtxKey.TxKey (CtxVal.sqlTx { id := s.world.nextTx })) none
      { world := { s.world with
          active := ({ id := s.world.nextTx }, s.world.committed) :: s.world.active,
          nextTx := s.world.nextTx + 1 },
        trace := s.trace ++ [Event.BeginTx none] } =
      ((some (GoError.ext e), none),
        { world := { s.world with
            active := ({ id := s.world.nextTx }, s.world.committed) :: s.world.active,
            nextTx := s.world.nextTx + 1, seed := s.world.seed + 1 },
          trace := s.trace ++ [Event.BeginTx none,
            Event.QueryRow (Conn.tx { id := s.world.nextTx }) UserRepo.checkExistsQuery
              [.str login]] }) := by
    simp [AuthService.Register.fn, UserService_CheckExists_tx, Store.env_queryRow,
      Store.onConn_tx_head, Store.queryRowOn_checkExists, hfree, scanBool_ok,
      bcrypt.GenerateFromPassword, Store.env_rand, hgen, liftExcept]
  simp only [AuthService.Register,
    WithTransaction_fn_error Store.env ctx _ _ none none s _ _ _ _ (Store.beginTx_eq ctx s) hfn]

/-- `Register` on the reference store when the login is free and bcrypt yields `h`: the
user gets the next id and the server time, and is committed. -/
theorem Store.Register_free (lib : Lib) (cfg : Config) (ctx : Context)
    (login password h : String) (s : St Store.World)
    (hfree : s.world.committed.users.any (fun u => u.login == login) = false)
    (hgen : lib.bcryptGenerate password cfg.JWT.BCryptCost s.world.seed = .ok h) :
    (AuthService.Register lib Store.env cfg ctx login password s).1
      = (some { ID := s.world.committed.nextUserID, Login := login,
                CreatedAt := s.world.clock }, none) ∧
    (AuthService.Register lib Store.env cfg ctx login password s).2.world.committed
      = { users := s.world.committed.users ++
            [{ id := s.world.committed.nextUserID, login := login, password_hash := h,
               created_at := s.world.clock }],
          tokens := s.world.committed.tokens,
          nextUserID := s.world.committed.nextUserID + 1 } ∧
    (AuthService.Register lib Store.env cfg ctx login password s).2.world.clock
      = s.world.clock ∧
    (AuthService.Register lib Store.env cfg ctx login password s).2.world.tick
      = s.world.tick ∧
    (AuthService.Register lib Store.env cfg ctx login password s).2.trace
      = s.trace ++ [Event.BeginTx none,
          Event.QueryRow (Conn.tx { id := s.world.nextTx }) UserRepo.checkExistsQuery
            [.str login],
          Event.QueryRow (Conn.tx { id := s.world.nextTx }) UserRepo.createQuery
            [.str login, .str h],
          Event.Commit { id := s.world.nextTx }, Event.Rollback { id := s.world.nextTx }] := by
  have hfn : AuthService.Register.fn lib Store.env cfg login password
      (ctx.WithValue CtxKey.TxKey (CtxVal.sqlTx { id := s.world.nextTx })) none
      { world := { s.world with
          active := ({ id := s.world.nextTx }, s.world.committed) :: s.world.active,
          nextTx := s.world.nextTx + 1 },
        trace := s.trace ++ [Event.BeginTx none] } =
      ((none, some { ID := s.world.committed.nextUserID, Login := login,
                     CreatedAt := s.world.clock }),
        { world := { s.world with
            active := ({ id := s.world.nextTx },
              { users := s.world.committed.users ++
                  [{ id := s.world.committed.nextUserID, login := login, password_hash := h,
                     created_at := s.world.clock }],
                tokens := s.world.committed.tokens,
                nextUserID := s.world.committed.nextUserID + 1 }) :: s.world.active,
            nextTx := s.world.nextTx + 1, seed := s.world.seed + 1 },
          trace := s.trace ++ [Event.BeginTx none,
            Event.QueryRow (Conn.tx { id := s.world.nextTx }) UserRepo.checkExistsQuery
              [.str login],
            Event.QueryRow (Conn.tx { id := s.world.nextTx }) UserRepo.createQuery
              [.str login, .str h]] }) := by
    simp [AuthService.Register.fn, UserService_CheckExists_tx, Store.env_queryRow,
      Store.onConn_tx_head, Store.queryRowOn_checkExists, hfree, scanBool_ok,
      bcrypt.GenerateFromPassword, Store.env_rand, hgen, liftExcept,
      UserService_Create_tx, Store.queryRowOn_create, scanUserPublic_ok]
  simp only [AuthService.Register,
    WithTransaction_fn_ok Store.env ctx _ _ none _ s _ _ _ (Store.beginTx_eq ctx s) hfn,
    Store.env_commit, Store.commit_head, Store.env_rollback]
  refine ⟨trivial, ?_, ?_, ?_, ?_⟩
  · exact (Store.rollback_fields _ _).1
  · exact (Store.rollback_fields _ _).2.2.1
  · exact (Store.rollback_fields _ _).2.2.2.1
  · simp

/-! ## The auth core: C8 to C10, C1 -/

/-- C8: when the uniqueness check reports the login as taken, `Register` returns a nil
user and `ErrUserAlreadyExists` itself; the calls it made are `BeginTx`, the existence
query and `Rollback`, so the insert of `Create` was never issued.  On the reference
store, after a `Register` that succeeded, a second `Register` with the same login returns
`ErrUserAlreadyExists` and the committed table holds exactly one user with that login. -/
theorem C8_register_rejects_taken_login {σ : Type} (lib : Lib) (env : Env σ) (cfg : Config)
    (ctx : Context) (login password : String) (s s1 s2 : St σ) (tx : SqlTx)
    (hbegin : AuthRepo.BeginTx env ctx none s = (.ok tx, s1))
    (hcheck : UserService.CheckExists env (ctx.WithValue CtxKey.TxKey (CtxVal.sqlTx tx))
      login s1 = (.ok true, s2)) :
    (AuthService.Register lib env cfg ctx login password s).1
      = (none, some GoError.ErrUserAlreadyExists) ∧
    (AuthService.Register lib env cfg ctx login password s).2.trace
      = s.trace ++ [Event.BeginTx none,
          Event.QueryRow (Conn.tx tx) UserRepo.checkExistsQuery [.str login],
          Event.Rollback tx] ∧
    (AuthService.Register lib env cfg ctx login password s).2.world
      = (env.rollback tx s2.world).2 ∧
    (∀ conn args, Event.QueryRow conn UserRepo.createQuery args ∉
      [Event.BeginTx none, Event.QueryRow (Conn.tx tx) UserRepo.checkExistsQuery [.str login],
        Event.Rollback tx]) ∧
    (∀ (p1 p2 : String) (c1 c2 : Context) (w : St Store.World),
      (AuthService.Register lib Store.env cfg c1 login p1 w).1.2 = none →
      (AuthService.Register lib Store.env cfg c2 login p2
        (AuthService.Register lib Store.env cfg c1 login p1 w).2).1
        = (none, some GoError.ErrUserAlreadyExists) ∧
      (AuthService.Register lib Store.env cfg c2 login p2
        (AuthService.Register lib Store.env cfg c1 login p1 w).2).2.world.committed.users.countP
          (fun u => u.login == login) = 1) := by
  have hfn : AuthService.Register.fn lib env cfg login password
      (ctx.WithValue CtxKey.TxKey (CtxVal.sqlTx tx)) none s1
      = ((some GoError.ErrUserAlreadyExists, none), s2) := by
    simp [AuthService.Register.fn, hcheck]
  have hs1 : s1.trace = s.trace ++ [Event.BeginTx none] := by
    rw [AuthRepo_BeginTx_eq] at hbegin
    exact (congrArg St.trace (Prod.mk.inj hbegin).2).symm
  have hs2 : s2.trace = s1.trace ++
      [Event.QueryRow (Conn.tx tx) UserRepo.checkExistsQuery [.str login]] := by
    rw [UserService_CheckExists_tx] at hcheck
    exact (congrArg St.trace (Prod.mk.inj hcheck).2).symm
  refine ⟨?_, ?_, ?_, ?_, ?_⟩
  · simp only [AuthService.Register,
      WithTransaction_fn_error env ctx _ _ none none s s1 s2 tx _ hbegin hfn]
  · simp only [AuthService.Register,
      WithTransaction_fn_error env ctx _ _ none none s s1 s2 tx _ hbegin hfn, hs2, hs1]
    simp
  · simp only [AuthService.Register,
      WithTransaction_fn_error env ctx _ _ none none s s1 s2 tx _ hbegin hfn]
  · intro conn args
    have h1 : ¬ (UserRepo.createQuery = UserRepo.checkExistsQuery) := by decide
    simp [h1]
  · intro p1 p2 c1 c2 w hfirst
    cases hany : w.world.committed.users.any (fun u => u.login == login) with
    | true =>
      rw [(Store.Register_taken lib cfg c1 login p1 w hany).1] at hfirst
      exact absurd hfirst (by simp)
    | false =>
      cases hgen : lib.bcryptGenerate p1 cfg.JWT.BCryptCost w.world.seed with
      | error e =>
        rw [Store.Register_hash_error lib cfg c1 login p1 w e hany hgen] at hfirst
        exact absurd hfirst (by simp)
      | ok h =>
        have hreg := Store.Register_free lib cfg c1 login p1 h w hany hgen
        have htaken : (AuthService.Register lib Store.env cfg c1 login p1
            w).2.world.committed.users.any (fun u => u.login == login) = true := by
          rw [hreg.2.1]
          simp
        have hsecond := Store.Register_taken lib cfg c2 login p2 _ htaken
        refine ⟨hsecond.1, ?_⟩
        rw [hsecond.2, hreg.2.1]
        have hzero : w.world.committed.users.countP (fun u => u.login == login) = 0 := by
          rw [List.countP_eq_zero]
          intro u hu
          have := List.any_eq_false.mp hany u hu
          simpa using this
        simp [List.countP_append, hzero]

/-- C8 at a concrete input: `alice` registers a second time on the store that already
holds her. -/
theorem C8_witness :
    (AuthService.Register Example.lib Store.env Example.cfg [] "alice" "other-password"
      Example.registered).1 = (none, some GoError.ErrUserAlreadyExists) ∧
    (AuthService.Register Example.lib Store.env Example.cfg [] "alice" "other-password"
      Example.registered).2.world.committed.users =
      [{ id := 1, login := "alice", password_hash := "$2a$password123",
         created_at := 1000000000 }] :=
  ⟨(C8_register_rejects_taken_login Example.lib Store.env Example.cfg [] "alice"
      "other-password" Example.registered
      (AuthRepo.BeginTx Store.env [] none Example.registered).2
      (UserService.CheckExists Store.env [(CtxKey.TxKey, CtxVal.sqlTx { id := 2 })] "alice"
        (AuthRepo.BeginTx Store.env [] none Example.registered).2).2
      { id := 2 } rfl rfl).1,
    by decide⟩

/-! ## Lemmas on `Login` -/

theorem scanUser_error (r : Row) (err : GoError) (h : scanUser r = .error err) :
    ∃ e, err = GoError.ext e := by
  unfold scanUser at h
  split at h <;> simp at h <;> exact ⟨_, h.symm⟩

/-- What `createToken` does with the context of a transaction. -/
theorem createToken_tx {σ : Type} (lib : Lib) (env : Env σ) (cfg : Config) (ctx : Context)
    (tx : SqlTx) (userID : Int) (s : St σ) :
    AuthService.createToken lib env cfg (ctx.WithValue CtxKey.TxKey (CtxVal.sqlTx tx))
        userID s =
      match lib.jwtSign SigningMethodHS256 (mintedClaims env cfg userID s)
          cfg.JWT.JWTSecret with
      | .error e =>
        (("", some (GoError.ext e)),
          { world := mintedWorld env s,
            trace := s.trace ++ [Event.SignedString SigningMethodHS256
              (mintedClaims env cfg userID s) cfg.JWT.JWTSecret] })
      | .ok tok =>
        match (env.exec (Conn.tx tx) AuthRepo.createTokenQuery
            [.str tok, .int64 userID, .time (mintedExpiry env cfg s)]
            (mintedWorld env s)).1 with
        | .error e =>
          (("", some (GoError.ext e)),
            { world := (env.exec (Conn.tx tx) AuthRepo.createTokenQuery
                [.str tok, .int64 userID, .time (mintedExpiry env cfg s)]
                (mintedWorld env s)).2,
              trace := s.trace ++ [Event.SignedString SigningMethodHS256
                  (mintedClaims env cfg userID s) cfg.JWT.JWTSecret,
                Event.Exec (Conn.tx tx) AuthRepo.createTokenQuery
                  [.str tok, .int64 userID, .time (mintedExpiry env cfg s)]] })
        | .ok _ =>
          ((tok, none),
            { world := (env.exec (Conn.tx tx) AuthRepo.createTokenQuery
                [.str tok, .int64 userID, .time (mintedExpiry env cfg s)]
                (mintedWorld env s)).2,
              trace := s.trace ++ [Event.SignedString SigningMethodHS256
                  (mintedClaims env cfg userID s) cfg.JWT.JWTSecret,
                Event.Exec (Conn.tx tx) AuthRepo.createTokenQuery
                  [.str tok, .int64 userID, .time (mintedExpiry env cfg s)]] }) := by
  simp only [AuthService.createToken, AuthRepo_CreateToken_tx, timeNow, mintedClaims,
    mintedExpiry, mintedWorld]
  cases hsign : lib.jwtSign SigningMethodHS256
      [("userID", ClaimVal.int64 userID),
        ("exp", ClaimVal.int64 (Time.Unix ((env.now s.world).1 + cfg.JWT.TokenLiveTime))),
        ("iat", ClaimVal.int64 (Time.Unix (env.now (env.now s.world).2).1))]
      cfg.JWT.JWTSecret with
  | error e => rfl
  | ok tok =>
    simp only []
    cases hexec : (env.exec (Conn.tx tx) AuthRepo.createTokenQuery
        [.str tok, .int64 userID, .time ((env.now s.world).1 + cfg.JWT.TokenLiveTime)]
        (env.now (env.now s.world).2).2).1 <;> simp

theorem Login_begin_error {σ : Type} (lib : Lib) (env : Env σ) (cfg : Config) (ctx : Context)
    (login password : String) (s s1 : St σ) (b : GoError)
    (hbegin : AuthRepo.BeginTx env ctx none s = (.error b, s1)) :
    AuthService.Login lib env cfg ctx login password s =
      ((none, "", some (.wrapf "failed to start transaction: " b)), s1) := by
  simp only [AuthService.Login, WithTransaction_begin_error env ctx _ _ _ s s1 b hbegin]

theorem Login_fn_error {σ : Type} (lib : Lib) (env : Env σ) (cfg : Config) (ctx : Context)
    (login password : String) (s s1 s2 : St σ) (tx : SqlTx) (e : GoError)
    (k' : String × Option User)
    (hbegin : AuthRepo.BeginTx env ctx none s = (.ok tx, s1))
    (hfn : AuthService.Login.fn lib env cfg login password
      (ctx.WithValue CtxKey.TxKey (CtxVal.sqlTx tx)) ("", none) s1 = ((some e, k'), s2)) :
    AuthService.Login lib env cfg ctx login password s =
      ((none, "", some e),
        { world := (env.rollback tx s2.world).2, trace := s2.trace ++ [Event.Rollback tx] }) := by
  simp only [AuthService.Login,
    WithTransaction_fn_error env ctx _ _ _ k' s s1 s2 tx e hbegin hfn]

theorem Login_fn_ok {σ : Type} (lib : Lib) (env : Env σ) (cfg : Config) (ctx : Context)
    (login password : String) (s s1 s2 : St σ) (tx : SqlTx) (tok : String) (user : User)
    (hbegin : AuthRepo.BeginTx env ctx none s = (.ok tx, s1))
    (hfn : AuthService.Login.fn lib env cfg login password
      (ctx.WithValue CtxKey.TxKey (CtxVal.sqlTx tx)) ("", none) s1
        = ((none, (tok, some user)), s2)) :
    AuthService.Login lib env cfg ctx login password s =
      ((match (env.commit tx s2.world).1 with
        | some c =>
          (none, "", some (GoError.wrapf "failed to commit transaction: " (.ext c)))
        | none =>
          (some { ID := user.ID, Login := user.Login, CreatedAt := user.CreatedAt },
            tok, none)),
        { world := (env.rollback tx (env.commit tx s2.world).2).2,
          trace := s2.trace ++ [Event.Commit tx, Event.Rollback tx] }) := by
  simp only [AuthService.Login,
    WithTransaction_fn_ok env ctx _ _ _ _ s s1 s2 tx hbegin hfn]
  cases (env.commit tx s2.world).1 <;> rfl

/-- `Login` once the user is found and the password matches: the outcome by what signing,
the insert of the token row and `Commit` return. -/
theorem Login_found {σ : Type} (lib : Lib) (env : Env σ) (cfg : Config) (ctx : Context)
    (login password : String) (s s1 s2 : St σ) (tx : SqlTx) (user : User)
    (hbegin : AuthRepo.BeginTx env ctx none s = (.ok tx, s1))
    (hget : UserService.GetByLogin env (ctx.WithValue CtxKey.TxKey (CtxVal.sqlTx tx)) login s1
      = (.ok user, s2))
    (hcmp : bcrypt.CompareHashAndPassword lib user.PasswordHash password = none) :
    AuthService.Login lib env cfg ctx login password s =
      match lib.jwtSign SigningMethodHS256 (mintedClaims env cfg user.ID s2)
          cfg.JWT.JWTSecret with
      | .error e =>
        ((none, "", some (GoError.ext e)),
          { world := (env.rollback tx (mintedWorld env s2)).2,
            trace := s2.trace ++ [Event.SignedString SigningMethodHS256
              (mintedClaims env cfg user.ID s2) cfg.JWT.JWTSecret, Event.Rollback tx] })
      | .ok tok =>
        match (env.exec (Conn.tx tx) AuthRepo.createTokenQuery
            [.str tok, .int64 user.ID, .time (mintedExpiry env cfg s2)]
            (mintedWorld env s2)).1 with
        | .error e =>
          ((none, "", some (GoError.ext e)),
            { world := (env.rollback tx (env.exec (Conn.tx tx) AuthRepo.createTokenQuery
                [.str tok, .int64 user.ID, .time (mintedExpiry env cfg s2)]
                (mintedWorld env s2)).2).2,
              trace := s2.trace ++ [Event.SignedString SigningMethodHS256
                  (mintedClaims env cfg user.ID s2) cfg.JWT.JWTSecret,
                Event.Exec (Conn.tx tx) AuthRepo.createTokenQuery
                  [.str tok, .int64 user.ID, .time (mintedExpiry env cfg s2)],
                Event.Rollback tx] })
        | .ok _ =>
          ((match (env.commit tx (env.exec (Conn.tx tx) AuthRepo.createTokenQuery
                [.str tok, .int64 user.ID, .time (mintedExpiry env cfg s2)]
                (mintedWorld env s2)).2).1 with
            | some c =>
              (none, "", some (GoError.wrapf "failed to commit transaction: " (.ext c)))
            | none =>
              (some { ID := user.ID, Login := user.Login, CreatedAt := user.CreatedAt },
                tok, none)),
            { world := (env.rollback tx (env.commit tx (env.exec (Conn.tx tx)
                AuthRepo.createTokenQuery
                [.str tok, .int64 user.ID, .time (mintedExpiry env cfg s2)]
                (mintedWorld env s2)).2).2).2,
              trace := s2.trace ++ [Event.SignedString SigningMethodHS256
                  (mintedClaims env cfg user.ID s2) cfg.JWT.JWTSecret,
                Event.Exec (Conn.tx tx) AuthRepo.createTokenQuery
                  [.str tok, .int64 user.ID, .time (mintedExpiry env cfg s2)],
                Event.Commit tx, Event.Rollback tx] }) := by
  have hct := createToken_tx lib env cfg ctx tx user.ID s2
  cases hsign : lib.jwtSign SigningMethodHS256 (mintedClaims env cfg user.ID s2)
      cfg.JWT.JWTSecret with
  | error e =>
    rw [hsign] at hct
    rw [Login_fn_error lib env cfg ctx login password s s1 _ tx (GoError.ext e) ("", none)
      hbegin (by simp only [AuthService.Login.fn, hget, hcmp, hct]; rfl)]
    simp
  | ok tok =>
    rw [hsign] at hct
    simp only [] at hct ⊢
    cases hexec : (env.exec (Conn.tx tx) AuthRepo.createTokenQuery
        [.str tok, .int64 user.ID, .time (mintedExpiry env cfg s2)]
        (mintedWorld env s2)).1 with
    | error e =>
      rw [hexec] at hct
      rw [Login_fn_error lib env cfg ctx login password s s1 _ tx (GoError.ext e) ("", none)
        hbegin (by simp only [AuthService.Login.fn, hget, hcmp, hct]; rfl)]
      simp
    | ok r =>
      rw [hexec] at hct
      rw [Login_fn_ok lib env cfg ctx login password s s1 _ tx tok user hbegin
        (by simp only [AuthService.Login.fn, hget, hcmp, hct]; rfl)]
      simp

/-- C9: `Login` returns `ErrUserNotFound` exactly when the user lookup fails with an error
that is `sql.ErrNoRows`, and `ErrInvalidCredentials` exactly when the user is found and
the password does not match the stored hash.  In both cases the user is nil, the token is
empty and the calls made are `BeginTx`, the lookup and `Rollback`: nothing is signed and
no token row is written. -/
theorem C9_login_not_found_and_invalid_credentials {σ : Type} (lib : Lib) (env : Env σ)
    (cfg : Config) (ctx : Context) (login password : String) (s : St σ) :
    ((AuthService.Login lib env cfg ctx login password s).1.2.2 = some GoError.ErrUserNotFound
      ↔ ∃ err, loginLookup env ctx login s = some (.error err) ∧ err.Is sqlErrNoRows = true) ∧
    ((AuthService.Login lib env cfg ctx login password s).1.2.2
        = some GoError.ErrInvalidCredentials
      ↔ ∃ user, loginLookup env ctx login s = some (.ok user) ∧
          bcrypt.CompareHashAndPassword lib user.PasswordHash password ≠ none) ∧
    ((AuthService.Login lib env cfg ctx login password s).1.2.2 = some GoError.ErrUserNotFound ∨
      (AuthService.Login lib env cfg ctx login password s).1.2.2
        = some GoError.ErrInvalidCredentials →
      (AuthService.Login lib env cfg ctx login password s).1.1 = none ∧
      (AuthService.Login lib env cfg ctx login password s).1.2.1 = "" ∧
      ∃ tx, (AuthService.Login lib env cfg ctx login password s).2.trace =
        s.trace ++ [Event.BeginTx none,
          Event.QueryRow (Conn.tx tx) UserRepo.getByLoginQuery [.str login],
          Event.Rollback tx]) := by
  rcases hbegin : AuthRepo.BeginTx env ctx none s with ⟨_ | tx, s1⟩
  · rw [Login_begin_error lib env cfg ctx login password s _ _ hbegin]
    simp [loginLookup, hbegin]
  · have hs1 : s1.trace = s.trace ++ [Event.BeginTx none] := by
      rw [AuthRepo_BeginTx_eq] at hbegin
      exact (congrArg St.trace (Prod.mk.inj hbegin).2).symm
    rcases hget : UserService.GetByLogin env (ctx.WithValue CtxKey.TxKey (CtxVal.sqlTx tx))
      login s1 with ⟨_ | user, s2⟩
    · rename_i err
      have hs2 : s2.trace = s1.trace ++
          [Event.QueryRow (Conn.tx tx) UserRepo.getByLoginQuery [.str login]] := by
        rw [UserService_GetByLogin_tx] at hget
        exact (congrArg St.trace (Prod.mk.inj hget).2).symm
      have hext : ∃ e, err = GoError.ext e := by
        rw [UserService_GetByLogin_tx] at hget
        exact scanUser_error _ _ (Prod.mk.inj hget).1
      obtain ⟨e, rfl⟩ := hext
      cases hnr : (GoError.ext e).Is sqlErrNoRows with
      | true =>
        rw [Login_fn_error lib env cfg ctx login password s s1 s2 tx GoError.ErrUserNotFound
          ("", none) hbegin (by simp [AuthService.Login.fn, hget, hnr])]
        simp [loginLookup, hbegin, hget, hnr, hs2, hs1]
      | false =>
        rw [Login_fn_error lib env cfg ctx login password s s1 s2 tx (GoError.ext e)
          ("", none) hbegin (by simp [AuthService.Login.fn, hget, hnr])]
        simp [loginLookup, hbegin, hget, hnr]
    · have hs2 : s2.trace = s1.trace ++
          [Event.QueryRow (Conn.tx tx) UserRepo.getByLoginQuery [.str login]] := by
        rw [UserService_GetByLogin_tx] at hget
        exact (congrArg St.trace (Prod.mk.inj hget).2).symm
      cases hcmp : bcrypt.CompareHashAndPassword lib user.PasswordHash password with
      | some c =>
        rw [Login_fn_error lib env cfg ctx login password s s1 s2 tx
          GoError.ErrInvalidCredentials ("", none) hbegin
          (by simp [AuthService.Login.fn, hget, hcmp])]
        simp [loginLookup, hbegin, hget, hcmp, hs2, hs1]
      | none =>
        rw [Login_found lib env cfg ctx login password s s1 s2 tx user hbegin hget hcmp]
        split
        · simp [loginLookup, hbegin, hget, hcmp]
        · split
          · simp [loginLookup, hbegin, hget, hcmp]
          · split <;> simp [loginLookup, hbegin, hget, hcmp]

/-- C10: when the user is found and the password matches, `Login` signs with HS256 and
the configured secret the claims `userID` (the user's id), `exp` and `iat`.  If signing
fails, or the insert of the token row fails, `Login` returns that error with a nil user
and an empty token.  Otherwise the token row is written exactly once, on the transaction,
between the lookup and `Commit`, with the signed string, the user's id and the expiry; and
when `Commit` succeeds `Login` returns that string with the public projection of the
fetched user. -/
theorem C10_login_signs_persists_and_returns_token {σ : Type} (lib : Lib) (env : Env σ)
    (cfg : Config) (ctx : Context) (login password : String) (s s1 s2 : St σ) (tx : SqlTx)
    (user : User)
    (hbegin : AuthRepo.BeginTx env ctx none s = (.ok tx, s1))
    (hget : UserService.GetByLogin env (ctx.WithValue CtxKey.TxKey (CtxVal.sqlTx tx)) login s1
      = (.ok user, s2))
    (hcmp : bcrypt.CompareHashAndPassword lib user.PasswordHash password = none) :
    s2.trace = s.trace ++ [Event.BeginTx none,
      Event.QueryRow (Conn.tx tx) UserRepo.getByLoginQuery [.str login]] ∧
    (mintedClaims env cfg user.ID s2).get "userID" = some (.int64 user.ID) ∧
    (mintedClaims env cfg user.ID s2).get "exp"
      = some (.int64 (Time.Unix (mintedExpiry env cfg s2))) ∧
    (mintedClaims env cfg user.ID s2).get "iat"
      = some (.int64 (Time.Unix (env.now (env.now s2.world).2).1)) ∧
    (∀ e, lib.jwtSign SigningMethodHS256 (mintedClaims env cfg user.ID s2) cfg.JWT.JWTSecret
        = .error e →
      (AuthService.Login lib env cfg ctx login password s).1 = (none, "", some (.ext e)) ∧
      (AuthService.Login lib env cfg ctx login password s).2.trace =
        s2.trace ++ [Event.SignedString SigningMethodHS256
          (mintedClaims env cfg user.ID s2) cfg.JWT.JWTSecret, Event.Rollback tx]) ∧
    (∀ tok, lib.jwtSign SigningMethodHS256 (mintedClaims env cfg user.ID s2) cfg.JWT.JWTSecret
        = .ok tok →
      (∀ e, (env.exec (Conn.tx tx) AuthRepo.createTokenQuery
            [.str tok, .int64 user.ID, .time (mintedExpiry env cfg s2)]
            (mintedWorld env s2)).1 = .error e →
        (AuthService.Login lib env cfg ctx login password s).1 = (none, "", some (.ext e)) ∧
        (AuthService.Login lib env cfg ctx login password s).2.trace =
          s2.trace ++ [Event.SignedString SigningMethodHS256
              (mintedClaims env cfg user.ID s2) cfg.JWT.JWTSecret,
            Event.Exec (Conn.tx tx) AuthRepo.createTokenQuery
              [.str tok, .int64 user.ID, .time (mintedExpiry env cfg s2)],
            Event.Rollback tx]) ∧
      (∀ r, (env.exec (Conn.tx tx) AuthRepo.createTokenQuery
            [.str tok, .int64 user.ID, .time (mintedExpiry env cfg s2)]
            (mintedWorld env s2)).1 = .ok r →
        (AuthService.Login lib env cfg ctx login password s).2.trace =
          s2.trace ++ [Event.SignedString SigningMethodHS256
              (mintedClaims env cfg user.ID s2) cfg.JWT.JWTSecret,
            Event.Exec (Conn.tx tx) AuthRepo.createTokenQuery
              [.str tok, .int64 user.ID, .time (mintedExpiry env cfg s2)],
            Event.Commit tx, Event.Rollback tx] ∧
        ((env.commit tx (env.exec (Conn.tx tx) AuthRepo.createTokenQuery
            [.str tok, .int64 user.ID, .time (mintedExpiry env cfg s2)]
            (mintedWorld env s2)).2).1 = none →
          (AuthService.Login lib env cfg ctx login password s).1 =
            (some { ID := user.ID, Login := user.Login, CreatedAt := user.CreatedAt },
              tok, none)))) := by
  have hs1 : s1.trace = s.trace ++ [Event.BeginTx none] := by
    rw [AuthRepo_BeginTx_eq] at hbegin
    exact (congrArg St.trace (Prod.mk.inj hbegin).2).symm
  have hs2 : s2.trace = s1.trace ++
      [Event.QueryRow (Conn.tx tx) UserRepo.getByLoginQuery [.str login]] := by
    rw [UserService_GetByLogin_tx] at hget
    exact (congrArg St.trace (Prod.mk.inj hget).2).symm
  have hfound := Login_found lib env cfg ctx login password s s1 s2 tx user hbegin hget hcmp
  refine ⟨by simp [hs2, hs1], by simp [mintedClaims, MapClaims.get],
    by simp [mintedClaims, MapClaims.get], by simp [mintedClaims, MapClaims.get], ?_, ?_⟩
  · intro e hsign
    rw [hsign] at hfound
    rw [hfound]
    exact ⟨rfl, rfl⟩
  · intro tok hsign
    rw [hsign] at hfound
    refine ⟨?_, ?_⟩
    · intro e hexec
      simp only [hexec] at hfound
      rw [hfound]
      exact ⟨rfl, rfl⟩
    · intro r hexec
      simp only [hexec] at hfound
      rw [hfound]
      refine ⟨rfl, ?_⟩
      intro hcommit
      simp only [hcommit]

/-- C10 at a concrete input: `alice` logs in on the store that holds her; the token row
is written on transaction 2 and the token comes back with her public projection. -/
theorem C10_witness :
    (AuthService.Login Example.lib Store.env Example.cfg [] "alice" "password123"
      Example.registered).1 =
      (some { ID := 1, Login := "alice", CreatedAt := 1000000000 }, "tok", none) ∧
    (AuthService.Login Example.lib Store.env Example.cfg [] "alice" "password123"
      Example.registered).2.world.committed.tokens =
      [{ token := "tok", user_id := 1, expires_at := 6000000000 }] :=
  ⟨((C10_login_signs_persists_and_returns_token Example.lib Store.env Example.cfg []
      "alice" "password123" Example.registered
      (AuthRepo.BeginTx Store.env [] none Example.registered).2
      (UserService.GetByLogin Store.env [(CtxKey.TxKey, CtxVal.sqlTx { id := 2 })] "alice"
        (AuthRepo.BeginTx Store.env [] none Example.registered).2).2
      { id := 2 }
      { ID := 1, Login := "alice", PasswordHash := "$2a$password123",
        CreatedAt := 1000000000 }
      rfl rfl rfl).2.2.2.2.2 "tok" rfl).2 { lastInsertId := 0, rowsAffected := 1 } rfl
      |>.2 rfl,
    by decide⟩

/-! ## Lemmas for the round trip register, login, validate -/

theorem scanUser_ok (u : Store.UserRow) :
    scanUser (.ok (Store.userColumns u)) =
      .ok { ID := u.id, Login := u.login, PasswordHash := u.password_hash,
            CreatedAt := u.created_at } := rfl

/-- `Login` on the reference store when the user is found, the password matches, signing
yields `tok` and no row holds `tok` yet. -/
theorem Store.Login_success (lib : Lib) (cfg : Config) (ctx : Context)
    (login password tok : String) (u : Store.UserRow) (s : St Store.World)
    (hfind : s.world.committed.users.find? (fun r => r.login == login) = some u)
    (hcmp : lib.bcryptCompare u.password_hash password = none)
    (hsign : lib.jwtSign SigningMethodHS256
      (Store.claimsAt cfg u.id s.world.clock s.world.tick) cfg.JWT.JWTSecret = .ok tok)
    (hfresh : s.world.committed.tokens.any (fun r => r.token == tok) = false) :
    (AuthService.Login lib Store.env cfg ctx login password s).1
      = (some { ID := u.id, Login := u.login, CreatedAt := u.created_at }, tok, none) ∧
    (AuthService.Login lib Store.env cfg ctx login password s).2.world.committed
      = { users := s.world.committed.users,
          tokens := s.world.committed.tokens ++
            [{ token := tok, user_id := u.id,
               expires_at := s.world.clock + cfg.JWT.TokenLiveTime }],
          nextUserID := s.world.committed.nextUserID } := by
  have hget : UserService.GetByLogin Store.env
      (ctx.WithValue CtxKey.TxKey (CtxVal.sqlTx { id := s.world.nextTx })) login
      { world := { s.world with
          active := ({ id := s.world.nextTx }, s.world.committed) :: s.world.active,
          nextTx := s.world.nextTx + 1 },
        trace := s.trace ++ [Event.BeginTx none] } =
      (.ok { ID := u.id, Login := u.login, PasswordHash := u.password_hash,
             CreatedAt := u.created_at },
        { world := { s.world with
            active := ({ id := s.world.nextTx }, s.world.committed) :: s.world.active,
            nextTx := s.world.nextTx + 1 },
          trace := s.trace ++ [Event.BeginTx none] ++
            [Event.QueryRow (Conn.tx { id := s.world.nextTx }) UserRepo.getByLoginQuery
              [.str login]] }) := by
    simp [UserService_GetByLogin_tx, Store.env_queryRow, Store.onConn_tx_head,
      Store.queryRowOn_getByLogin, hfind, scanUser_ok]
  have hfound := Login_found lib Store.env cfg ctx login password s _ _ _ _
    (Store.beginTx_eq ctx s) hget (by simp [bcrypt.CompareHashAndPassword, hcmp])
  have hclaims : mintedClaims Store.env cfg u.id
      { world := { s.world with
          active := ({ id := s.world.nextTx }, s.world.committed) :: s.world.active,
          nextTx := s.world.nextTx + 1 },
        trace := s.trace ++ [Event.BeginTx none] ++
          [Event.QueryRow (Conn.tx { id := s.world.nextTx }) UserRepo.getByLoginQuery
            [.str login]] } = Store.claimsAt cfg u.id s.world.clock s.world.tick := rfl
  rw [hclaims, hsign] at hfound
  simp only [mintedWorld, mintedExpiry, Store.env_now, Store.env_exec, Store.onConn_tx_head,
    Store.execOn_createToken _ _ _ _ hfresh, Store.env_commit, Store.commit_head,
    Store.env_rollback] at hfound
  rw [hfound]
  exact ⟨rfl, (Store.rollback_fields _ _).1⟩

theorem wrapInt_of_range (x : Int) (h0 : -(2 ^ 63) ≤ x) (h1 : x < 2 ^ 63) : wrapInt x = x := by
  unfold wrapInt
  have e : (x + 2 ^ 63) % 2 ^ 64 = x + 2 ^ 63 :=
    Int.emod_eq_of_lt (by omega) (by omega)
  rw [e]; omega

theorem tdiv_eq_floor (x : Rat) (h0 : 0 ≤ x) : x.num.tdiv x.den = ⌊x⌋ := by
  rw [Rat.floor_def]
  have hnum : 0 ≤ x.num := Rat.num_nonneg.mpr h0
  exact Int.tdiv_eq_ediv hnum (by positivity)

/-- A date claim that is not negative and whose seconds fit the int64 of `time.Time` is
read as the instant of its whole seconds. -/
theorem newNumericDate_of_nonneg (x : Rat) (h0 : 0 ≤ x)
    (h1 : ⌊x⌋ + 62135596800 < 2 ^ 63) :
    jwt.newNumericDateFromSeconds x = ⌊x⌋ * 1000000000 := by
  have hfl : 0 ≤ ⌊x⌋ := Int.floor_nonneg.mpr h0
  have htd := tdiv_eq_floor x h0
  have hsec : float64ToInt64 x = ⌊x⌋ := by
    unfold float64ToInt64
    rw [htd, if_pos ⟨by omega, by omega⟩]
  have hden : (0 : Int) < x.den := by exact_mod_cast x.den_pos
  have hfrac : 0 ≤ x.num - ⌊x⌋ * x.den := by
    have hmod := Int.emod_nonneg x.num (ne_of_gt hden)
    have e := Int.emod_add_ediv x.num x.den
    rw [Rat.floor_def]
    have e2 : x.num - x.num / ↑x.den * ↑x.den = x.num % ↑x.den := by
      rw [mul_comm] ; omega
    rw [e2]
    exact hmod
  have hborrow :
      ¬ ((x.num - ⌊x⌋ * x.den) * 1000000000 * 2 ^ 54 ≤ -((2 ^ 54 - 1) * x.den)) := by
    intro h
    have h2 : 0 ≤ (x.num - ⌊x⌋ * x.den) * 1000000000 * 2 ^ 54 := by positivity
    have h3 : -((2 ^ 54 - 1) * (x.den : Int)) < 0 := by
      have : (0 : Int) < (2 ^ 54 - 1) * x.den := by positivity
      omega
    omega
  unfold jwt.newNumericDateFromSeconds
  simp only [htd, hsec, hborrow, decide_False, Bool.false_eq_true, if_false]
  rw [wrapInt_of_range _ (by unfold jwt.unixToInternal; omega)
    (by unfold jwt.unixToInternal; omega)]
  ring

/-- A whole number of seconds of magnitude at most 2 ^ 53 is read as that instant. -/
theorem newNumericDate_intCast (n : Int) (h : n.natAbs ≤ 2 ^ 53) :
    jwt.newNumericDateFromSeconds (n : Rat) = n * 1000000000 := by
  have h1 : -9223372036854775808 ≤ n := by omega
  have h2 : n ≤ 9223372036854775807 := by omega
  unfold jwt.newNumericDateFromSeconds
  simp only [float64ToInt64, Rat.num_intCast, Rat.den_intCast, Nat.cast_one, Int.tdiv_one,
    h1, h2, and_self, if_true, mul_one, sub_self, zero_mul]
  rw [if_neg (by decide), wrapInt_of_range _ (by unfold jwt.unixToInternal; omega)
    (by unfold jwt.unixToInternal; omega)]
  ring

theorem float64OfInt64_exact (n : Int) (h : n.natAbs ≤ 2 ^ 53) : float64OfInt64 n = n := by
  unfold float64OfInt64
  rw [if_pos h]

theorem float64ToInt64_intCast (n : Int) (h : n.natAbs ≤ 2 ^ 53) :
    float64ToInt64 (n : Rat) = n := by
  have h1 : -9223372036854775808 ≤ n := by omega
  have h2 : n ≤ 9223372036854775807 := by omega
  simp [float64ToInt64, h1, h2]

/-- The default validation accepts the decoded claims of the reference store before the
second of their `exp`. -/
theorem validate_claimsAt (cfg : Config) (userID : Int) (clock : Time) (tick : Duration)
    (now : Time)
    (hexp : (Time.Unix (clock + cfg.JWT.TokenLiveTime)).natAbs ≤ 2 ^ 53)
    (hnow : now < Time.Unix (clock + cfg.JWT.TokenLiveTime) * 1000000000) :
    jwt.validate (jsonRoundTrip (Store.claimsAt cfg userID clock tick)) now = true := by
  simp only [jwt.validate, jwt.numericDate, jsonRoundTrip, Store.claimsAt, MapClaims.get,
    List.map, float64OfInt64_exact _ hexp]
  simp
  by_cases hzero : Time.Unix (clock + cfg.JWT.TokenLiveTime) = 0
  · simp [hzero]
  · simp [hzero, newNumericDate_intCast _ hexp, hnow]

theorem userID_claimsAt (cfg : Config) (userID : Int) (clock : Time) (tick : Duration)
    (hid : userID.natAbs ≤ 2 ^ 53) :
    (jsonRoundTrip (Store.claimsAt cfg userID clock tick)).get "userID"
      = some (.float64 (userID : Rat)) := by
  simp [jsonRoundTrip, Store.claimsAt, MapClaims.get, float64OfInt64_exact _ hid]

/-- `ValidateToken` on the reference store, called with a context that binds no
transaction, for a token that decodes, verifies, passes validation at the current clock
and whose row is committed. -/
theorem Store.ValidateToken_accepts (lib : Lib) (cfg : Config) (ctx : Context)
    (tok : String) (alg : String) (claims : MapClaims) (x : Rat) (s : St Store.World)
    (hdec : lib.jwtDecode tok = .ok (SigningMethod.HMAC alg, claims))
    (hver : lib.jwtVerify (SigningMethod.HMAC alg) tok cfg.JWT.JWTSecret = true)
    (hvalid : jwt.validate claims s.world.clock = true)
    (huid : claims.get "userID" = some (.float64 x))
    (hctx : getTxFromContext ctx = none)
    (hrow : s.world.committed.tokens.any (fun r => r.token == tok) = true) :
    (AuthService.ValidateToken lib Store.env cfg ctx tok s).1 = (float64ToInt64 x, none) := by
  simp [AuthService.ValidateToken, jwt.Parse, hdec, AuthService.ValidateToken.keyFunc, hver,
    timeNow, Store.env_now, hvalid, huid, AuthRepo.CheckTokenExists, QueryRowWithTx, hctx,
    Conn.QueryRowContext, Store.env_queryRow, Store.onConn_pool,
    Store.queryRowOn_checkTokenExists, hrow, scanBool_ok]

/-- C1, evaluated where it fails: on a store whose next user id is 2 ^ 53 + 1, `Register`
and `Login` succeed with that id and `ValidateToken` accepts the token, but the id it
returns is 2 ^ 53, not the id of the registered user: `createToken` signs the int64, and
`ValidateToken` reads the `userID` claim back as a float64 and converts that. -/
theorem C1_validate_returns_other_id_above_2_pow_53 :
    (AuthService.Register Example.bigLib Store.env Example.cfg [] "alice" "password123"
      Example.bigStart).1 =
      (some { ID := 9007199254740993, Login := "alice", CreatedAt := 1000000000 }, none) ∧
    (AuthService.Login Example.bigLib Store.env Example.cfg [] "alice" "password123"
      (AuthService.Register Example.bigLib Store.env Example.cfg [] "alice" "password123"
        Example.bigStart).2).1 =
      (some { ID := 9007199254740993, Login := "alice", CreatedAt := 1000000000 }, "tok",
        none) ∧
    (AuthService.ValidateToken Example.bigLib Store.env Example.cfg [] "tok"
      Example.bigLoggedIn).1 = (9007199254740992, none) := by
  decide

/-- The round trip for ids a float64 holds exactly.  On the reference store, starting from
committed tables that hold no user with the login and whose next user id is at most 2 ^ 53
in magnitude (and with the second of the `exp` claim in that range too), and provided bcrypt
hashes the password and accepts it against that hash, and signing yields a non-empty
token string that is not yet in the token table, decodes to the signed claims and verifies
under the secret: `Register` succeeds with the next id; a following `Login` succeeds and
returns that token; its row is committed; and `ValidateToken` on it, called without a bound
transaction in any state `s3` in which the row exists and the clock is before the second
of the `exp` claim, returns exactly the id of the registered user. -/
theorem register_login_validate_round_trip (lib : Lib) (cfg : Config)
    (ctx1 ctx2 ctx3 : Context) (login password h tok : String) (s s3 : St Store.World)
    (hfree : s.world.committed.users.any (fun u => u.login == login) = false)
    (hid : s.world.committed.nextUserID.natAbs ≤ 2 ^ 53)
    (hgen : lib.bcryptGenerate password cfg.JWT.BCryptCost s.world.seed = .ok h)
    (hcmp : lib.bcryptCompare h password = none)
    (hsign : lib.jwtSign SigningMethodHS256
      (Store.claimsAt cfg s.world.committed.nextUserID s.world.clock s.world.tick)
      cfg.JWT.JWTSecret = .ok tok)
    (hne : tok ≠ "")
    (hfresh : s.world.committed.tokens.any (fun r => r.token == tok) = false)
    (hdec : lib.jwtDecode tok = .ok (SigningMethodHS256,
      jsonRoundTrip
        (Store.claimsAt cfg s.world.committed.nextUserID s.world.clock s.world.tick)))
    (hver : lib.jwtVerify SigningMethodHS256 tok cfg.JWT.JWTSecret = true)
    (hexp : (Time.Unix (s.world.clock + cfg.JWT.TokenLiveTime)).natAbs ≤ 2 ^ 53)
    (hctx : getTxFromContext ctx3 = none)
    (hrow : s3.world.committed.tokens.any (fun r => r.token == tok) = true)
    (hnow : s3.world.clock
      < Time.Unix (s.world.clock + cfg.JWT.TokenLiveTime) * 1000000000) :
    (AuthService.Register lib Store.env cfg ctx1 login password s).1 =
      (some { ID := s.world.committed.nextUserID, Login := login,
              CreatedAt := s.world.clock }, none) ∧
    (AuthService.Login lib Store.env cfg ctx2 login password
      (AuthService.Register lib Store.env cfg ctx1 login password s).2).1 =
      (some { ID := s.world.committed.nextUserID, Login := login,
              CreatedAt := s.world.clock }, tok, none) ∧
    tok ≠ "" ∧
    (AuthService.Login lib Store.env cfg ctx2 login password
      (AuthService.Register lib Store.env cfg ctx1 login password
        s).2).2.world.committed.tokens.any (fun r => r.token == tok) = true ∧
    (AuthService.ValidateToken lib Store.env cfg ctx3 tok s3).1 =
      (s.world.committed.nextUserID, none) := by
  have hreg := Store.Register_free lib cfg ctx1 login password h s hfree hgen
  have hnone : s.world.committed.users.find? (fun u => u.login == login) = none := by
    rw [List.find?_eq_none]
    intro u hu
    have := List.any_eq_false.mp hfree u hu
    simpa using this
  have hlogin := Store.Login_success lib cfg ctx2 login password tok
    { id := s.world.committed.nextUserID, login := login, password_hash := h,
      created_at := s.world.clock }
    (AuthService.Register lib Store.env cfg ctx1 login password s).2
    (by rw [hreg.2.1]; simp [List.find?_append, hnone])
    hcmp
    (by rw [hreg.2.2.1, hreg.2.2.2.1]; exact hsign)
    (by rw [hreg.2.1]; exact hfresh)
  refine ⟨hreg.1, hlogin.1, hne, ?_, ?_⟩
  · rw [hlogin.2]
    simp
  · have hacc := Store.ValidateToken_accepts lib cfg ctx3 tok "HS256" _
      (s.world.committed.nextUserID : Rat) s3 hdec hver
      (validate_claimsAt cfg _ _ _ _ hexp hnow) (userID_claimsAt cfg _ _ _ hid) hctx hrow
    rw [hacc, float64ToInt64_intCast _ hid]

/-- The round trip at a concrete input: `alice` registers, logs in and validates her token
on the empty store. -/
theorem register_login_validate_round_trip_example :
    (AuthService.Register Example.lib Store.env Example.cfg [] "alice" "password123"
      Example.start).1 =
      (some { ID := 1, Login := "alice", CreatedAt := 1000000000 }, none) ∧
    (AuthService.Login Example.lib Store.env Example.cfg [] "alice" "password123"
      (AuthService.Register Example.lib Store.env Example.cfg [] "alice" "password123"
        Example.start).2).1 =
      (some { ID := 1, Login := "alice", CreatedAt := 1000000000 }, "tok", none) ∧
    "tok" ≠ "" ∧
    (AuthService.Login Example.lib Store.env Example.cfg [] "alice" "password123"
      (AuthService.Register Example.lib Store.env Example.cfg [] "alice" "password123"
        Example.start).2).2.world.committed.tokens.any (fun r => r.token == "tok") = true ∧
    (AuthService.ValidateToken Example.lib Store.env Example.cfg [] "tok"
      Example.loggedIn).1 = (1, none) :=
  register_login_validate_round_trip Example.lib Example.cfg [] [] [] "alice"
    "password123" "$2a$password123" "tok" Example.start Example.loggedIn
    (by decide) (by decide) rfl rfl rfl (by decide) (by decide) rfl rfl (by decide) rfl
    (by decide) (by decide)

/-! ## Token expiry, validation and cleanup: C11 to C14 -/

theorem ExecWithTx_connOf {σ : Type} (env : Env σ) (ctx : Context) (query : String)
    (args : List SqlVal) (s : St σ) :
    ExecWithTx env ctx query args s =
      (liftExcept (env.exec (connOf ctx) query args s.world).1,
        { world := (env.exec (connOf ctx) query args s.world).2,
          trace := s.trace ++ [Event.Exec (connOf ctx) query args] }) := by
  unfold ExecWithTx connOf
  cases getTxFromContext ctx <;> rfl

theorem QueryRowWithTx_connOf {σ : Type} (env : Env σ) (ctx : Context) (query : String)
    (args : List SqlVal) (s : St σ) :
    QueryRowWithTx env ctx query args s =
      ((env.queryRow (connOf ctx) query args s.world).1,
        { world := (env.queryRow (connOf ctx) query args s.world).2,
          trace := s.trace ++ [Event.QueryRow (connOf ctx) query args] }) := by
  unfold QueryRowWithTx connOf
  cases getTxFromContext ctx <;> rfl

theorem QueryWithTx_connOf {σ : Type} (env : Env σ) (ctx : Context) (query : String)
    (args : List SqlVal) (s : St σ) :
    QueryWithTx env ctx query args s =
      (liftExcept (env.query (connOf ctx) query args s.world).1,
        { world := (env.query (connOf ctx) query args s.world).2,
          trace := s.trace ++ [Event.Query (connOf ctx) query args] }) := by
  unfold QueryWithTx connOf
  cases getTxFromContext ctx <;> rfl

/-- What `createToken` does with any context once signing succeeded. -/
theorem createToken_trace {σ : Type} (lib : Lib) (env : Env σ) (cfg : Config) (ctx : Context)
    (userID : Int) (s : St σ) (tok : String)
    (hsign : lib.jwtSign SigningMethodHS256 (mintedClaims env cfg userID s)
      cfg.JWT.JWTSecret = .ok tok) :
    (AuthService.createToken lib env cfg ctx userID s).2.trace =
      s.trace ++ [Event.SignedString SigningMethodHS256 (mintedClaims env cfg userID s)
          cfg.JWT.JWTSecret,
        Event.Exec (connOf ctx) AuthRepo.createTokenQuery
          [.str tok, .int64 userID, .time (mintedExpiry env cfg s)]] := by
  have hsign' : lib.jwtSign SigningMethodHS256
      [("userID", ClaimVal.int64 userID),
        ("exp", ClaimVal.int64 (Time.Unix ((env.now s.world).1 + cfg.JWT.TokenLiveTime))),
        ("iat", ClaimVal.int64 (Time.Unix (env.now (env.now s.world).2).1))]
      cfg.JWT.JWTSecret = .ok tok := hsign
  simp only [AuthService.createToken, timeNow, hsign', AuthRepo.CreateToken, ExecWithTx_connOf,
    mintedClaims, mintedExpiry]
  cases (env.exec (connOf ctx) AuthRepo.createTokenQuery
      [.str tok, .int64 userID, .time ((env.now s.world).1 + cfg.JWT.TokenLiveTime)]
      (env.now (env.now s.world).2).2).1 <;> simp [liftExcept]

theorem Time.Unix_bounds (t : Time) :
    Time.Unix t * 1000000000 ≤ t ∧ t < Time.Unix t * 1000000000 + 1000000000 := by
  unfold Time.Unix
  constructor
  · exact Int.ediv_mul_le t (by norm_num)
  · have := Int.lt_ediv_add_one_mul_self t (show (0 : Int) < 1000000000 by norm_num)
    linarith

/-- C11: the token row and the signed claim get their expiry from one value, the first
clock reading plus the configured lifetime: `createToken` passes that instant to the
insert of the row and its Unix seconds as the `exp` claim, so
`exp ≤ expires_at < exp + 1 second` (in nanoseconds); the reference store stores the
instant it is passed. -/
theorem C11_claim_and_row_share_one_expiry {σ : Type} (lib : Lib) (env : Env σ)
    (cfg : Config) (ctx : Context) (userID : Int) (s : St σ) (tok : String)
    (hsign : lib.jwtSign SigningMethodHS256 (mintedClaims env cfg userID s)
      cfg.JWT.JWTSecret = .ok tok) :
    (AuthService.createToken lib env cfg ctx userID s).2.trace =
      s.trace ++ [Event.SignedString SigningMethodHS256 (mintedClaims env cfg userID s)
          cfg.JWT.JWTSecret,
        Event.Exec (connOf ctx) AuthRepo.createTokenQuery
          [.str tok, .int64 userID, .time (mintedExpiry env cfg s)]] ∧
    mintedExpiry env cfg s = (env.now s.world).1 + cfg.JWT.TokenLiveTime ∧
    (mintedClaims env cfg userID s).get "exp"
      = some (.int64 (Time.Unix (mintedExpiry env cfg s))) ∧
    Time.Unix (mintedExpiry env cfg s) * 1000000000 ≤ mintedExpiry env cfg s ∧
    mintedExpiry env cfg s < Time.Unix (mintedExpiry env cfg s) * 1000000000 + 1000000000 ∧
    (∀ (t : Store.Tables) (expiresAt : Time),
      t.tokens.any (fun r => r.token == tok) = false →
      (Store.execOn AuthRepo.createTokenQuery [.str tok, .int64 userID, .time expiresAt]
        t).2.tokens = t.tokens ++ [{ token := tok, user_id := userID,
                                      expires_at := expiresAt }]) := by
  refine ⟨createToken_trace lib env cfg ctx userID s tok hsign, rfl, ?_,
    (Time.Unix_bounds _).1, (Time.Unix_bounds _).2, ?_⟩
  · simp [mintedClaims, MapClaims.get]
  · intro t expiresAt hfresh
    rw [Store.execOn_createToken tok userID expiresAt t hfresh]

/-- C11 at a concrete input: user 1 gets a token on the store that holds her, at second 1
with a lifetime of five seconds; the row and the claim both expire at second 6. -/
theorem C11_witness :
    (AuthService.createToken Example.lib Store.env Example.cfg [] 1
      Example.registered).2.trace.drop 5 =
      [Event.SignedString SigningMethodHS256
          [("userID", .int64 1), ("exp", .int64 6), ("iat", .int64 1)] "secret",
        Event.Exec Conn.pool AuthRepo.createTokenQuery
          [.str "tok", .int64 1, .time 6000000000]] :=
  (congrArg (List.drop 5)
    (C11_claim_and_row_share_one_expiry Example.lib Store.env Example.cfg [] 1
      Example.registered "tok" rfl).1).trans (by decide)

/-! ## Lemmas on `ValidateToken` -/

theorem ValidateToken_decode_error {σ : Type} (lib : Lib) (env : Env σ) (cfg : Config)
    (ctx : Context) (tok : String) (s : St σ) (e : ExtError)
    (hdec : lib.jwtDecode tok = .error e) :
    AuthService.ValidateToken lib env cfg ctx tok s = ((0, some .ErrInvalidToken), s) := by
  simp [AuthService.ValidateToken, jwt.Parse, hdec]

theorem ValidateToken_not_hmac {σ : Type} (lib : Lib) (env : Env σ) (cfg : Config)
    (ctx : Context) (tok : String) (s : St σ) (alg : String) (claims : MapClaims)
    (hdec : lib.jwtDecode tok = .ok (.other alg, claims)) :
    AuthService.ValidateToken lib env cfg ctx tok s = ((0, some .ErrInvalidToken), s) := by
  simp [AuthService.ValidateToken, jwt.Parse, hdec, AuthService.ValidateToken.keyFunc]

theorem ValidateToken_verify_false {σ : Type} (lib : Lib) (env : Env σ) (cfg : Config)
    (ctx : Context) (tok : String) (s : St σ) (alg : String) (claims : MapClaims)
    (hdec : lib.jwtDecode tok = .ok (.HMAC alg, claims))
    (hver : lib.jwtVerify (.HMAC alg) tok cfg.JWT.JWTSecret = false) :
    AuthService.ValidateToken lib env cfg ctx tok s = ((0, some .ErrInvalidToken), s) := by
  simp [AuthService.ValidateToken, jwt.Parse, hdec, AuthService.ValidateToken.keyFunc, hver]

theorem ValidateToken_validate_false {σ : Type} (lib : Lib) (env : Env σ) (cfg : Config)
    (ctx : Context) (tok : String) (s : St σ) (alg : String) (claims : MapClaims)
    (hdec : lib.jwtDecode tok = .ok (.HMAC alg, claims))
    (hver : lib.jwtVerify (.HMAC alg) tok cfg.JWT.JWTSecret = true)
    (hval : jwt.validate claims (env.now s.world).1 = false) :
    AuthService.ValidateToken lib env cfg ctx tok s =
      ((0, some .ErrInvalidToken), (timeNow env s).2) := by
  simp [AuthService.ValidateToken, jwt.Parse, hdec, AuthService.ValidateToken.keyFunc, hver,
    timeNow, hval]

theorem ValidateToken_userID_not_number {σ : Type} (lib : Lib) (env : Env σ) (cfg : Config)
    (ctx : Context) (tok : String) (s : St σ) (alg : String) (claims : MapClaims)
    (hdec : lib.jwtDecode tok = .ok (.HMAC alg, claims))
    (hver : lib.jwtVerify (.HMAC alg) tok cfg.JWT.JWTSecret = true)
    (hval : jwt.validate claims (env.now s.world).1 = true)
    (huid : ∀ x, claims.get "userID" ≠ some (.float64 x)) :
    AuthService.ValidateToken lib env cfg ctx tok s =
      ((0, some .ErrInvalidToken), (timeNow env s).2) := by
  simp only [AuthService.ValidateToken, jwt.Parse, hdec, AuthService.ValidateToken.keyFunc,
    hver, timeNow, hval, if_true]
  rcases hget : MapClaims.get claims "userID" with _ | v
  · simp
  · cases v with
    | float64 x => exact absurd hget (huid x)
    | int64 n => simp
    | other raw => simp

/-- `ValidateToken` on the path that reaches the store: the outcome by what
`CheckTokenExists` returns. -/
theorem ValidateToken_checked {σ : Type} (lib : Lib) (env : Env σ) (cfg : Config)
    (ctx : Context) (tok : String) (s : St σ) (alg : String) (claims : MapClaims) (x : Rat)
    (hdec : lib.jwtDecode tok = .ok (.HMAC alg, claims))
    (hver : lib.jwtVerify (.HMAC alg) tok cfg.JWT.JWTSecret = true)
    (hval : jwt.validate claims (env.now s.world).1 = true)
    (huid : claims.get "userID" = some (.float64 x)) :
    (AuthService.ValidateToken lib env cfg ctx tok s).2 =
      (AuthRepo.CheckTokenExists env ctx tok (timeNow env s).2).2 ∧
    (∀ err, (AuthRepo.CheckTokenExists env ctx tok (timeNow env s).2).1 = .error err →
      (AuthService.ValidateToken lib env cfg ctx tok s).1 = (0, some err)) ∧
    ((AuthRepo.CheckTokenExists env ctx tok (timeNow env s).2).1 = .ok false →
      (AuthService.ValidateToken lib env cfg ctx tok s).1 = (0, some .ErrInvalidToken)) ∧
    ((AuthRepo.CheckTokenExists env ctx tok (timeNow env s).2).1 = .ok true →
      (AuthService.ValidateToken lib env cfg ctx tok s).1 = (float64ToInt64 x, none)) := by
  simp only [AuthService.ValidateToken, jwt.Parse, hdec, AuthService.ValidateToken.keyFunc,
    hver, timeNow, hval, if_true, huid]
  rcases hchk : AuthRepo.CheckTokenExists env ctx tok
    { world := (env.now s.world).2, trace := s.trace } with ⟨e | b, s2⟩
  · simp
  · cases b <;> simp

/-- Unless the token decodes with an HMAC method, verifies under the configured secret,
passes claim validation and carries a numeric `userID`, `ValidateToken` rejects it without
a call to the store. -/
theorem ValidateToken_rejects_before_store {σ : Type} (lib : Lib) (env : Env σ)
    (cfg : Config) (ctx : Context) (tok : String) (s : St σ)
    (hnot : ¬ ∃ alg claims x, lib.jwtDecode tok = .ok (.HMAC alg, claims) ∧
      lib.jwtVerify (.HMAC alg) tok cfg.JWT.JWTSecret = true ∧
      jwt.validate claims (env.now s.world).1 = true ∧
      claims.get "userID" = some (.float64 x)) :
    (AuthService.ValidateToken lib env cfg ctx tok s).1 = (0, some .ErrInvalidToken) ∧
    (AuthService.ValidateToken lib env cfg ctx tok s).2.trace = s.trace := by
  rcases hdec : lib.jwtDecode tok with e | ⟨m, claims⟩
  · rw [ValidateToken_decode_error lib env cfg ctx tok s e hdec]
    exact ⟨rfl, rfl⟩
  · cases m with
    | other alg =>
      rw [ValidateToken_not_hmac lib env cfg ctx tok s alg claims hdec]
      exact ⟨rfl, rfl⟩
    | HMAC alg =>
      cases hver : lib.jwtVerify (.HMAC alg) tok cfg.JWT.JWTSecret with
      | false =>
        rw [ValidateToken_verify_false lib env cfg ctx tok s alg claims hdec hver]
        exact ⟨rfl, rfl⟩
      | true =>
        cases hval : jwt.validate claims (env.now s.world).1 with
        | false =>
          rw [ValidateToken_validate_false lib env cfg ctx tok s alg claims hdec hver hval]
          exact ⟨rfl, rfl⟩
        | true =>
          rw [ValidateToken_userID_not_number lib env cfg ctx tok s alg claims hdec hver hval
            (fun x hx => hnot ⟨alg, claims, x, hdec, hver, hval, hx⟩)]
          exact ⟨rfl, rfl⟩

theorem validate_exp_only (claims : MapClaims) (x : Rat) (now : Time)
    (hexp : claims.get "exp" = some (.float64 x)) (hx : 0 < x)
    (hrange : ⌊x⌋ + 62135596800 < 2 ^ 63)
    (hnbf : claims.get "nbf" = none) :
    jwt.validate claims now = true ↔ now < ⌊x⌋ * 1000000000 := by
  simp [jwt.validate, jwt.numericDate, hexp, ne_of_gt hx, hnbf,
    newNumericDate_of_nonneg x (le_of_lt hx) hrange]

theorem validate_expired (claims : MapClaims) (x : Rat) (now : Time)
    (hexp : claims.get "exp" = some (.float64 x)) (hx : 0 < x)
    (hrange : ⌊x⌋ + 62135596800 < 2 ^ 63)
    (hpast : ⌊x⌋ * 1000000000 ≤ now) :
    jwt.validate claims now = false := by
  have : ¬ now < ⌊x⌋ * 1000000000 := not_lt.mpr hpast
  simp [jwt.validate, jwt.numericDate, hexp, ne_of_gt hx, this,
    newNumericDate_of_nonneg x (le_of_lt hx) hrange]

/-- A date claim that is a whole number beyond the int64 range is read through
`int64(round)` as the least int64 of seconds. -/
theorem newNumericDate_out_of_range (x : Rat)
    (hbig : 9223372036854775807 < x.num.tdiv x.den) (hint : x.den = 1) :
    jwt.newNumericDateFromSeconds x = -9223372036854775808 * 1000000000 := by
  have h1 : ¬ (-9223372036854775808 ≤ x.num.tdiv x.den ∧
      x.num.tdiv x.den ≤ 9223372036854775807) := fun h => absurd h.2 (not_le.mpr hbig)
  have hsec : float64ToInt64 x = -9223372036854775808 := by
    unfold float64ToInt64
    rw [if_neg h1]
  have hfrac : x.num - x.num.tdiv x.den * x.den = 0 := by
    rw [hint]
    simp
  have hborrow : ¬ ((0 : Int) ≤ -((2 ^ 54 - 1) * (x.den : Int))) := by
    rw [hint]
    decide
  unfold jwt.newNumericDateFromSeconds
  simp only [hsec, hfrac, zero_mul, hborrow, decide_False, Bool.false_eq_true, if_false]
  decide

/-- An `exp` claim that is a whole number beyond the int64 range reads as an instant in
the far past, so validation fails at every clock from the epoch on. -/
theorem validate_exp_out_of_range (claims : MapClaims) (x : Rat) (now : Time)
    (hexp : claims.get "exp" = some (.float64 x)) (hx : x ≠ 0)
    (hbig : 9223372036854775807 < x.num.tdiv x.den) (hint : x.den = 1)
    (hnow : 0 ≤ now) :
    jwt.validate claims now = false := by
  have hlt : ¬ now < jwt.newNumericDateFromSeconds x := by
    rw [newNumericDate_out_of_range x hbig hint]
    have hneg : (-9223372036854775808 * 1000000000 : Int) ≤ 0 := by decide
    exact not_lt.mpr (le_trans hneg hnow)
  simp [jwt.validate, jwt.numericDate, hexp, hx, hlt]

/-- `ValidateToken` returns a nil error exactly when the token decodes with an HMAC
method, verifies under the configured secret, passes claim validation at the clock,
carries a numeric `userID` and `CheckTokenExists` reports a row. -/
theorem ValidateToken_accepts_iff {σ : Type} (lib : Lib) (env : Env σ) (cfg : Config)
    (ctx : Context) (tok : String) (s : St σ) :
    (AuthService.ValidateToken lib env cfg ctx tok s).1.2 = none ↔
      ∃ alg claims x, lib.jwtDecode tok = .ok (.HMAC alg, claims) ∧
        lib.jwtVerify (.HMAC alg) tok cfg.JWT.JWTSecret = true ∧
        jwt.validate claims (env.now s.world).1 = true ∧
        claims.get "userID" = some (.float64 x) ∧
        (AuthRepo.CheckTokenExists env ctx tok (timeNow env s).2).1 = .ok true := by
  constructor
  · intro hok
    by_cases hpre : ∃ alg claims x, lib.jwtDecode tok = .ok (.HMAC alg, claims) ∧
        lib.jwtVerify (.HMAC alg) tok cfg.JWT.JWTSecret = true ∧
        jwt.validate claims (env.now s.world).1 = true ∧
        claims.get "userID" = some (.float64 x)
    · obtain ⟨alg, claims, x, hdec, hver, hval, huid⟩ := hpre
      refine ⟨alg, claims, x, hdec, hver, hval, huid, ?_⟩
      have h := ValidateToken_checked lib env cfg ctx tok s alg claims x hdec hver hval huid
      rcases hr : (AuthRepo.CheckTokenExists env ctx tok (timeNow env s).2).1 with e | b
      · rw [h.2.1 e hr] at hok
        simp at hok
      · cases b
        · rw [h.2.2.1 hr] at hok
          simp at hok
        · rfl
    · rw [(ValidateToken_rejects_before_store lib env cfg ctx tok s hpre).1] at hok
      simp at hok
  · rintro ⟨alg, claims, x, hdec, hver, hval, huid, hchk⟩
    rw [(ValidateToken_checked lib env cfg ctx tok s alg claims x hdec hver hval
      huid).2.2.2 hchk]

/-- `ValidateToken` rejects with `ErrInvalidToken` when `CheckTokenExists` reports no
row. -/
theorem ValidateToken_no_row {σ : Type} (lib : Lib) (env : Env σ) (cfg : Config)
    (ctx : Context) (tok : String) (s : St σ)
    (hchk : (AuthRepo.CheckTokenExists env ctx tok (timeNow env s).2).1 = .ok false) :
    (AuthService.ValidateToken lib env cfg ctx tok s).1 = (0, some .ErrInvalidToken) := by
  by_cases hpre : ∃ alg claims x, lib.jwtDecode tok = .ok (.HMAC alg, claims) ∧
      lib.jwtVerify (.HMAC alg) tok cfg.JWT.JWTSecret = true ∧
      jwt.validate claims (env.now s.world).1 = true ∧
      claims.get "userID" = some (.float64 x)
  · obtain ⟨alg, claims, x, hdec, hver, hval, huid⟩ := hpre
    exact (ValidateToken_checked lib env cfg ctx tok s alg claims x hdec hver hval
      huid).2.2.1 hchk
  · exact (ValidateToken_rejects_before_store lib env cfg ctx tok s hpre).1

/-- On the reference store, called with a context that binds no transaction,
`CheckTokenExists` reports whether a committed row holds the token string. -/
theorem Store_CheckTokenExists_pool (ctx : Context) (tok : String) (s : St Store.World)
    (hctx : getTxFromContext ctx = none) :
    (AuthRepo.CheckTokenExists Store.env ctx tok s).1 =
      .ok (s.world.committed.tokens.any (fun r => r.token == tok)) := by
  simp [AuthRepo.CheckTokenExists, QueryRowWithTx, hctx, Conn.QueryRowContext,
    Store.env_queryRow, Store.onConn_pool, Store.queryRowOn_checkTokenExists, scanBool_ok]

/-- On the reference store `ValidateToken`, called with a context that binds no
transaction, accepts exactly the tokens that pass parsing and whose string is held by a
committed row. -/
theorem Store_ValidateToken_accepts_iff (lib : Lib) (cfg : Config) (ctx : Context)
    (tok : String) (s : St Store.World) (hctx : getTxFromContext ctx = none) :
    (AuthService.ValidateToken lib Store.env cfg ctx tok s).1.2 = none ↔
      (∃ alg claims x, lib.jwtDecode tok = .ok (.HMAC alg, claims) ∧
        lib.jwtVerify (.HMAC alg) tok cfg.JWT.JWTSecret = true ∧
        jwt.validate claims s.world.clock = true ∧
        claims.get "userID" = some (.float64 x)) ∧
      ∃ r ∈ s.world.committed.tokens, r.token = tok := by
  have hchk := Store_CheckTokenExists_pool ctx tok (timeNow Store.env s).2 hctx
  have hcommitted : (timeNow Store.env s).2.world.committed = s.world.committed := rfl
  rw [hcommitted] at hchk
  rw [ValidateToken_accepts_iff, hchk]
  have hclock : (Store.env.now s.world).1 = s.world.clock := rfl
  rw [hclock]
  constructor
  · rintro ⟨alg, claims, x, hdec, hver, hval, huid, hany⟩
    refine ⟨⟨alg, claims, x, hdec, hver, hval, huid⟩, ?_⟩
    have hany' : s.world.committed.tokens.any (fun r => r.token == tok) = true := by
      simpa using hany
    obtain ⟨r, hr, he⟩ := List.any_eq_true.mp hany'
    exact ⟨r, hr, by simpa using he⟩
  · rintro ⟨⟨alg, claims, x, hdec, hver, hval, huid⟩, r, hr, he⟩
    refine ⟨alg, claims, x, hdec, hver, hval, huid, ?_⟩
    have : s.world.committed.tokens.any (fun r => r.token == tok) = true :=
      List.any_eq_true.mpr ⟨r, hr, by simpa using he⟩
    rw [this]

/-- On the reference store `ValidateToken`, called with a context that binds no
transaction, rejects with `ErrInvalidToken` a token string that no committed row holds. -/
theorem Store_ValidateToken_no_row (lib : Lib) (cfg : Config) (ctx : Context)
    (tok : String) (s : St Store.World) (hctx : getTxFromContext ctx = none)
    (hrow : ∀ r ∈ s.world.committed.tokens, r.token ≠ tok) :
    (AuthService.ValidateToken lib Store.env cfg ctx tok s).1 = (0, some .ErrInvalidToken) := by
  apply ValidateToken_no_row
  have hchk := Store_CheckTokenExists_pool ctx tok (timeNow Store.env s).2 hctx
  have hcommitted : (timeNow Store.env s).2.world.committed = s.world.committed := rfl
  rw [hcommitted] at hchk
  rw [hchk]
  have : s.world.committed.tokens.any (fun r => r.token == tok) = false := by
    rw [List.any_eq_false]
    intro r hr
    simpa using hrow r hr
  rw [this]

/-- C12: `ValidateToken` returns a nil error if and only if the token decodes with an HMAC
method, its signature verifies under the configured secret, its claims pass validation at
the current clock, its `userID` claim is a number, and `CheckTokenExists` reports a row for
the token string; the id returned is then that claim converted to int64.  Validation of an
`exp` claim whose seconds fit `time.Time` means that the clock is before that second (a
claim beyond the int64 range is read as long past).  On the reference store the answer of
`CheckTokenExists` is whether a committed row holds exactly that token string, so a token
is accepted exactly when it passes parsing and such a row exists: a token whose row is
gone is rejected whatever its signature and expiry, and a token at or past its `exp` is
rejected without the store being asked, whether or not its row is still there. -/
theorem C12_validate_token_accepts_iff {σ : Type} (lib : Lib) (env : Env σ) (cfg : Config)
    (ctx : Context) (tok : String) (s : St σ) :
    ((AuthService.ValidateToken lib env cfg ctx tok s).1.2 = none ↔
      ∃ alg claims x, lib.jwtDecode tok = .ok (.HMAC alg, claims) ∧
        lib.jwtVerify (.HMAC alg) tok cfg.JWT.JWTSecret = true ∧
        jwt.validate claims (env.now s.world).1 = true ∧
        claims.get "userID" = some (.float64 x) ∧
        (AuthRepo.CheckTokenExists env ctx tok (timeNow env s).2).1 = .ok true) ∧
    (∀ alg claims x, lib.jwtDecode tok = .ok (.HMAC alg, claims) →
      lib.jwtVerify (.HMAC alg) tok cfg.JWT.JWTSecret = true →
      jwt.validate claims (env.now s.world).1 = true →
      claims.get "userID" = some (.float64 x) →
      (AuthRepo.CheckTokenExists env ctx tok (timeNow env s).2).1 = .ok true →
      (AuthService.ValidateToken lib env cfg ctx tok s).1 = (float64ToInt64 x, none)) ∧
    (∀ (claims : MapClaims) (x : Rat) (now : Time),
      claims.get "exp" = some (.float64 x) → 0 < x → ⌊x⌋ + 62135596800 < 2 ^ 63 →
      claims.get "nbf" = none →
      (jwt.validate claims now = true ↔ now < ⌊x⌋ * 1000000000)) ∧
    (∀ (claims : MapClaims) (x : Rat) (now : Time),
      claims.get "exp" = some (.float64 x) → x ≠ 0 →
      9223372036854775807 < x.num.tdiv x.den → x.den = 1 → 0 ≤ now →
      jwt.validate claims now = false) ∧
    ((AuthRepo.CheckTokenExists env ctx tok (timeNow env s).2).1 = .ok false →
      (AuthService.ValidateToken lib env cfg ctx tok s).1 = (0, some .ErrInvalidToken)) ∧
    (∀ m claims x, lib.jwtDecode tok = .ok (m, claims) →
      claims.get "exp" = some (.float64 x) → 0 < x → ⌊x⌋ + 62135596800 < 2 ^ 63 →
      ⌊x⌋ * 1000000000 ≤ (env.now s.world).1 →
      (AuthService.ValidateToken lib env cfg ctx tok s).1 = (0, some .ErrInvalidToken) ∧
      (AuthService.ValidateToken lib env cfg ctx tok s).2.trace = s.trace) ∧
    (∀ (c : Context) (w : St Store.World), getTxFromContext c = none →
      (AuthRepo.CheckTokenExists Store.env c tok w).1 =
        .ok (w.world.committed.tokens.any (fun r => r.token == tok))) ∧
    (∀ (c : Context) (w : St Store.World), getTxFromContext c = none →
      ((AuthService.ValidateToken lib Store.env cfg c tok w).1.2 = none ↔
        (∃ alg claims x, lib.jwtDecode tok = .ok (.HMAC alg, claims) ∧
          lib.jwtVerify (.HMAC alg) tok cfg.JWT.JWTSecret = true ∧
          jwt.validate claims w.world.clock = true ∧
          claims.get "userID" = some (.float64 x)) ∧
        ∃ r ∈ w.world.committed.tokens, r.token = tok)) ∧
    (∀ (c : Context) (w : St Store.World), getTxFromContext c = none →
      (∀ r ∈ w.world.committed.tokens, r.token ≠ tok) →
      (AuthService.ValidateToken lib Store.env cfg c tok w).1 =
        (0, some .ErrInvalidToken)) ∧
    (∀ (c : Context) (w : St Store.World) (m : SigningMethod) (claims : MapClaims) (x : Rat),
      lib.jwtDecode tok = .ok (m, claims) → claims.get "exp" = some (.float64 x) → 0 < x →
      ⌊x⌋ + 62135596800 < 2 ^ 63 → ⌊x⌋ * 1000000000 ≤ w.world.clock →
      (AuthService.ValidateToken lib Store.env cfg c tok w).1 = (0, some .ErrInvalidToken) ∧
      (AuthService.ValidateToken lib Store.env cfg c tok w).2.trace = w.trace) ∧
    (AuthService.ValidateToken Example.lib Store.env Example.cfg [] "tok"
      Example.loggedIn).1 = (1, none) ∧
    (AuthService.ValidateToken Example.lib Store.env Example.cfg [] "tok"
      Example.registered).1 = (0, some .ErrInvalidToken) ∧
    (AuthService.ValidateToken Example.lib Store.env Example.cfg [] "tok"
      { Example.loggedIn with world := { Example.loggedIn.world with clock := 6000000000 } }).1
        = (0, some .ErrInvalidToken) ∧
    (AuthService.ValidateToken Example.lib Store.env Example.cfg [] "tok"
      { Example.loggedIn with world := { Example.loggedIn.world with clock := 5999999999 } }).1
        = (1, none) ∧
    (AuthService.ValidateToken Example.farLib Store.env Example.cfg [] "tok"
      Example.loggedIn).1 = (0, some .ErrInvalidToken) := by
  have hpast : ∀ {τ : Type} (e : Env τ) (c : Context) (w : St τ) (m : SigningMethod)
      (claims : MapClaims) (x : Rat), lib.jwtDecode tok = .ok (m, claims) →
      claims.get "exp" = some (.float64 x) → 0 < x → ⌊x⌋ + 62135596800 < 2 ^ 63 →
      ⌊x⌋ * 1000000000 ≤ (e.now w.world).1 →
      (AuthService.ValidateToken lib e cfg c tok w).1 = (0, some .ErrInvalidToken) ∧
      (AuthService.ValidateToken lib e cfg c tok w).2.trace = w.trace := by
    intro τ e c w m claims x hdec hexp hx hrange hlate
    apply ValidateToken_rejects_before_store
    rintro ⟨alg, claims', x', hdec', _, hval, _⟩
    rw [hdec] at hdec'
    obtain ⟨_, rfl⟩ := Prod.mk.inj (Except.ok.inj hdec')
    rw [validate_expired claims x _ hexp hx hrange hlate] at hval
    exact absurd hval (by simp)
  refine ⟨ValidateToken_accepts_iff lib env cfg ctx tok s, ?_, ?_, ?_, ?_, ?_, ?_, ?_, ?_, ?_,
    by decide, by decide, by decide, by decide, by decide⟩
  · intro alg claims x hdec hver hval huid hchk
    exact (ValidateToken_checked lib env cfg ctx tok s alg claims x hdec hver hval
      huid).2.2.2 hchk
  · intro claims x now hexp hx hrange hnbf
    exact validate_exp_only claims x now hexp hx hrange hnbf
  · intro claims x now hexp hx hbig hint hnow
    exact validate_exp_out_of_range claims x now hexp hx hbig hint hnow
  · intro hchk
    exact ValidateToken_no_row lib env cfg ctx tok s hchk
  · intro m claims x hdec hexp hx hrange hlate
    exact hpast env ctx s m claims x hdec hexp hx hrange hlate
  · intro c w hc
    exact Store_CheckTokenExists_pool c tok w hc
  · intro c w hc
    exact Store_ValidateToken_accepts_iff lib cfg c tok w hc
  · intro c w hc hrow
    exact Store_ValidateToken_no_row lib cfg c tok w hc hrow
  · intro c w m claims x hdec hexp hx hrange hlate
    exact hpast Store.env c w m claims x hdec hexp hx hrange hlate

/-- The state `CleanupExpiredTokens` leaves: the one DELETE on the pool with the current
time as argument. -/
theorem CleanupExpiredTokens_eq {σ : Type} (env : Env σ) (s : St σ) :
    AuthService.CleanupExpiredTokens env s =
      { world := (env.exec Conn.pool AuthRepo.deleteExpiredTokensQuery
          [.time (env.now s.world).1] (env.now s.world).2).2,
        trace := s.trace ++ [Event.Exec Conn.pool AuthRepo.deleteExpiredTokensQuery
          [.time (env.now s.world).1]] } := by
  simp only [AuthService.CleanupExpiredTokens, AuthRepo.DeleteExpiredTokens, timeNow,
    ExecWithTx, getTxFromContext, Context.Value, Conn.ExecContext]
  cases (env.exec Conn.pool AuthRepo.deleteExpiredTokensQuery
    [.time (env.now s.world).1] (env.now s.world).2).1 <;> rfl

theorem Store.execOn_deleteExpired (bound : Time) (t : Store.Tables) :
    Store.execOn AuthRepo.deleteExpiredTokensQuery [.time bound] t =
      (.ok { lastInsertId := 0,
             rowsAffected :=
               ((t.tokens.filter (fun r => decide (r.expires_at < bound))).length : Int) },
        { t with tokens := t.tokens.filter (fun r => !decide (r.expires_at < bound)) }) := by
  have hw : Store.words AuthRepo.deleteExpiredTokensQuery =
      ["DELETE", "FROM", "tokens", "WHERE", "expires_at", "<", "$1"] := by
    decide
  have hop : Store.CompareOp.read "<" = some Store.CompareOp.lt := by decide
  simp [Store.execOn, hw, hop, Store.CompareOp.holds]

/-- The committed token rows after `CleanupExpiredTokens` on the reference store. -/
theorem Store_Cleanup_tokens (s : St Store.World) :
    (AuthService.CleanupExpiredTokens Store.env s).world.committed.tokens =
      s.world.committed.tokens.filter (fun r => decide (s.world.clock ≤ r.expires_at)) := by
  rw [CleanupExpiredTokens_eq]
  simp only [Store.env_now, Store.env_exec, Store.onConn_pool, Store.execOn_deleteExpired]
  congr 1
  funext r
  by_cases h : r.expires_at < s.world.clock
  · simp [h, not_le.mpr h]
  · simp [h, not_lt.mp h]

/-- C13: `ValidateToken` returns id 0 and `ErrInvalidToken` when the signing method is not
of the HMAC family, when decoding, signature verification or claim validation fails, when
the `userID` claim is absent or not a number, and when the token passes all of that but
`CheckTokenExists` reports no row.  In all cases but the last the store is not queried:
the trace of calls is unchanged.  On the reference store the last case is that of a token
string no committed row holds, be it that none was ever inserted or that its rows had
expired and `CleanupExpiredTokens` has swept them. -/
theorem C13_validate_token_rejections {σ : Type} (lib : Lib) (env : Env σ) (cfg : Config)
    (ctx : Context) (tok : String) (s : St σ) :
    (∀ alg claims, lib.jwtDecode tok = .ok (.other alg, claims) →
      AuthService.ValidateToken.keyFunc cfg
        (Token.mk (SigningMethod.other alg) claims false) = .error .ErrInvalidToken ∧
      (AuthService.ValidateToken lib env cfg ctx tok s).1 = (0, some .ErrInvalidToken) ∧
      (AuthService.ValidateToken lib env cfg ctx tok s).2.trace = s.trace) ∧
    (∀ e, lib.jwtDecode tok = .error e →
      (AuthService.ValidateToken lib env cfg ctx tok s).1 = (0, some .ErrInvalidToken) ∧
      (AuthService.ValidateToken lib env cfg ctx tok s).2.trace = s.trace) ∧
    (∀ m claims, lib.jwtDecode tok = .ok (m, claims) →
      lib.jwtVerify m tok cfg.JWT.JWTSecret = false →
      (AuthService.ValidateToken lib env cfg ctx tok s).1 = (0, some .ErrInvalidToken) ∧
      (AuthService.ValidateToken lib env cfg ctx tok s).2.trace = s.trace) ∧
    (∀ m claims, lib.jwtDecode tok = .ok (m, claims) →
      jwt.validate claims (env.now s.world).1 = false →
      (AuthService.ValidateToken lib env cfg ctx tok s).1 = (0, some .ErrInvalidToken) ∧
      (AuthService.ValidateToken lib env cfg ctx tok s).2.trace = s.trace) ∧
    (∀ m claims, lib.jwtDecode tok = .ok (m, claims) →
      (∀ x, claims.get "userID" ≠ some (.float64 x)) →
      (AuthService.ValidateToken lib env cfg ctx tok s).1 = (0, some .ErrInvalidToken) ∧
      (AuthService.ValidateToken lib env cfg ctx tok s).2.trace = s.trace) ∧
    ((AuthRepo.CheckTokenExists env ctx tok (timeNow env s).2).1 = .ok false →
      (AuthService.ValidateToken lib env cfg ctx tok s).1 = (0, some .ErrInvalidToken)) ∧
    (∀ (c : Context) (w : St Store.World), getTxFromContext c = none →
      (AuthRepo.CheckTokenExists Store.env c tok w).1 =
        .ok (w.world.committed.tokens.any (fun r => r.token == tok))) ∧
    (∀ (c : Context) (w : St Store.World), getTxFromContext c = none →
      (∀ r ∈ w.world.committed.tokens, r.token ≠ tok) →
      (AuthService.ValidateToken lib Store.env cfg c tok w).1 =
        (0, some .ErrInvalidToken)) ∧
    (∀ (c : Context) (w : St Store.World), getTxFromContext c = none →
      (∀ r ∈ w.world.committed.tokens, r.token = tok → r.expires_at < w.world.clock) →
      (AuthService.ValidateToken lib Store.env cfg c tok
        (AuthService.CleanupExpiredTokens Store.env w)).1 = (0, some .ErrInvalidToken)) ∧
    (AuthService.ValidateToken Example.lib Store.env Example.cfg [] "tok" Example.start).1 =
      (0, some .ErrInvalidToken) ∧
    (AuthService.ValidateToken Example.lib Store.env Example.cfg [] "tok"
      Example.staleRow).1 = (1, none) ∧
    (AuthService.ValidateToken Example.lib Store.env Example.cfg [] "tok"
      (AuthService.CleanupExpiredTokens Store.env Example.staleRow)).1 =
        (0, some .ErrInvalidToken) := by
  refine ⟨?_, ?_, ?_, ?_, ?_, ?_, ?_, ?_, ?_, by decide, by decide, by decide⟩
  · intro alg claims hdec
    rw [ValidateToken_not_hmac lib env cfg ctx tok s alg claims hdec]
    exact ⟨rfl, rfl, rfl⟩
  · intro e hdec
    rw [ValidateToken_decode_error lib env cfg ctx tok s e hdec]
    exact ⟨rfl, rfl⟩
  · intro m claims hdec hver
    apply ValidateToken_rejects_before_store
    rintro ⟨alg, claims', x', hdec', hver', _, _⟩
    rw [hdec] at hdec'
    obtain ⟨rfl, rfl⟩ := Prod.mk.inj (Except.ok.inj hdec')
    rw [hver] at hver'
    exact absurd hver' (by simp)
  · intro m claims hdec hval
    apply ValidateToken_rejects_before_store
    rintro ⟨alg, claims', x', hdec', _, hval', _⟩
    rw [hdec] at hdec'
    obtain ⟨_, rfl⟩ := Prod.mk.inj (Except.ok.inj hdec')
    rw [hval] at hval'
    exact absurd hval' (by simp)
  · intro m claims hdec huid
    apply ValidateToken_rejects_before_store
    rintro ⟨alg, claims', x', hdec', _, _, huid'⟩
    rw [hdec] at hdec'
    obtain ⟨_, rfl⟩ := Prod.mk.inj (Except.ok.inj hdec')
    exact huid x' huid'
  · intro hchk
    exact ValidateToken_no_row lib env cfg ctx tok s hchk
  · intro c w hc
    exact Store_CheckTokenExists_pool c tok w hc
  · intro c w hc hrow
    exact Store_ValidateToken_no_row lib cfg c tok w hc hrow
  · intro c w hc hexpired
    apply Store_ValidateToken_no_row lib cfg c tok _ hc
    intro r hr he
    rw [Store_Cleanup_tokens, List.mem_filter] at hr
    have hlt := hexpired r hr.1 he
    have hle : w.world.clock ≤ r.expires_at := by simpa using hr.2
    exact absurd hlt (not_lt.mpr hle)

/-- C14: `CleanupExpiredTokens` issues one statement on the pool, with the current time as
argument: `DELETE FROM tokens WHERE expires_at < $1`.  The reference store reads the
relation, the column and the comparison operator from that text and deletes the rows whose
`expires_at` stands in that relation to the argument; so it leaves exactly the rows whose
expiry is at or after the current time, each unchanged and in their order, and touches no
other table.  Had the text named `<=`, the row expiring at the current time would go too. -/
theorem C14_cleanup_deletes_exactly_the_expired_rows (s : St Store.World) :
    (AuthService.CleanupExpiredTokens Store.env s).trace =
      s.trace ++ [Event.Exec Conn.pool AuthRepo.deleteExpiredTokensQuery
        [.time s.world.clock]] ∧
    (AuthService.CleanupExpiredTokens Store.env s).world.committed.tokens =
      s.world.committed.tokens.filter (fun r => decide (s.world.clock ≤ r.expires_at)) ∧
    (∀ r, r ∈ (AuthService.CleanupExpiredTokens Store.env s).world.committed.tokens ↔
      r ∈ s.world.committed.tokens ∧ s.world.clock ≤ r.expires_at) ∧
    (∀ r, r ∈ s.world.committed.tokens → r.expires_at < s.world.clock →
      r ∉ (AuthService.CleanupExpiredTokens Store.env s).world.committed.tokens) ∧
    (AuthService.CleanupExpiredTokens Store.env s).world.committed.users =
      s.world.committed.users ∧
    (∀ {σ : Type} (env : Env σ) (s' : St σ),
      (AuthService.CleanupExpiredTokens env s').trace =
        s'.trace ++ [Event.Exec Conn.pool AuthRepo.deleteExpiredTokensQuery
          [.time (env.now s'.world).1]]) ∧
    Store.words AuthRepo.deleteExpiredTokensQuery =
      ["DELETE", "FROM", "tokens", "WHERE", "expires_at", "<", "$1"] ∧
    Store.CompareOp.read "<" = some Store.CompareOp.lt ∧
    (∀ (bound : Time) (t : Store.Tables),
      (Store.execOn "DELETE FROM tokens WHERE expires_at <= $1" [.time bound] t).2.tokens =
        t.tokens.filter (fun r => decide (bound < r.expires_at))) ∧
    (∀ (bound : Time) (t : Store.Tables),
      (Store.execOn "DELETE FROM tokens WHERE expires_at > $1" [.time bound] t).2.tokens =
        t.tokens.filter (fun r => decide (r.expires_at ≤ bound))) ∧
    (∀ (bound : Time) (t : Store.Tables),
      (Store.execOn "" [.time bound] t).1 = .error Store.errUnknownStatement) ∧
    (AuthService.CleanupExpiredTokens Store.env Example.threeRows).world.committed.tokens =
      [{ token := "b", user_id := 1, expires_at := 1000000000 },
       { token := "c", user_id := 2, expires_at := 1000000001 }] := by
  refine ⟨by rw [CleanupExpiredTokens_eq]; rfl, Store_Cleanup_tokens s, ?_, ?_, ?_, ?_,
    by decide, by decide, ?_, ?_, ?_, by decide⟩
  · intro r
    rw [Store_Cleanup_tokens]
    simp [List.mem_filter]
  · intro r _ hlt
    rw [Store_Cleanup_tokens]
    simp [List.mem_filter, not_le.mpr hlt]
  · rw [CleanupExpiredTokens_eq]
    simp only [Store.env_now, Store.env_exec, Store.onConn_pool, Store.execOn_deleteExpired]
  · intro σ env s'
    rw [CleanupExpiredTokens_eq]
  · intro bound t
    have hw : Store.words "DELETE FROM tokens WHERE expires_at <= $1" =
        ["DELETE", "FROM", "tokens", "WHERE", "expires_at", "<=", "$1"] := by decide
    have hop : Store.CompareOp.read "<=" = some Store.CompareOp.le := by decide
    simp only [Store.execOn, hw, hop, Store.CompareOp.holds]
    simp only [List.cons.injEq, String.reduceEq, and_false, and_true, false_and, if_false]
    congr 1
    funext r
    by_cases h : r.expires_at ≤ bound
    · simp [h, not_lt.mpr h]
    · simp [h, not_le.mp h]
  · intro bound t
    have hw : Store.words "DELETE FROM tokens WHERE expires_at > $1" =
        ["DELETE", "FROM", "tokens", "WHERE", "expires_at", ">", "$1"] := by decide
    have hop : Store.CompareOp.read ">" = some Store.CompareOp.gt := by decide
    simp only [Store.execOn, hw, hop, Store.CompareOp.holds]
    simp only [List.cons.injEq, String.reduceEq, and_false, and_true, false_and, if_false]
    congr 1
    funext r
    by_cases h : bound < r.expires_at
    · simp [h, not_le.mpr h]
    · simp [h, not_lt.mp h]
  · intro bound t
    have hw : Store.words "" = [] := by decide
    simp [Store.execOn, hw]

/-! ## The feed query builder: C15 to C19 -/

theorem GetFeed_filters_eq (minPrice maxPrice : Int) :
    ListingRepo.GetFeed.filters minPrice maxPrice =
      if minPrice > 0 then
        if maxPrice > 0 then
          (["l.price >= $1", "l.price <= $2"], [.int64 minPrice, .int64 maxPrice], 3)
        else (["l.price >= $1"], [.int64 minPrice], 2)
      else
        if maxPrice > 0 then (["l.price <= $1"], [.int64 maxPrice], 2)
        else ([], [], 1) := by
  have h1 : "l.price >= $" ++ toString (1 : Nat) = "l.price >= $1" := by decide
  have h2 : "l.price <= $" ++ toString (1 : Nat) = "l.price <= $1" := by decide
  have h3 : "l.price <= $" ++ toString (1 + 1 : Nat) = "l.price <= $2" := by decide
  by_cases hmin : minPrice > 0 <;> by_cases hmax : maxPrice > 0 <;>
    simp [ListingRepo.GetFeed.filters, hmin, hmax, h1, h2, h3]

theorem GetFeed_whereClause_eq (minPrice maxPrice : Int) :
    ListingRepo.GetFeed.whereClause minPrice maxPrice =
      if minPrice > 0 then
        if maxPrice > 0 then "WHERE l.price >= $1 AND l.price <= $2"
        else "WHERE l.price >= $1"
      else
        if maxPrice > 0 then "WHERE l.price <= $1" else "" := by
  have h1 : "WHERE " ++ strings.Join ["l.price >= $1", "l.price <= $2"] " AND "
      = "WHERE l.price >= $1 AND l.price <= $2" := by decide
  have h2 : "WHERE " ++ strings.Join ["l.price >= $1"] " AND " = "WHERE l.price >= $1" := by
    decide
  have h3 : "WHERE " ++ strings.Join ["l.price <= $1"] " AND " = "WHERE l.price <= $1" := by
    decide
  rw [ListingRepo.GetFeed.whereClause, GetFeed_filters_eq]
  by_cases hmin : minPrice > 0 <;> by_cases hmax : maxPrice > 0 <;>
    simp [hmin, hmax, h1, h2, h3]

theorem GetFeed_queryArgs_eq (page limit minPrice maxPrice : Int) :
    ListingRepo.GetFeed.queryArgs page limit minPrice maxPrice =
      (if minPrice > 0 then [SqlVal.int64 minPrice] else []) ++
      (if maxPrice > 0 then [SqlVal.int64 maxPrice] else []) ++
      [SqlVal.int64 limit, SqlVal.int64 (ListingRepo.GetFeed.offset page limit)] := by
  rw [ListingRepo.GetFeed.queryArgs, GetFeed_filters_eq]
  by_cases hmin : minPrice > 0 <;> by_cases hmax : maxPrice > 0 <;> simp [hmin, hmax]

theorem GetFeed_trace {σ : Type} (env : Env σ) (ctx : Context) (userID page limit : Int)
    (sortBy sortOrder : String) (minPrice maxPrice : Int) (s : St σ) :
    (ListingRepo.GetFeed env ctx userID page limit sortBy sortOrder minPrice maxPrice s).2 =
      { world := (env.query (connOf ctx)
          (ListingRepo.GetFeed.mainQuery sortBy sortOrder minPrice maxPrice)
          (ListingRepo.GetFeed.queryArgs page limit minPrice maxPrice) s.world).2,
        trace := s.trace ++ [Event.Query (connOf ctx)
          (ListingRepo.GetFeed.mainQuery sortBy sortOrder minPrice maxPrice)
          (ListingRepo.GetFeed.queryArgs page limit minPrice maxPrice)] } := by
  simp only [ListingRepo.GetFeed, QueryWithTx_connOf]
  cases (env.query (connOf ctx)
      (ListingRepo.GetFeed.mainQuery sortBy sortOrder minPrice maxPrice)
      (ListingRepo.GetFeed.queryArgs page limit minPrice maxPrice) s.world).1 with
  | error e => rfl
  | ok rows =>
    simp only [liftExcept]
    cases ListingRepo.GetFeed.scanRows userID rows.rows [] with
    | error e => rfl
    | ok listings => cases rows.err <;> rfl

theorem GetFeed_mainQuery_eq (sortBy sortOrder : String) (minPrice maxPrice : Int) :
    ListingRepo.GetFeed.mainQuery sortBy sortOrder minPrice maxPrice =
      ListingRepo.GetFeed.selectFrom ++
        (if minPrice > 0 then
          if maxPrice > 0 then "WHERE l.price >= $1 AND l.price <= $2"
          else "WHERE l.price >= $1"
        else if maxPrice > 0 then "WHERE l.price <= $1" else "") ++
        "\n\t\t" ++ ListingRepo.GetFeed.orderByClause sortBy sortOrder ++
        (if minPrice > 0 then
          if maxPrice > 0 then "\n\t\tLIMIT $3 OFFSET $4;\n\t"
          else "\n\t\tLIMIT $2 OFFSET $3;\n\t"
        else if maxPrice > 0 then "\n\t\tLIMIT $2 OFFSET $3;\n\t"
        else "\n\t\tLIMIT $1 OFFSET $2;\n\t") := by
  have h1 : toString (1 : Nat) = "1" := by decide
  have h2 : toString (2 : Nat) = "2" := by decide
  have h3 : toString (3 : Nat) = "3" := by decide
  have h4 : toString (4 : Nat) = "4" := by decide
  have e1 : "\n\t\tLIMIT $" ++ "1" ++ " OFFSET $" ++ "2" ++ ";\n\t"
      = "\n\t\tLIMIT $1 OFFSET $2;\n\t" := by decide
  have e2 : "\n\t\tLIMIT $" ++ "2" ++ " OFFSET $" ++ "3" ++ ";\n\t"
      = "\n\t\tLIMIT $2 OFFSET $3;\n\t" := by decide
  have e3 : "\n\t\tLIMIT $" ++ "3" ++ " OFFSET $" ++ "4" ++ ";\n\t"
      = "\n\t\tLIMIT $3 OFFSET $4;\n\t" := by decide
  rw [ListingRepo.GetFeed.mainQuery, GetFeed_whereClause_eq, GetFeed_filters_eq]
  by_cases hmin : minPrice > 0 <;> by_cases hmax : maxPrice > 0 <;>
    simp only [hmin, hmax, if_true, if_false, h1, h2, h3, h4, Nat.reduceAdd,
      String.append_assoc, ← e1, ← e2, ← e3]

set_option maxRecDepth 100000 in
/-- C15: the feed statement has `l.price >= $k` exactly when `minPrice > 0` and
`l.price <= $k` exactly when `maxPrice > 0`, joined by AND under one WHERE, and no WHERE
when neither holds; the arguments are the positive bounds, then `limit` and the offset;
`GetFeed` issues exactly this statement with these arguments; with a whitelisted ORDER BY
clause the placeholders of the text are `$1 .. $n` in order, `n` the number of arguments;
and the text depends on the two bounds only through their signs. -/
theorem C15_feed_query_filters_and_placeholders {σ : Type} (env : Env σ) (ctx : Context)
    (userID page limit : Int) (sortBy sortOrder : String) (minPrice maxPrice : Int)
    (s : St σ) :
    ListingRepo.GetFeed.whereClause minPrice maxPrice =
      (if minPrice > 0 then
        if maxPrice > 0 then "WHERE l.price >= $1 AND l.price <= $2"
        else "WHERE l.price >= $1"
      else if maxPrice > 0 then "WHERE l.price <= $1" else "") ∧
    ListingRepo.GetFeed.queryArgs page limit minPrice maxPrice =
      (if minPrice > 0 then [SqlVal.int64 minPrice] else []) ++
      (if maxPrice > 0 then [SqlVal.int64 maxPrice] else []) ++
      [SqlVal.int64 limit, SqlVal.int64 (ListingRepo.GetFeed.offset page limit)] ∧
    ListingRepo.GetFeed.mainQuery sortBy sortOrder minPrice maxPrice =
      ListingRepo.GetFeed.selectFrom ++ ListingRepo.GetFeed.whereClause minPrice maxPrice ++
        "\n\t\t" ++ ListingRepo.GetFeed.orderByClause sortBy sortOrder ++
        "\n\t\tLIMIT $" ++
        toString ((ListingRepo.GetFeed.queryArgs page limit minPrice maxPrice).length - 1) ++
        " OFFSET $" ++
        toString (ListingRepo.GetFeed.queryArgs page limit minPrice maxPrice).length ++
        ";\n\t" ∧
    (ListingRepo.GetFeed env ctx userID page limit sortBy sortOrder minPrice maxPrice s).2.trace =
      s.trace ++ [Event.Query (connOf ctx)
        (ListingRepo.GetFeed.mainQuery sortBy sortOrder minPrice maxPrice)
        (ListingRepo.GetFeed.queryArgs page limit minPrice maxPrice)] ∧
    (ListingRepo.GetFeed.orderByClause sortBy sortOrder ∈ orderByWhitelist →
      placeholders (ListingRepo.GetFeed.mainQuery sortBy sortOrder minPrice maxPrice) =
        List.range' 1 (ListingRepo.GetFeed.queryArgs page limit minPrice maxPrice).length) ∧
    (∀ minPrice' maxPrice' : Int, (minPrice' > 0 ↔ minPrice > 0) → (maxPrice' > 0 ↔ maxPrice > 0) →
      ListingRepo.GetFeed.mainQuery sortBy sortOrder minPrice' maxPrice' =
        ListingRepo.GetFeed.mainQuery sortBy sortOrder minPrice maxPrice) := by
  refine ⟨GetFeed_whereClause_eq minPrice maxPrice,
    GetFeed_queryArgs_eq page limit minPrice maxPrice, ?_, ?_, ?_, ?_⟩
  · have h1 : toString (1 : Nat) = "1" := by decide
    have h2 : toString (2 : Nat) = "2" := by decide
    have h3 : toString (3 : Nat) = "3" := by decide
    have h4 : toString (4 : Nat) = "4" := by decide
    rw [ListingRepo.GetFeed.mainQuery, GetFeed_queryArgs_eq, GetFeed_filters_eq]
    by_cases hmin : minPrice > 0 <;> by_cases hmax : maxPrice > 0 <;>
      simp [hmin, hmax, h1, h2, h3, h4]
  · rw [GetFeed_trace]
  · intro horder
    rw [GetFeed_mainQuery_eq, GetFeed_queryArgs_eq]
    simp only [orderByWhitelist, List.mem_cons, List.mem_singleton, List.not_mem_nil,
      or_false] at horder
    by_cases hmin : minPrice > 0 <;> by_cases hmax : maxPrice > 0 <;>
      rcases horder with h | h | h | h <;>
      simp only [hmin, hmax, h, if_true, if_false, List.length_append, List.length_cons,
        List.length_nil, List.append_nil, List.nil_append] <;> decide
  · intro minPrice' maxPrice' hmin hmax
    rw [GetFeed_mainQuery_eq, GetFeed_mainQuery_eq]
    simp only [hmin, hmax]

/-! ## Lemmas on the feed handler -/

theorem GetFeed_page_ok (r : Request) (p q : ListingHandler.GetFeedParams)
    (h : ListingHandler.GetFeed.page r p = .ok q) :
    q.Limit = p.Limit ∧ q.SortBy = p.SortBy ∧ q.SortOrder = p.SortOrder ∧
    q.MinPrice = p.MinPrice ∧ q.MaxPrice = p.MaxPrice ∧
    (q.Page = p.Page ∨ (strconv.Atoi (r.queryGet "page") = some q.Page ∧ q.Page ≥ 1)) := by
  unfold ListingHandler.GetFeed.page at h
  split at h
  · split at h
    · rename_i val hval
      split at h
      · rename_i hge
        cases h
        exact ⟨rfl, rfl, rfl, rfl, rfl, Or.inr ⟨hval, hge⟩⟩
      · cases h
    · cases h
  · cases h
    exact ⟨rfl, rfl, rfl, rfl, rfl, Or.inl rfl⟩

theorem GetFeed_limit_ok (r : Request) (p q : ListingHandler.GetFeedParams)
    (h : ListingHandler.GetFeed.limit r p = .ok q) :
    q.Page = p.Page ∧ q.SortBy = p.SortBy ∧ q.SortOrder = p.SortOrder ∧
    q.MinPrice = p.MinPrice ∧ q.MaxPrice = p.MaxPrice ∧
    (q.Limit = p.Limit ∨
      (strconv.Atoi (r.queryGet "limit") = some q.Limit ∧ q.Limit ≥ 1 ∧ q.Limit ≤ 100)) := by
  unfold ListingHandler.GetFeed.limit at h
  split at h
  · split at h
    · rename_i val hval
      split at h
      · rename_i hge
        cases h
        exact ⟨rfl, rfl, rfl, rfl, rfl, Or.inr ⟨hval, hge.1, hge.2⟩⟩
      · cases h
    · cases h
  · cases h
    exact ⟨rfl, rfl, rfl, rfl, rfl, Or.inl rfl⟩

theorem GetFeed_sortBy_ok (r : Request) (p q : ListingHandler.GetFeedParams)
    (h : ListingHandler.GetFeed.sortBy r p = .ok q) :
    q.Page = p.Page ∧ q.Limit = p.Limit ∧ q.SortOrder = p.SortOrder ∧
    q.MinPrice = p.MinPrice ∧ q.MaxPrice = p.MaxPrice ∧
    (q.SortBy = p.SortBy ∨ q.SortBy = "createdAt" ∨ q.SortBy = "price") := by
  unfold ListingHandler.GetFeed.sortBy at h
  split at h
  · split at h
    · rename_i hor
      cases h
      exact ⟨rfl, rfl, rfl, rfl, rfl, Or.inr hor⟩
    · cases h
  · cases h
    exact ⟨rfl, rfl, rfl, rfl, rfl, Or.inl rfl⟩

theorem GetFeed_sortOrder_ok (r : Request) (p q : ListingHandler.GetFeedParams)
    (h : ListingHandler.GetFeed.sortOrder r p = .ok q) :
    q.Page = p.Page ∧ q.Limit = p.Limit ∧ q.SortBy = p.SortBy ∧
    q.MinPrice = p.MinPrice ∧ q.MaxPrice = p.MaxPrice ∧
    (q.SortOrder = p.SortOrder ∨ q.SortOrder = "asc" ∨ q.SortOrder = "desc") := by
  unfold ListingHandler.GetFeed.sortOrder at h
  split at h
  · split at h
    · rename_i hor
      cases h
      exact ⟨rfl, rfl, rfl, rfl, rfl, Or.inr hor⟩
    · cases h
  · cases h
    exact ⟨rfl, rfl, rfl, rfl, rfl, Or.inl rfl⟩

theorem GetFeed_minPrice_ok (r : Request) (p q : ListingHandler.GetFeedParams)
    (h : ListingHandler.GetFeed.minPrice r p = .ok q) :
    q.Page = p.Page ∧ q.Limit = p.Limit ∧ q.SortBy = p.SortBy ∧ q.SortOrder = p.SortOrder ∧
    q.MaxPrice = p.MaxPrice ∧
    ((r.queryGet "minPrice" = "" ∧ q.MinPrice = p.MinPrice) ∨
      (strconv.ParseInt (r.queryGet "minPrice") = some q.MinPrice ∧ q.MinPrice ≥ 0)) := by
  unfold ListingHandler.GetFeed.minPrice at h
  split at h
  · split at h
    · rename_i val hval
      split at h
      · rename_i hge
        cases h
        exact ⟨rfl, rfl, rfl, rfl, rfl, Or.inr ⟨hval, hge⟩⟩
      · cases h
    · cases h
  · rename_i hempty
    cases h
    exact ⟨rfl, rfl, rfl, rfl, rfl, Or.inl ⟨not_not.mp hempty, rfl⟩⟩

theorem GetFeed_maxPrice_ok (r : Request) (p q : ListingHandler.GetFeedParams)
    (h : ListingHandler.GetFeed.maxPrice r p = .ok q) :
    q.Page = p.Page ∧ q.Limit = p.Limit ∧ q.SortBy = p.SortBy ∧ q.SortOrder = p.SortOrder ∧
    q.MinPrice = p.MinPrice ∧
    ((r.queryGet "maxPrice" = "" ∧ q.MaxPrice = p.MaxPrice) ∨
      (strconv.ParseInt (r.queryGet "maxPrice") = some q.MaxPrice ∧ q.MaxPrice ≥ 0)) := by
  unfold ListingHandler.GetFeed.maxPrice at h
  split at h
  · split at h
    · rename_i val hval
      split at h
      · rename_i hge
        cases h
        exact ⟨rfl, rfl, rfl, rfl, rfl, Or.inr ⟨hval, hge⟩⟩
      · cases h
    · cases h
  · rename_i hempty
    cases h
    exact ⟨rfl, rfl, rfl, rfl, rfl, Or.inl ⟨not_not.mp hempty, rfl⟩⟩

theorem ParseInt_empty : strconv.ParseInt "" = none := rfl

/-- What the parameters are when every block of the feed handler lets the request pass. -/
theorem GetFeed_params_ok (r : Request) (p : ListingHandler.GetFeedParams)
    (h : ListingHandler.GetFeed.params r = .ok p) :
    p.Page ≥ 1 ∧ p.Limit ≥ 1 ∧ p.Limit ≤ 100 ∧
    (p.SortBy = "createdAt" ∨ p.SortBy = "price") ∧
    (p.SortOrder = "asc" ∨ p.SortOrder = "desc") ∧
    p.MinPrice ≥ 0 ∧ p.MaxPrice ≥ 0 ∧
    ¬ (p.MaxPrice > 0 ∧ p.MinPrice > 0 ∧ p.MaxPrice < p.MinPrice) ∧
    (p.Page = 1 ∨ strconv.Atoi (r.queryGet "page") = some p.Page) ∧
    (p.Limit = 10 ∨ strconv.Atoi (r.queryGet "limit") = some p.Limit) ∧
    ((r.queryGet "minPrice" = "" ∧ p.MinPrice = 0) ∨
      strconv.ParseInt (r.queryGet "minPrice") = some p.MinPrice) ∧
    ((r.queryGet "maxPrice" = "" ∧ p.MaxPrice = 0) ∨
      strconv.ParseInt (r.queryGet "maxPrice") = some p.MaxPrice) := by
  unfold ListingHandler.GetFeed.params at h
  split at h
  · cases h
  · rename_i p1 h1
    split at h
    · cases h
    · rename_i p2 h2
      split at h
      · cases h
      · rename_i p3 h3
        split at h
        · cases h
        · rename_i p4 h4
          split at h
          · cases h
          · rename_i p5 h5
            split at h
            · cases h
            · rename_i p6 h6
              unfold ListingHandler.GetFeed.priceOrder at h
              split at h
              · cases h
              · rename_i hord
                cases h
                have e1 := GetFeed_page_ok r _ _ h1
                have e2 := GetFeed_limit_ok r _ _ h2
                have e3 := GetFeed_sortBy_ok r _ _ h3
                have e4 := GetFeed_sortOrder_ok r _ _ h4
                have e5 := GetFeed_minPrice_ok r _ _ h5
                have e6 := GetFeed_maxPrice_ok r _ _ h6
                simp only [] at e1
                obtain ⟨a1, a2, a3, a4, a5, a6⟩ := e1
                obtain ⟨b1, b2, b3, b4, b5, b6⟩ := e2
                obtain ⟨c1, c2, c3, c4, c5, c6⟩ := e3
                obtain ⟨d1, d2, d3, d4, d5, d6⟩ := e4
                obtain ⟨f1, f2, f3, f4, f5, f6⟩ := e5
                obtain ⟨g1, g2, g3, g4, g5, g6⟩ := e6
                have hPage : p.Page = p1.Page := by rw [g1, f1, d1, c1, b1]
                have hLimit : p.Limit = p2.Limit := by rw [g2, f2, d2, c2]
                have hSortBy : p.SortBy = p3.SortBy := by rw [g3, f3, d3]
                have hSortOrder : p.SortOrder = p4.SortOrder := by rw [g4, f4]
                have hMin : p.MinPrice = p5.MinPrice := g5
                have hp2Sort : p2.SortBy = "createdAt" := by rw [b2, a2]
                have hp3Ord : p3.SortOrder = "desc" := by rw [c3, b3, a3]
                have hp4Min : p4.MinPrice = 0 := by rw [d4, c4, b4, a4]
                have hp5Max : p5.MaxPrice = 0 := by rw [f5, d5, c5, b5, a5]
                have hp1Lim : p1.Limit = 10 := a1
                refine ⟨?_, ?_, ?_, ?_, ?_, ?_, ?_, hord, ?_, ?_, ?_, ?_⟩
                · rw [hPage]; rcases a6 with h | h
                  · rw [h]
                  · exact h.2
                · rw [hLimit]; rcases b6 with h | h
                  · rw [h, hp1Lim]; decide
                  · exact h.2.1
                · rw [hLimit]; rcases b6 with h | h
                  · rw [h, hp1Lim]; decide
                  · exact h.2.2
                · rw [hSortBy]; rcases c6 with h | h
                  · left; rw [h, hp2Sort]
                  · exact h
                · rw [hSortOrder]; rcases d6 with h | h
                  · right; rw [h, hp3Ord]
                  · exact h
                · rw [hMin]; rcases f6 with h | h
                  · rw [h.2, hp4Min]
                  · exact h.2
                · rcases g6 with h | h
                  · rw [h.2, hp5Max]
                  · exact h.2
                · rw [hPage]; rcases a6 with h | h
                  · left; exact h
                  · right; exact h.1
                · rw [hLimit]; rcases b6 with h | h
                  · left; rw [h, hp1Lim]
                  · right; exact h.1
                · rw [hMin]; rcases f6 with h | h
                  · left; exact ⟨h.1, by rw [h.2, hp4Min]⟩
                  · right; exact h.1
                · rcases g6 with h | h
                  · left; exact ⟨h.1, by rw [h.2, hp5Max]⟩
                  · right; exact h.1

/-! ## The ORDER BY clause and the offset of the feed -/

theorem ToUpper_asc_desc :
    strings.ToUpper "asc" = "ASC" ∧ strings.ToUpper "desc" = "DESC" := by decide

theorem orderByClause_whitelisted_of_direction (sortBy sortOrder : String)
    (h : strings.ToUpper sortOrder = "ASC" ∨ strings.ToUpper sortOrder = "DESC") :
    ListingRepo.GetFeed.orderByClause sortBy sortOrder ∈ orderByWhitelist := by
  have e1 : "ORDER BY l.created_at " ++ "ASC" = "ORDER BY l.created_at ASC" := by decide
  have e2 : "ORDER BY l.created_at " ++ "DESC" = "ORDER BY l.created_at DESC" := by decide
  have e3 : "ORDER BY l.price " ++ "ASC" = "ORDER BY l.price ASC" := by decide
  have e4 : "ORDER BY l.price " ++ "DESC" = "ORDER BY l.price DESC" := by decide
  unfold ListingRepo.GetFeed.orderByClause orderByWhitelist
  by_cases h1 : sortBy = "createdAt"
  · rcases h with h | h <;> simp [h1, h, e1, e2]
  · by_cases h2 : sortBy = "price"
    · rcases h with h | h <;> simp [h1, h2, h, e3, e4]
    · simp [h1, h2]

theorem GetFeed_offset_exact (page limit : Int) (hpage : 1 ≤ page) (hlimit : 1 ≤ limit)
    (h : (page - 1) * limit < 2 ^ 63) :
    ListingRepo.GetFeed.offset page limit = (page - 1) * limit ∧
      0 ≤ ListingRepo.GetFeed.offset page limit := by
  have hnn : 0 ≤ (page - 1) * limit := mul_nonneg (by omega) (by omega)
  have hle : page - 1 ≤ (page - 1) * limit := by
    have := mul_le_mul_of_nonneg_left hlimit (show (0 : Int) ≤ page - 1 by omega)
    simpa using this
  have e1 : wrapInt (page - 1) = page - 1 := wrapInt_of_range _ (by omega) (by omega)
  have e2 : wrapInt ((page - 1) * limit) = (page - 1) * limit :=
    wrapInt_of_range _ (by omega) h
  unfold ListingRepo.GetFeed.offset
  rw [e1, e2]
  exact ⟨rfl, hnn⟩

theorem append_eq_split (pre u lit : String) (h : pre ++ u = lit) :
    lit.data.take pre.data.length = pre.data ∧
      u = String.mk (lit.data.drop pre.data.length) := by
  subst h
  refine ⟨by simp [String.data_append], ?_⟩
  apply String.ext
  simp [String.data_append]

theorem orderByClause_direction_of_whitelisted (sortBy sortOrder : String)
    (h : sortBy = "createdAt" ∨ sortBy = "price")
    (hmem : ListingRepo.GetFeed.orderByClause sortBy sortOrder ∈ orderByWhitelist) :
    strings.ToUpper sortOrder = "ASC" ∨ strings.ToUpper sortOrder = "DESC" := by
  simp only [orderByWhitelist, List.mem_cons, List.mem_singleton, List.not_mem_nil,
    or_false] at hmem
  unfold ListingRepo.GetFeed.orderByClause at hmem
  rcases h with h | h
  · subst h
    simp only [if_true] at hmem
    rcases hmem with e | e | e | e
    · left; exact (append_eq_split _ _ _ e).2.trans (by decide)
    · right; exact (append_eq_split _ _ _ e).2.trans (by decide)
    · exact absurd (append_eq_split _ _ _ e).1 (by decide)
    · exact absurd (append_eq_split _ _ _ e).1 (by decide)
  · subst h
    have hne : ¬ ("price" = "createdAt") := by decide
    simp only [hne, if_false, if_true] at hmem
    rcases hmem with e | e | e | e
    · exact absurd (append_eq_split _ _ _ e).1 (by decide)
    · exact absurd (append_eq_split _ _ _ e).1 (by decide)
    · left; exact (append_eq_split _ _ _ e).2.trans (by decide)
    · right; exact (append_eq_split _ _ _ e).2.trans (by decide)

theorem mainQuery_sortBy_congr (sortBy sortBy' sortOrder : String) (minPrice maxPrice : Int)
    (h1 : sortBy' = "createdAt" ↔ sortBy = "createdAt")
    (h2 : sortBy' = "price" ↔ sortBy = "price") :
    ListingRepo.GetFeed.mainQuery sortBy' sortOrder minPrice maxPrice =
      ListingRepo.GetFeed.mainQuery sortBy sortOrder minPrice maxPrice := by
  unfold ListingRepo.GetFeed.mainQuery ListingRepo.GetFeed.orderByClause
  simp only [h1, h2]

set_option maxRecDepth 100000 in
/-- C16, the claim as worded fails: with sortBy `price` and sortOrder
`asc; drop table users` the ORDER BY clause is `ORDER BY l.price ASC; DROP TABLE USERS`,
which is none of the four whitelisted clauses, and the statement `GetFeed` issues carries
that text. -/
theorem C16_sort_order_text_reaches_the_statement :
    ListingRepo.GetFeed.orderByClause "price" "asc; drop table users" =
      "ORDER BY l.price ASC; DROP TABLE USERS" ∧
    ListingRepo.GetFeed.orderByClause "price" "asc; drop table users" ∉ orderByWhitelist ∧
    (ListingRepo.GetFeed (stubFeedEnv []) [] (-1) 1 10 "price" "asc; drop table users" 0 0
        Example.feedStart).2.trace =
      [Event.Query Conn.pool
        (ListingRepo.GetFeed.selectFrom ++
          "\n\t\tORDER BY l.price ASC; DROP TABLE USERS\n\t\tLIMIT $1 OFFSET $2;\n\t")
        [SqlVal.int64 10, SqlVal.int64 0]] := by
  decide

/-- C16, amended: for every sortBy and sortOrder the column of the ORDER BY clause is
`l.created_at` or `l.price` and the statement text depends on sortBy only through which of
`createdAt`, `price` it equals; the direction is the upper-cased sortOrder as passed, so
for sortBy `createdAt` or `price` the clause is one of the four whitelisted clauses exactly
when sortOrder upper-cases to `ASC` or `DESC`, and for any other sortBy the clause is
`ORDER BY l.created_at DESC`; every sortBy and sortOrder the feed handler passes on give a
whitelisted clause. -/
theorem C16_order_by_column_whitelisted_direction_upper_cased (sortBy sortOrder : String) :
    (ListingRepo.GetFeed.orderByClause sortBy sortOrder =
        "ORDER BY l.created_at " ++ strings.ToUpper sortOrder ∨
      ListingRepo.GetFeed.orderByClause sortBy sortOrder =
        "ORDER BY l.price " ++ strings.ToUpper sortOrder ∨
      ListingRepo.GetFeed.orderByClause sortBy sortOrder = "ORDER BY l.created_at DESC") ∧
    (∀ (sortBy' : String) (minPrice maxPrice : Int),
      (sortBy' = "createdAt" ↔ sortBy = "createdAt") → (sortBy' = "price" ↔ sortBy = "price") →
      ListingRepo.GetFeed.mainQuery sortBy' sortOrder minPrice maxPrice =
        ListingRepo.GetFeed.mainQuery sortBy sortOrder minPrice maxPrice) ∧
    (sortBy = "createdAt" ∨ sortBy = "price" →
      (ListingRepo.GetFeed.orderByClause sortBy sortOrder ∈ orderByWhitelist ↔
        strings.ToUpper sortOrder = "ASC" ∨ strings.ToUpper sortOrder = "DESC")) ∧
    (sortBy ≠ "createdAt" → sortBy ≠ "price" →
      ListingRepo.GetFeed.orderByClause sortBy sortOrder = "ORDER BY l.created_at DESC") ∧
    (∀ (r : Request) (p : ListingHandler.GetFeedParams),
      ListingHandler.GetFeed.params r = .ok p →
      ListingRepo.GetFeed.orderByClause p.SortBy p.SortOrder ∈ orderByWhitelist) := by
  refine ⟨?_, ?_, ?_, ?_, ?_⟩
  · unfold ListingRepo.GetFeed.orderByClause
    by_cases h1 : sortBy = "createdAt"
    · left; simp [h1]
    · by_cases h2 : sortBy = "price"
      · right; left; simp [h1, h2]
      · right; right; simp [h1, h2]
  · intro sortBy' minPrice maxPrice h1 h2
    exact mainQuery_sortBy_congr sortBy sortBy' sortOrder minPrice maxPrice h1 h2
  · intro hcol
    exact ⟨orderByClause_direction_of_whitelisted sortBy sortOrder hcol,
      orderByClause_whitelisted_of_direction sortBy sortOrder⟩
  · intro h1 h2
    unfold ListingRepo.GetFeed.orderByClause
    simp [h1, h2]
  · intro r p hp
    have hord := (GetFeed_params_ok r p hp).2.2.2.2.1
    apply orderByClause_whitelisted_of_direction
    rcases hord with h | h
    · left; rw [h]; exact ToUpper_asc_desc.1
    · right; rw [h]; exact ToUpper_asc_desc.2

set_option maxRecDepth 100000 in
/-- C17, evaluated: the handler accepts `page=9223372036854775807&limit=100` and the
statement is issued with OFFSET argument `-200`, while `(page - 1) * limit` is
`922337203685477580600`; it accepts `page=4611686018427387905&limit=4` and the OFFSET
argument is `0`, the offset of the first page.  The offset is the product whenever the
product is below `2 ^ 63`. -/
theorem C17_offset_wraps_for_large_page :
    ListingHandler.GetFeed.params Example.lastPageRequest =
      .ok { Page := 9223372036854775807, Limit := 100, SortBy := "createdAt",
            SortOrder := "desc", MinPrice := 0, MaxPrice := 0 } ∧
    ListingRepo.GetFeed.offset 9223372036854775807 100 = -200 ∧
    ((9223372036854775807 : Int) - 1) * 100 = 922337203685477580600 ∧
    (ListingHandler.GetFeed (ListingService.GetFeed (stubFeedEnv [])) Example.lastPageRequest
        Example.feedStart).2.trace =
      [Event.Query Conn.pool (ListingRepo.GetFeed.mainQuery "createdAt" "desc" 0 0)
        [SqlVal.int64 100, SqlVal.int64 (-200)]] ∧
    ListingHandler.GetFeed.params Example.wrappedPageRequest =
      .ok { Page := 4611686018427387905, Limit := 4, SortBy := "createdAt",
            SortOrder := "desc", MinPrice := 0, MaxPrice := 0 } ∧
    ListingRepo.GetFeed.offset 4611686018427387905 4 = 0 ∧
    (ListingHandler.GetFeed (ListingService.GetFeed (stubFeedEnv []))
        Example.wrappedPageRequest Example.feedStart).2.trace =
      [Event.Query Conn.pool (ListingRepo.GetFeed.mainQuery "createdAt" "desc" 0 0)
        [SqlVal.int64 4, SqlVal.int64 0]] ∧
    (∀ page limit : Int, 1 ≤ page → 1 ≤ limit → (page - 1) * limit < 2 ^ 63 →
      ListingRepo.GetFeed.offset page limit = (page - 1) * limit ∧
        0 ≤ ListingRepo.GetFeed.offset page limit) := by
  refine ⟨rfl, by decide, by decide, by decide, rfl, by decide, by decide, ?_⟩
  intro page limit hpage hlimit h
  exact GetFeed_offset_exact page limit hpage hlimit h

/-! ## The rows of the feed -/

theorem scanListing_IsOwner (row : List SqlVal) (l0 : Listing)
    (h : ListingRepo.scanListing row = .ok l0) : l0.IsOwner = false := by
  unfold ListingRepo.scanListing at h
  split at h
  · cases h; rfl
  · cases h

theorem GetFeed_scanRows_ok (userID : Int) (rows : List (List SqlVal)) :
    ∀ (acc listings : List Listing),
      ListingRepo.GetFeed.scanRows userID rows acc = .ok listings →
      ∃ new, listings = acc ++ new ∧
        List.Forall₂ (fun row l => ∃ l0, ListingRepo.scanListing row = .ok l0 ∧
          l = { l0 with IsOwner := decide (userID > 0 ∧ l0.UserID = userID) }) rows new := by
  induction rows with
  | nil =>
    intro acc listings h
    simp only [ListingRepo.GetFeed.scanRows] at h
    cases h
    exact ⟨[], by simp, List.Forall₂.nil⟩
  | cons row rest ih =>
    intro acc listings h
    simp only [ListingRepo.GetFeed.scanRows] at h
    split at h
    · cases h
    · rename_i l0 hl0
      obtain ⟨new, hnew, hall⟩ := ih _ _ h
      refine ⟨(if userID > 0 then { l0 with IsOwner := decide (l0.UserID = userID) }
          else l0) :: new, by rw [hnew]; simp, List.Forall₂.cons ⟨l0, hl0, ?_⟩ hall⟩
      have hfalse := scanListing_IsOwner row l0 hl0
      by_cases hpos : userID > 0
      · simp [hpos]
      · simp only [hpos, if_false, false_and, decide_False]
        cases l0
        simp only at hfalse
        simp [hfalse]

theorem GetFeed_ok {σ : Type} (env : Env σ) (ctx : Context) (userID page limit : Int)
    (sortBy sortOrder : String) (minPrice maxPrice : Int) (s : St σ) (feed : ListingsFeed)
    (h : (ListingRepo.GetFeed env ctx userID page limit sortBy sortOrder minPrice maxPrice s).1
      = .ok feed) :
    ∃ rows, (QueryWithTx env ctx (ListingRepo.GetFeed.mainQuery sortBy sortOrder minPrice maxPrice)
        (ListingRepo.GetFeed.queryArgs page limit minPrice maxPrice) s).1 = .ok rows ∧
      rows.err = none ∧
      ListingRepo.GetFeed.scanRows userID rows.rows [] = .ok feed.Listings ∧
      feed.Total = (feed.Listings.length : Int) ∧ feed.Page = page ∧ feed.Limit = limit := by
  unfold ListingRepo.GetFeed at h
  split at h
  · cases h
  · rename_i rows s1 hq
    split at h
    · cases h
    · rename_i listings hscan
      split at h
      · cases h
      · rename_i herr
        simp only [Except.ok.injEq] at h
        subst h
        exact ⟨rows, by rw [hq], herr, hscan, rfl, rfl, rfl⟩

theorem Forall₂_mem_right {α β : Type} (R : α → β → Prop) (xs : List α) (ys : List β)
    (h : List.Forall₂ R xs ys) : ∀ y ∈ ys, ∃ x ∈ xs, R x y := by
  induction h with
  | nil => intro y hy; cases hy
  | cons hr _ ih =>
    intro y hy
    rcases List.mem_cons.mp hy with e | e
    · subst e; exact ⟨_, List.mem_cons_self _ _, hr⟩
    · obtain ⟨x, hx, hxy⟩ := ih y e
      exact ⟨x, List.mem_cons_of_mem _ hx, hxy⟩

theorem GetInfoFromContext_anonymous (ctx : Context)
    (h : (utils.GetInfoFromContext ctx).2 = false) : (utils.GetInfoFromContext ctx).1 = -1 := by
  unfold utils.GetInfoFromContext at h ⊢
  split
  · rename_i userID hv
    rw [hv] at h
    cases h
  · rfl

theorem GetFeed_IsOwner {σ : Type} (env : Env σ) (ctx : Context) (userID page limit : Int)
    (sortBy sortOrder : String) (minPrice maxPrice : Int) (s : St σ) (feed : ListingsFeed)
    (h : (ListingRepo.GetFeed env ctx userID page limit sortBy sortOrder minPrice maxPrice s).1
      = .ok feed) :
    ∀ l ∈ feed.Listings, (l.IsOwner = true ↔ userID > 0 ∧ l.UserID = userID) := by
  obtain ⟨rows, _, _, hscan, _⟩ :=
    GetFeed_ok env ctx userID page limit sortBy sortOrder minPrice maxPrice s feed h
  obtain ⟨new, hnew, hall⟩ := GetFeed_scanRows_ok userID rows.rows [] feed.Listings hscan
  rw [List.nil_append] at hnew
  rw [hnew]
  intro l hl
  obtain ⟨row, _, l0, _, hl0⟩ := Forall₂_mem_right _ _ _ hall l hl
  rw [hl0]
  simp

/-- C18: when `GetFeed` succeeds, the store answered the feed statement with rows that
are matched one to one, in order, by the returned listings; each listing is the scanned
row with `IsOwner` set to whether `userID > 0` and the row's `user_id` equals `userID`, so
`IsOwner` is true if and only if both hold.  Without a user id in the request context
`utils.GetInfoFromContext` gives `-1`, the handler passes it on, and every listing of the
response has `IsOwner` false. -/
theorem C18_is_owner_iff_positive_caller_owns_row {σ : Type} (env : Env σ) (ctx : Context)
    (userID page limit : Int) (sortBy sortOrder : String) (minPrice maxPrice : Int)
    (s : St σ) (feed : ListingsFeed)
    (h : (ListingRepo.GetFeed env ctx userID page limit sortBy sortOrder minPrice maxPrice s).1
      = .ok feed) :
    (∃ rows,
      (QueryWithTx env ctx (ListingRepo.GetFeed.mainQuery sortBy sortOrder minPrice maxPrice)
        (ListingRepo.GetFeed.queryArgs page limit minPrice maxPrice) s).1 = .ok rows ∧
      List.Forall₂ (fun row l => ∃ l0, ListingRepo.scanListing row = .ok l0 ∧
        l = { l0 with IsOwner := decide (userID > 0 ∧ l0.UserID = userID) })
        rows.rows feed.Listings) ∧
    (∀ l ∈ feed.Listings, (l.IsOwner = true ↔ userID > 0 ∧ l.UserID = userID)) ∧
    (∀ ctx' : Context, ctx'.Value CtxKey.UserIDKey = none →
      utils.GetInfoFromContext ctx' = (-1, false)) ∧
    (∀ (r : Request) (s' : St σ) (page' : ListingsFeed),
      (utils.GetInfoFromContext r.ctx).2 = false →
      (ListingHandler.GetFeed (ListingService.GetFeed env) r s').1.data = Body.feed page' →
      ∀ l ∈ page'.Listings, l.IsOwner = false) := by
  refine ⟨?_, GetFeed_IsOwner env ctx userID page limit sortBy sortOrder minPrice maxPrice s
    feed h, ?_, ?_⟩
  · obtain ⟨rows, hq, _, hscan, _⟩ :=
      GetFeed_ok env ctx userID page limit sortBy sortOrder minPrice maxPrice s feed h
    obtain ⟨new, hnew, hall⟩ := GetFeed_scanRows_ok userID rows.rows [] feed.Listings hscan
    rw [List.nil_append] at hnew
    exact ⟨rows, hq, hnew ▸ hall⟩
  · intro ctx' hnone
    unfold utils.GetInfoFromContext
    rw [hnone]
  · intro r s' page' hanon hdata l hl
    have hid := GetInfoFromContext_anonymous r.ctx hanon
    unfold ListingHandler.GetFeed at hdata
    split at hdata
    · cases hdata
    · rename_i params _
      split at hdata
      · cases hdata
      · rename_i got s1 hsvc
        simp only [Body.feed.injEq] at hdata
        subst hdata
        have hrepo : (ListingRepo.GetFeed env r.ctx (utils.GetInfoFromContext r.ctx).1
            params.Page params.Limit params.SortBy params.SortOrder params.MinPrice
            params.MaxPrice s').1 = .ok got := by
          have := congrArg Prod.fst hsvc
          simpa [ListingService.GetFeed] using this
        have hiff := GetFeed_IsOwner env r.ctx _ _ _ _ _ _ _ s' got hrepo l hl
        rw [hid] at hiff
        cases hown : l.IsOwner
        · rfl
        · exact absurd (hiff.mp hown).1 (by decide)

/-- C18 at a store answering with a listing of user 7 and a listing of user 8, for the
caller 7. -/
theorem C18_witness :
    (ListingRepo.GetFeed (stubFeedEnv Example.feedRows) [] 7 1 10 "createdAt" "desc" 0 0
        Example.feedStart).1 = .ok Example.feedPage ∧
    ∀ l ∈ Example.feedPage.Listings, (l.IsOwner = true ↔ (7 : Int) > 0 ∧ l.UserID = 7) :=
  ⟨rfl, (C18_is_owner_iff_positive_caller_owns_row (stubFeedEnv Example.feedRows) [] 7 1 10
    "createdAt" "desc" 0 0 Example.feedStart Example.feedPage rfl).2.1⟩

/-- C19: when `GetFeed` succeeds, `Total` is the number of listings returned, which is the
number of rows the store answered with for this page (0 for none), and `Page` and `Limit`
are the arguments `page` and `limit`. -/
theorem C19_total_is_page_length_page_and_limit_echoed {σ : Type} (env : Env σ)
    (ctx : Context) (userID page limit : Int) (sortBy sortOrder : String)
    (minPrice maxPrice : Int) (s : St σ) (feed : ListingsFeed)
    (h : (ListingRepo.GetFeed env ctx userID page limit sortBy sortOrder minPrice maxPrice s).1
      = .ok feed) :
    feed.Total = (feed.Listings.length : Int) ∧ feed.Page = page ∧ feed.Limit = limit ∧
    ∃ rows,
      (QueryWithTx env ctx (ListingRepo.GetFeed.mainQuery sortBy sortOrder minPrice maxPrice)
        (ListingRepo.GetFeed.queryArgs page limit minPrice maxPrice) s).1 = .ok rows ∧
      feed.Total = (rows.rows.length : Int) ∧ (rows.rows = [] → feed.Total = 0) := by
  obtain ⟨rows, hq, _, hscan, htotal, hpage, hlimit⟩ :=
    GetFeed_ok env ctx userID page limit sortBy sortOrder minPrice maxPrice s feed h
  obtain ⟨new, hnew, hall⟩ := GetFeed_scanRows_ok userID rows.rows [] feed.Listings hscan
  rw [List.nil_append] at hnew
  have hlen : feed.Listings.length = rows.rows.length := by
    rw [hnew]; exact hall.length_eq.symm
  refine ⟨htotal, hpage, hlimit, rows, hq, by rw [htotal, hlen], ?_⟩
  intro hempty
  rw [htotal, hlen, hempty]
  rfl

/-- C19 at a store answering with two rows. -/
theorem C19_witness :
    (ListingRepo.GetFeed (stubFeedEnv Example.feedRows) [] 7 1 10 "createdAt" "desc" 0 0
        Example.feedStart).1 = .ok Example.feedPage ∧
    Example.feedPage.Total = 2 ∧ Example.feedPage.Page = 1 ∧ Example.feedPage.Limit = 10 :=
  ⟨rfl,
    have h := C19_total_is_page_length_page_and_limit_echoed (stubFeedEnv Example.feedRows) []
      7 1 10 "createdAt" "desc" 0 0 Example.feedStart Example.feedPage rfl
    ⟨h.1, h.2.1, h.2.2.1⟩⟩

/-! ## The price test of the feed handler -/

theorem GetFeed_bad_request {σ : Type} (listingService : ListingHandler.FeedService σ)
    (r : Request) (s : St σ) (msg : String)
    (h : ListingHandler.GetFeed.params r = .error msg) :
    ListingHandler.GetFeed listingService r s = (httputil.BadRequestError msg, s) := by
  unfold ListingHandler.GetFeed
  rw [h]

theorem GetFeed_params_inverted (r : Request) (a b : Int)
    (hmin : strconv.ParseInt (r.queryGet "minPrice") = some a)
    (hmax : strconv.ParseInt (r.queryGet "maxPrice") = some b)
    (hb : 0 < b) (hab : b < a) :
    ∃ msg, ListingHandler.GetFeed.params r = .error msg := by
  cases hp : ListingHandler.GetFeed.params r with
  | error msg => exact ⟨msg, rfl⟩
  | ok p =>
    exfalso
    obtain ⟨_, _, _, _, _, _, _, hord, _, _, h5, h6⟩ := GetFeed_params_ok r p hp
    have emin : p.MinPrice = a := by
      rcases h5 with h | h
      · rw [h.1] at hmin; cases hmin
      · rw [h] at hmin; exact Option.some.inj hmin
    have emax : p.MaxPrice = b := by
      rcases h6 with h | h
      · rw [h.1] at hmax; cases hmax
      · rw [h] at hmax; exact Option.some.inj hmax
    apply hord
    rw [emin, emax]
    exact ⟨hb, by omega, hab⟩

set_option maxRecDepth 100000 in
/-- C20, the claim as worded fails: for `minPrice=100&maxPrice=0` both parameters are
supplied and parse, `maxPrice < minPrice`, and the handler answers 200 after the feed
statement was issued with the lower bound 100 and no upper bound. -/
theorem C20_zero_max_price_below_min_price_is_served :
    strconv.ParseInt (Example.minOnlyRequest.queryGet "minPrice") = some 100 ∧
    strconv.ParseInt (Example.minOnlyRequest.queryGet "maxPrice") = some 0 ∧
    (0 : Int) < 100 ∧
    (ListingHandler.GetFeed (ListingService.GetFeed (stubFeedEnv [])) Example.minOnlyRequest
        Example.feedStart).1 =
      { statusCode := 200,
        data := Body.feed { Listings := [], Total := 0, Page := 1, Limit := 10 } } ∧
    (ListingHandler.GetFeed (ListingService.GetFeed (stubFeedEnv [])) Example.minOnlyRequest
        Example.feedStart).2.trace =
      [Event.Query Conn.pool (ListingRepo.GetFeed.mainQuery "createdAt" "desc" 100 0)
        [SqlVal.int64 100, SqlVal.int64 10, SqlVal.int64 0]] := by
  decide

/-- C20, amended: a feed request whose `minPrice` and `maxPrice` parse to `a` and `b`
with `0 < b < a` is answered with a 400 bad-request error, the state is left as it was,
and the response is the same whatever the service is, so the service is not called; a
`maxPrice` of 0 or a `minPrice` of 0 passes the price test. -/
theorem C20_inverted_positive_price_range_is_rejected {σ : Type}
    (listingService : ListingHandler.FeedService σ) (r : Request) (s : St σ) (a b : Int)
    (hmin : strconv.ParseInt (r.queryGet "minPrice") = some a)
    (hmax : strconv.ParseInt (r.queryGet "maxPrice") = some b)
    (hb : 0 < b) (hab : b < a) :
    (∃ msg, (ListingHandler.GetFeed listingService r s).1 = httputil.BadRequestError msg) ∧
    (ListingHandler.GetFeed listingService r s).1.statusCode = 400 ∧
    (ListingHandler.GetFeed listingService r s).2 = s ∧
    (∀ other : ListingHandler.FeedService σ,
      ListingHandler.GetFeed other r s = ListingHandler.GetFeed listingService r s) ∧
    (∀ p : ListingHandler.GetFeedParams, p.MaxPrice ≤ 0 ∨ p.MinPrice ≤ 0 →
      ListingHandler.GetFeed.priceOrder p = .ok p) := by
  obtain ⟨msg, hmsg⟩ := GetFeed_params_inverted r a b hmin hmax hb hab
  refine ⟨⟨msg, ?_⟩, ?_, ?_, ?_, ?_⟩
  · rw [GetFeed_bad_request listingService r s msg hmsg]
  · rw [GetFeed_bad_request listingService r s msg hmsg]; rfl
  · rw [GetFeed_bad_request listingService r s msg hmsg]
  · intro other
    rw [GetFeed_bad_request listingService r s msg hmsg,
      GetFeed_bad_request other r s msg hmsg]
  · intro p hp
    unfold ListingHandler.GetFeed.priceOrder
    have : ¬ (p.MaxPrice > 0 ∧ p.MinPrice > 0 ∧ p.MaxPrice < p.MinPrice) := by
      rintro ⟨h1, h2, _⟩
      rcases hp with h | h <;> omega
    simp [this]

/-- C20 at the request `minPrice=100&maxPrice=50`. -/
theorem C20_witness :
    strconv.ParseInt (Example.invertedRequest.queryGet "minPrice") = some 100 ∧
    strconv.ParseInt (Example.invertedRequest.queryGet "maxPrice") = some 50 ∧
    (ListingHandler.GetFeed (ListingService.GetFeed (stubFeedEnv [])) Example.invertedRequest
        Example.feedStart).1.statusCode = 400 ∧
    (ListingHandler.GetFeed (ListingService.GetFeed (stubFeedEnv [])) Example.invertedRequest
        Example.feedStart).2 = Example.feedStart :=
  have h := C20_inverted_positive_price_range_is_rejected
    (ListingService.GetFeed (stubFeedEnv [])) Example.invertedRequest Example.feedStart 100 50
    (by decide) (by decide) (by decide) (by decide)
  ⟨by decide, by decide, h.2.1, h.2.2.1⟩

/-! ## The parameters of the feed handler: C21 -/

theorem GetFeed_page_fwd (r : Request) (p q : ListingHandler.GetFeedParams)
    (h : ListingHandler.GetFeed.page r p = .ok q) :
    paramIs (r.queryGet "page") p.Page strconv.Atoi (fun v => v ≥ 1) q.Page ∧
      q = { p with Page := q.Page } := by
  unfold ListingHandler.GetFeed.page at h
  unfold paramIs
  split at h
  · rename_i hne
    split at h
    · rename_i val hval
      split at h
      · rename_i hge
        cases h
        exact ⟨Or.inr ⟨hne, hval, hge⟩, rfl⟩
      · cases h
    · cases h
  · rename_i hempty
    cases h
    exact ⟨Or.inl ⟨not_not.mp hempty, rfl⟩, rfl⟩

theorem GetFeed_page_bwd (r : Request) (p : ListingHandler.GetFeedParams) (v : Int)
    (h : paramIs (r.queryGet "page") p.Page strconv.Atoi (fun v => v ≥ 1) v) :
    ListingHandler.GetFeed.page r p = .ok { p with Page := v } := by
  unfold ListingHandler.GetFeed.page
  rcases h with ⟨h, rfl⟩ | ⟨h, hv, hok⟩
  · simp [h]
  · simp [h, hv, hok]

theorem GetFeed_limit_fwd (r : Request) (p q : ListingHandler.GetFeedParams)
    (h : ListingHandler.GetFeed.limit r p = .ok q) :
    paramIs (r.queryGet "limit") p.Limit strconv.Atoi (fun v => v ≥ 1 ∧ v ≤ 100) q.Limit ∧
      q = { p with Limit := q.Limit } := by
  unfold ListingHandler.GetFeed.limit at h
  unfold paramIs
  split at h
  · rename_i hne
    split at h
    · rename_i val hval
      split at h
      · rename_i hge
        cases h
        exact ⟨Or.inr ⟨hne, hval, hge⟩, rfl⟩
      · cases h
    · cases h
  · rename_i hempty
    cases h
    exact ⟨Or.inl ⟨not_not.mp hempty, rfl⟩, rfl⟩

theorem GetFeed_limit_bwd (r : Request) (p : ListingHandler.GetFeedParams) (v : Int)
    (h : paramIs (r.queryGet "limit") p.Limit strconv.Atoi (fun v => v ≥ 1 ∧ v ≤ 100) v) :
    ListingHandler.GetFeed.limit r p = .ok { p with Limit := v } := by
  unfold ListingHandler.GetFeed.limit
  rcases h with ⟨h, rfl⟩ | ⟨h, hv, hok⟩
  · simp [h]
  · simp [h, hv, hok.1, hok.2]

theorem GetFeed_sortBy_fwd (r : Request) (p q : ListingHandler.GetFeedParams)
    (h : ListingHandler.GetFeed.sortBy r p = .ok q) :
    paramIs (r.queryGet "sortBy") p.SortBy some (fun v => v = "createdAt" ∨ v = "price")
        q.SortBy ∧
      q = { p with SortBy := q.SortBy } := by
  unfold ListingHandler.GetFeed.sortBy at h
  unfold paramIs
  split at h
  · rename_i hne
    split at h
    · rename_i hor
      cases h
      exact ⟨Or.inr ⟨hne, rfl, hor⟩, rfl⟩
    · cases h
  · rename_i hempty
    cases h
    exact ⟨Or.inl ⟨not_not.mp hempty, rfl⟩, rfl⟩

theorem GetFeed_sortBy_bwd (r : Request) (p : ListingHandler.GetFeedParams) (v : String)
    (h : paramIs (r.queryGet "sortBy") p.SortBy some (fun v => v = "createdAt" ∨ v = "price")
      v) :
    ListingHandler.GetFeed.sortBy r p = .ok { p with SortBy := v } := by
  unfold ListingHandler.GetFeed.sortBy
  rcases h with ⟨h, rfl⟩ | ⟨h, hv, hok⟩
  · simp [h]
  · cases hv
    simp [h, hok]

theorem GetFeed_sortOrder_fwd (r : Request) (p q : ListingHandler.GetFeedParams)
    (h : ListingHandler.GetFeed.sortOrder r p = .ok q) :
    paramIs (r.queryGet "sortOrder") p.SortOrder some (fun v => v = "asc" ∨ v = "desc")
        q.SortOrder ∧
      q = { p with SortOrder := q.SortOrder } := by
  unfold ListingHandler.GetFeed.sortOrder at h
  unfold paramIs
  split at h
  · rename_i hne
    split at h
    · rename_i hor
      cases h
      exact ⟨Or.inr ⟨hne, rfl, hor⟩, rfl⟩
    · cases h
  · rename_i hempty
    cases h
    exact ⟨Or.inl ⟨not_not.mp hempty, rfl⟩, rfl⟩

theorem GetFeed_sortOrder_bwd (r : Request) (p : ListingHandler.GetFeedParams) (v : String)
    (h : paramIs (r.queryGet "sortOrder") p.SortOrder some (fun v => v = "asc" ∨ v = "desc")
      v) :
    ListingHandler.GetFeed.sortOrder r p = .ok { p with SortOrder := v } := by
  unfold ListingHandler.GetFeed.sortOrder
  rcases h with ⟨h, rfl⟩ | ⟨h, hv, hok⟩
  · simp [h]
  · cases hv
    simp [h, hok]

theorem GetFeed_minPrice_fwd (r : Request) (p q : ListingHandler.GetFeedParams)
    (h : ListingHandler.GetFeed.minPrice r p = .ok q) :
    paramIs (r.queryGet "minPrice") p.MinPrice strconv.ParseInt (fun v => v ≥ 0) q.MinPrice ∧
      q = { p with MinPrice := q.MinPrice } := by
  unfold ListingHandler.GetFeed.minPrice at h
  unfold paramIs
  split at h
  · rename_i hne
    split at h
    · rename_i val hval
      split at h
      · rename_i hge
        cases h
        exact ⟨Or.inr ⟨hne, hval, hge⟩, rfl⟩
      · cases h
    · cases h
  · rename_i hempty
    cases h
    exact ⟨Or.inl ⟨not_not.mp hempty, rfl⟩, rfl⟩

theorem GetFeed_minPrice_bwd (r : Request) (p : ListingHandler.GetFeedParams) (v : Int)
    (h : paramIs (r.queryGet "minPrice") p.MinPrice strconv.ParseInt (fun v => v ≥ 0) v) :
    ListingHandler.GetFeed.minPrice r p = .ok { p with MinPrice := v } := by
  unfold ListingHandler.GetFeed.minPrice
  rcases h with ⟨h, rfl⟩ | ⟨h, hv, hok⟩
  · simp [h]
  · simp [h, hv, hok]

theorem GetFeed_maxPrice_fwd (r : Request) (p q : ListingHandler.GetFeedParams)
    (h : ListingHandler.GetFeed.maxPrice r p = .ok q) :
    paramIs (r.queryGet "maxPrice") p.MaxPrice strconv.ParseInt (fun v => v ≥ 0) q.MaxPrice ∧
      q = { p with MaxPrice := q.MaxPrice } := by
  unfold ListingHandler.GetFeed.maxPrice at h
  unfold paramIs
  split at h
  · rename_i hne
    split at h
    · rename_i val hval
      split at h
      · rename_i hge
        cases h
        exact ⟨Or.inr ⟨hne, hval, hge⟩, rfl⟩
      · cases h
    · cases h
  · rename_i hempty
    cases h
    exact ⟨Or.inl ⟨not_not.mp hempty, rfl⟩, rfl⟩

theorem GetFeed_maxPrice_bwd (r : Request) (p : ListingHandler.GetFeedParams) (v : Int)
    (h : paramIs (r.queryGet "maxPrice") p.MaxPrice strconv.ParseInt (fun v => v ≥ 0) v) :
    ListingHandler.GetFeed.maxPrice r p = .ok { p with MaxPrice := v } := by
  unfold ListingHandler.GetFeed.maxPrice
  rcases h with ⟨h, rfl⟩ | ⟨h, hv, hok⟩
  · simp [h]
  · simp [h, hv, hok]

/-- The parameters the feed handler passes on, characterised: each is the default of an
empty value or the admissible reading of a supplied one, and the price test passes. -/
theorem GetFeed_params_iff (r : Request) (p : ListingHandler.GetFeedParams) :
    ListingHandler.GetFeed.params r = .ok p ↔
      paramIs (r.queryGet "page") 1 strconv.Atoi (fun v => v ≥ 1) p.Page ∧
      paramIs (r.queryGet "limit") 10 strconv.Atoi (fun v => v ≥ 1 ∧ v ≤ 100) p.Limit ∧
      paramIs (r.queryGet "sortBy") "createdAt" some (fun v => v = "createdAt" ∨ v = "price")
        p.SortBy ∧
      paramIs (r.queryGet "sortOrder") "desc" some (fun v => v = "asc" ∨ v = "desc")
        p.SortOrder ∧
      paramIs (r.queryGet "minPrice") 0 strconv.ParseInt (fun v => v ≥ 0) p.MinPrice ∧
      paramIs (r.queryGet "maxPrice") 0 strconv.ParseInt (fun v => v ≥ 0) p.MaxPrice ∧
      ¬ (p.MaxPrice > 0 ∧ p.MinPrice > 0 ∧ p.MaxPrice < p.MinPrice) := by
  constructor
  · intro h
    unfold ListingHandler.GetFeed.params at h
    split at h
    · cases h
    · rename_i p1 h1
      split at h
      · cases h
      · rename_i p2 h2
        split at h
        · cases h
        · rename_i p3 h3
          split at h
          · cases h
          · rename_i p4 h4
            split at h
            · cases h
            · rename_i p5 h5
              split at h
              · cases h
              · rename_i p6 h6
                unfold ListingHandler.GetFeed.priceOrder at h
                split at h
                · cases h
                · rename_i hord
                  cases h
                  obtain ⟨a1, a2⟩ := GetFeed_page_fwd r _ _ h1
                  obtain ⟨b1, b2⟩ := GetFeed_limit_fwd r _ _ h2
                  obtain ⟨c1, c2⟩ := GetFeed_sortBy_fwd r _ _ h3
                  obtain ⟨d1, d2⟩ := GetFeed_sortOrder_fwd r _ _ h4
                  obtain ⟨e1, e2⟩ := GetFeed_minPrice_fwd r _ _ h5
                  obtain ⟨f1, f2⟩ := GetFeed_maxPrice_fwd r _ _ h6
                  rw [a2] at b1 b2
                  rw [b2] at c1 c2
                  rw [c2] at d1 d2
                  rw [d2] at e1 e2
                  rw [e2] at f1 f2
                  rw [f2]
                  exact ⟨a1, b1, c1, d1, e1, f1, by rw [f2] at hord; exact hord⟩
  · rintro ⟨a, b, c, d, e, f, hord⟩
    unfold ListingHandler.GetFeed.params
    rw [GetFeed_page_bwd r _ p.Page a]
    simp only []
    rw [GetFeed_limit_bwd r _ p.Limit b]
    simp only []
    rw [GetFeed_sortBy_bwd r _ p.SortBy c]
    simp only []
    rw [GetFeed_sortOrder_bwd r _ p.SortOrder d]
    simp only []
    rw [GetFeed_minPrice_bwd r _ p.MinPrice e]
    simp only []
    rw [GetFeed_maxPrice_bwd r _ p.MaxPrice f]
    simp only []
    unfold ListingHandler.GetFeed.priceOrder
    rw [if_neg hord]

theorem not_paramIs {α : Type} (raw : String) (dflt : α) (parse : String → Option α)
    (admissible : α → Prop) (hraw : raw ≠ "")
    (hbad : ∀ v, parse raw = some v → ¬ admissible v) (v : α) :
    ¬ paramIs raw dflt parse admissible v := by
  rintro (⟨h, _⟩ | ⟨_, hv, hok⟩)
  · exact hraw h
  · exact hbad v hv hok

theorem GetFeed_params_error_of_not_ok (r : Request)
    (h : ∀ p, ListingHandler.GetFeed.params r ≠ .ok p) :
    ∃ msg, ListingHandler.GetFeed.params r = .error msg := by
  cases hp : ListingHandler.GetFeed.params r with
  | error msg => exact ⟨msg, rfl⟩
  | ok p => exact absurd hp (h p)

theorem GetFeed_served {σ : Type} (listingService : ListingHandler.FeedService σ)
    (r : Request) (s : St σ) (p : ListingHandler.GetFeedParams)
    (h : ListingHandler.GetFeed.params r = .ok p) :
    (ListingHandler.GetFeed listingService r s).2 =
      (listingService r.ctx (utils.GetInfoFromContext r.ctx).1 p.Page p.Limit p.SortBy
        p.SortOrder p.MinPrice p.MaxPrice s).2 ∧
    (∀ feed, (listingService r.ctx (utils.GetInfoFromContext r.ctx).1 p.Page p.Limit p.SortBy
        p.SortOrder p.MinPrice p.MaxPrice s).1 = .ok feed →
      (ListingHandler.GetFeed listingService r s).1 =
        { statusCode := 200, data := Body.feed feed }) ∧
    (∀ e, (listingService r.ctx (utils.GetInfoFromContext r.ctx).1 p.Page p.Limit p.SortBy
        p.SortOrder p.MinPrice p.MaxPrice s).1 = .error e →
      (ListingHandler.GetFeed listingService r s).1 = httputil.InternalError) := by
  simp only [ListingHandler.GetFeed, h]
  rcases hsvc : listingService r.ctx (utils.GetInfoFromContext r.ctx).1 p.Page p.Limit p.SortBy
      p.SortOrder p.MinPrice p.MaxPrice s with ⟨e | feed, s1⟩ <;> simp

/-- C21: the parameters the feed handler passes to the service are, one by one, the
default (page 1, limit 10, sortBy `createdAt`, sortOrder `desc`, price bounds 0) when the
query value is absent or empty, and otherwise the value read from it, which must parse
and lie in its set; so every call has page ≥ 1, 1 ≤ limit ≤ 100, sortBy in
{createdAt, price}, sortOrder in {asc, desc}, minPrice ≥ 0 and maxPrice ≥ 0.  A supplied
value that does not parse or lies outside its set ends the handler with a 400, the state as
it was and the same response whatever the service is. -/
theorem C21_feed_handler_validates_and_defaults {σ : Type}
    (listingService : ListingHandler.FeedService σ) (r : Request) (s : St σ) :
    (∀ p, ListingHandler.GetFeed.params r = .ok p ↔
      paramIs (r.queryGet "page") 1 strconv.Atoi (fun v => v ≥ 1) p.Page ∧
      paramIs (r.queryGet "limit") 10 strconv.Atoi (fun v => v ≥ 1 ∧ v ≤ 100) p.Limit ∧
      paramIs (r.queryGet "sortBy") "createdAt" some (fun v => v = "createdAt" ∨ v = "price")
        p.SortBy ∧
      paramIs (r.queryGet "sortOrder") "desc" some (fun v => v = "asc" ∨ v = "desc")
        p.SortOrder ∧
      paramIs (r.queryGet "minPrice") 0 strconv.ParseInt (fun v => v ≥ 0) p.MinPrice ∧
      paramIs (r.queryGet "maxPrice") 0 strconv.ParseInt (fun v => v ≥ 0) p.MaxPrice ∧
      ¬ (p.MaxPrice > 0 ∧ p.MinPrice > 0 ∧ p.MaxPrice < p.MinPrice)) ∧
    (∀ p, ListingHandler.GetFeed.params r = .ok p →
      p.Page ≥ 1 ∧ 1 ≤ p.Limit ∧ p.Limit ≤ 100 ∧
      (p.SortBy = "createdAt" ∨ p.SortBy = "price") ∧
      (p.SortOrder = "asc" ∨ p.SortOrder = "desc") ∧ p.MinPrice ≥ 0 ∧ p.MaxPrice ≥ 0) ∧
    (∀ p, ListingHandler.GetFeed.params r = .ok p →
      (ListingHandler.GetFeed listingService r s).2 =
        (listingService r.ctx (utils.GetInfoFromContext r.ctx).1 p.Page p.Limit p.SortBy
          p.SortOrder p.MinPrice p.MaxPrice s).2 ∧
      (∀ feed, (listingService r.ctx (utils.GetInfoFromContext r.ctx).1 p.Page p.Limit
          p.SortBy p.SortOrder p.MinPrice p.MaxPrice s).1 = .ok feed →
        (ListingHandler.GetFeed listingService r s).1 =
          { statusCode := 200, data := Body.feed feed }) ∧
      (∀ e, (listingService r.ctx (utils.GetInfoFromContext r.ctx).1 p.Page p.Limit
          p.SortBy p.SortOrder p.MinPrice p.MaxPrice s).1 = .error e →
        (ListingHandler.GetFeed listingService r s).1 = httputil.InternalError)) ∧
    (∀ msg, ListingHandler.GetFeed.params r = .error msg →
      ∀ other : ListingHandler.FeedService σ,
        ListingHandler.GetFeed other r s = (httputil.BadRequestError msg, s)) ∧
    (r.queryGet "page" ≠ "" →
      (∀ v, strconv.Atoi (r.queryGet "page") = some v → ¬ v ≥ 1) →
      ∃ msg, ListingHandler.GetFeed.params r = .error msg) ∧
    (r.queryGet "limit" ≠ "" →
      (∀ v, strconv.Atoi (r.queryGet "limit") = some v → ¬ (v ≥ 1 ∧ v ≤ 100)) →
      ∃ msg, ListingHandler.GetFeed.params r = .error msg) ∧
    (r.queryGet "sortBy" ≠ "" → r.queryGet "sortBy" ≠ "createdAt" →
      r.queryGet "sortBy" ≠ "price" →
      ∃ msg, ListingHandler.GetFeed.params r = .error msg) ∧
    (r.queryGet "sortOrder" ≠ "" → r.queryGet "sortOrder" ≠ "asc" →
      r.queryGet "sortOrder" ≠ "desc" →
      ∃ msg, ListingHandler.GetFeed.params r = .error msg) ∧
    (r.queryGet "minPrice" ≠ "" →
      (∀ v, strconv.ParseInt (r.queryGet "minPrice") = some v → ¬ v ≥ 0) →
      ∃ msg, ListingHandler.GetFeed.params r = .error msg) ∧
    (r.queryGet "maxPrice" ≠ "" →
      (∀ v, strconv.ParseInt (r.queryGet "maxPrice") = some v → ¬ v ≥ 0) →
      ∃ msg, ListingHandler.GetFeed.params r = .error msg) := by
  refine ⟨fun p => GetFeed_params_iff r p, ?_, ?_, ?_, ?_, ?_, ?_, ?_, ?_, ?_⟩
  · intro p hp
    obtain ⟨a, b, c, d, e, f, _⟩ := (GetFeed_params_iff r p).mp hp
    refine ⟨?_, ?_, ?_, ?_, ?_, ?_, ?_⟩
    · rcases a with ⟨_, h⟩ | ⟨_, _, h⟩
      · rw [h]
      · exact h
    · rcases b with ⟨_, h⟩ | ⟨_, _, h⟩
      · rw [h]; decide
      · exact h.1
    · rcases b with ⟨_, h⟩ | ⟨_, _, h⟩
      · rw [h]; decide
      · exact h.2
    · rcases c with ⟨_, h⟩ | ⟨_, _, h⟩
      · exact Or.inl h
      · exact h
    · rcases d with ⟨_, h⟩ | ⟨_, _, h⟩
      · exact Or.inr h
      · exact h
    · rcases e with ⟨_, h⟩ | ⟨_, _, h⟩
      · rw [h]
      · exact h
    · rcases f with ⟨_, h⟩ | ⟨_, _, h⟩
      · rw [h]
      · exact h
  · intro p hp
    exact GetFeed_served listingService r s p hp
  · intro msg hmsg other
    exact GetFeed_bad_request other r s msg hmsg
  · intro hraw hbad
    apply GetFeed_params_error_of_not_ok
    intro p hp
    exact not_paramIs _ _ _ _ hraw hbad _ ((GetFeed_params_iff r p).mp hp).1
  · intro hraw hbad
    apply GetFeed_params_error_of_not_ok
    intro p hp
    exact not_paramIs _ _ _ _ hraw hbad _ ((GetFeed_params_iff r p).mp hp).2.1
  · intro hraw h1 h2
    apply GetFeed_params_error_of_not_ok
    intro p hp
    refine not_paramIs _ _ _ _ hraw ?_ _ ((GetFeed_params_iff r p).mp hp).2.2.1
    intro v hv hok
    cases hv
    rcases hok with h | h
    · exact h1 h
    · exact h2 h
  · intro hraw h1 h2
    apply GetFeed_params_error_of_not_ok
    intro p hp
    refine not_paramIs _ _ _ _ hraw ?_ _ ((GetFeed_params_iff r p).mp hp).2.2.2.1
    intro v hv hok
    cases hv
    rcases hok with h | h
    · exact h1 h
    · exact h2 h
  · intro hraw hbad
    apply GetFeed_params_error_of_not_ok
    intro p hp
    exact not_paramIs _ _ _ _ hraw hbad _ ((GetFeed_params_iff r p).mp hp).2.2.2.2.1
  · intro hraw hbad
    apply GetFeed_params_error_of_not_ok
    intro p hp
    exact not_paramIs _ _ _ _ hraw hbad _ ((GetFeed_params_iff r p).mp hp).2.2.2.2.2.1

/-! ## The login handler: C22 -/

theorem Login_unauthorized {σ : Type} (authService : AuthHandler.LoginService σ)
    (codec : Codec AuthHandler.LoginRequest) (r : Request) (s s1 : St σ)
    (req : AuthHandler.LoginRequest) (user : Option UserPublic) (token : String)
    (err : GoError)
    (hdec : httputil.DecodeAndValidate codec r = .ok req)
    (hsvc : authService r.ctx req.Login req.Password s = ((user, token, some err), s1))
    (his : err.Is .ErrInvalidCredentials = true ∨ err.Is .ErrUserNotFound = true) :
    AuthHandler.Login authService codec r s =
      (some { statusCode := 401, data := Body.ErrorResponse "invalid credentials" }, s1) := by
  have hcond : (err.Is .ErrInvalidCredentials || err.Is .ErrUserNotFound) = true := by
    rcases his with h | h <;> simp [h]
  simp only [AuthHandler.Login, hdec, hsvc]
  cases err with
  | panic msg => simp [GoError.Is] at his
  | _ => (simp only [hcond, if_true]; rfl)

/-- C22: for one login request, a run in which the service returns `ErrUserNotFound` and
a run in which it returns `ErrInvalidCredentials` are answered with the same response:
status 401 and the message `invalid credentials`; the same holds for any error that wraps
one of the two. -/
theorem C22_login_failures_share_one_response {σ : Type}
    (svc1 svc2 : AuthHandler.LoginService σ) (codec : Codec AuthHandler.LoginRequest)
    (r : Request) (s s' s1 s2 : St σ) (req : AuthHandler.LoginRequest)
    (u1 u2 : Option UserPublic) (t1 t2 : String)
    (hdec : httputil.DecodeAndValidate codec r = .ok req)
    (h1 : svc1 r.ctx req.Login req.Password s = ((u1, t1, some .ErrUserNotFound), s1))
    (h2 : svc2 r.ctx req.Login req.Password s' = ((u2, t2, some .ErrInvalidCredentials), s2)) :
    (AuthHandler.Login svc1 codec r s).1 = (AuthHandler.Login svc2 codec r s').1 ∧
    (AuthHandler.Login svc1 codec r s).1 =
      some { statusCode := 401, data := Body.ErrorResponse "invalid credentials" } ∧
    httputil.UnauthorizedError GoError.ErrInvalidCredentials.Error =
      { statusCode := 401, data := Body.ErrorResponse "invalid credentials" } ∧
    (∀ (svc : AuthHandler.LoginService σ) (u : Option UserPublic) (t : String) (err : GoError)
        (s0 s3 : St σ),
      svc r.ctx req.Login req.Password s0 = ((u, t, some err), s3) →
      err.Is .ErrInvalidCredentials = true ∨ err.Is .ErrUserNotFound = true →
      AuthHandler.Login svc codec r s0 =
        (some { statusCode := 401, data := Body.ErrorResponse "invalid credentials" }, s3)) := by
  have e1 := Login_unauthorized svc1 codec r s s1 req u1 t1 _ hdec h1 (Or.inr rfl)
  have e2 := Login_unauthorized svc2 codec r s' s2 req u2 t2 _ hdec h2 (Or.inl rfl)
  refine ⟨by rw [e1, e2], by rw [e1], rfl, ?_⟩
  intro svc u t err s0 s3 hsvc his
  exact Login_unauthorized svc codec r s0 s3 req u t err hdec hsvc his

/-- C22 at the request of `alice` with a wrong password: on the empty store the service
reports that the user is not found, on the store that holds her that the credentials are
invalid, and both runs are answered alike. -/
theorem C22_witness :
    (AuthService.Login Example.lib Store.env Example.cfg [] "alice" "wrong-password"
      Example.start).1 = (none, "", some GoError.ErrUserNotFound) ∧
    (AuthService.Login Example.lib Store.env Example.cfg [] "alice" "wrong-password"
      Example.registered).1 = (none, "", some GoError.ErrInvalidCredentials) ∧
    (AuthHandler.Login (AuthService.Login Example.lib Store.env Example.cfg) Example.loginCodec
        Example.loginRequest Example.start).1 =
      (AuthHandler.Login (AuthService.Login Example.lib Store.env Example.cfg)
        Example.loginCodec Example.loginRequest Example.registered).1 :=
  ⟨rfl, rfl,
    (C22_login_failures_share_one_response
      (AuthService.Login Example.lib Store.env Example.cfg)
      (AuthService.Login Example.lib Store.env Example.cfg) Example.loginCodec
      Example.loginRequest Example.start Example.registered
      (AuthService.Login Example.lib Store.env Example.cfg [] "alice" "wrong-password"
        Example.start).2
      (AuthService.Login Example.lib Store.env Example.cfg [] "alice" "wrong-password"
        Example.registered).2
      { Login := "alice", Password := "wrong-password" } none none "" "" rfl rfl rfl).1⟩

/-! ## The bearer header and the auth middlewares: C23, C29 -/

theorem Split_go_ne_nil (sep : Char) (cs cur : List Char) : strings.Split.go sep cs cur ≠ [] := by
  induction cs generalizing cur with
  | nil => simp [strings.Split.go]
  | cons c cs ih =>
    simp only [strings.Split.go]
    split
    · simp
    · exact ih _

theorem Split_go_no_sep (sep : Char) (cs cur : List Char) (h : sep ∉ cs) :
    strings.Split.go sep cs cur = [String.mk (cur.reverse ++ cs)] := by
  induction cs generalizing cur with
  | nil => simp [strings.Split.go]
  | cons c cs ih =>
    have hc : c ≠ sep := fun e => h (by simp [e])
    have hcs : sep ∉ cs := fun e => h (by simp [e])
    simp only [strings.Split.go, hc, if_false]
    rw [ih _ hcs]
    simp

theorem Split_go_singleton (sep : Char) (cs cur : List Char) (b : String)
    (h : strings.Split.go sep cs cur = [b]) : sep ∉ cs ∧ b = String.mk (cur.reverse ++ cs) := by
  induction cs generalizing cur with
  | nil =>
    simp only [strings.Split.go, List.cons.injEq, and_true] at h
    simp [h]
  | cons c cs ih =>
    simp only [strings.Split.go] at h
    split at h
    · simp only [List.cons.injEq] at h
      exact absurd h.2 (Split_go_ne_nil sep cs [])
    · rename_i hc
      obtain ⟨h1, h2⟩ := ih _ h
      refine ⟨?_, by rw [h2]; simp⟩
      simp only [List.mem_cons, not_or]
      exact ⟨fun e => hc e.symm, h1⟩

theorem Split_go_pair (sep : Char) (cs cur : List Char) (a b : String)
    (h : strings.Split.go sep cs cur = [a, b]) :
    ∃ pre rest, cs = pre ++ sep :: rest ∧ sep ∉ pre ∧ sep ∉ rest ∧
      a = String.mk (cur.reverse ++ pre) ∧ b = String.mk rest := by
  induction cs generalizing cur with
  | nil => simp [strings.Split.go] at h
  | cons c cs ih =>
    simp only [strings.Split.go] at h
    split at h
    · rename_i hc
      simp only [List.cons.injEq] at h
      obtain ⟨h1, h2⟩ := Split_go_singleton sep cs [] b h.2
      exact ⟨[], cs, by simp [hc], by simp, h1, by simp [h.1], by simpa using h2⟩
    · rename_i hc
      obtain ⟨pre, rest, e, hpre, hrest, ha, hb⟩ := ih _ h
      refine ⟨c :: pre, rest, by simp [e], ?_, hrest, by rw [ha]; simp, hb⟩
      simp only [List.mem_cons, not_or]
      exact ⟨fun e => hc e.symm, hpre⟩

theorem Split_go_of_pair (sep : Char) (pre rest cur : List Char) (hpre : sep ∉ pre)
    (hrest : sep ∉ rest) :
    strings.Split.go sep (pre ++ sep :: rest) cur =
      [String.mk (cur.reverse ++ pre), String.mk rest] := by
  induction pre generalizing cur with
  | nil =>
    simp only [List.nil_append, strings.Split.go, if_true, List.append_nil]
    rw [Split_go_no_sep sep rest [] hrest]
    simp
  | cons c pre ih =>
    have hc : c ≠ sep := fun e => hpre (by simp [e])
    have hp : sep ∉ pre := fun e => hpre (by simp [e])
    have h := ih (c :: cur) hp
    simpa [strings.Split.go, hc] using h

/-- The header values that split into `Bearer` and a token are the texts `Bearer `
followed by a token without a space. -/
theorem Split_bearer_iff (header token : String) :
    strings.Split header ' ' = ["Bearer", token] ↔
      header = "Bearer " ++ token ∧ ' ' ∉ token.data := by
  constructor
  · intro h
    obtain ⟨pre, rest, e, _, hrest, ha, hb⟩ := Split_go_pair ' ' header.data [] _ _ h
    simp only [List.reverse_nil, List.nil_append] at ha
    have hpre : pre = "Bearer".data := by rw [ha]
    subst hb
    refine ⟨?_, hrest⟩
    apply String.ext
    rw [e, hpre, String.data_append]
    rfl
  · rintro ⟨h, htok⟩
    have e : header.data = "Bearer".data ++ ' ' :: token.data := by
      rw [h, String.data_append]; rfl
    unfold strings.Split
    rw [e, Split_go_of_pair ' ' _ _ [] (by decide) htok]
    rfl

theorem validateToken_bearer {σ : Type} (authService : middlewares.TokenValidator σ)
    (r : Request) (s : St σ) (token : String)
    (hform : strings.Split (r.headerGet "Authorization") ' ' = ["Bearer", token]) :
    (∀ userID s1, authService r.ctx token s = ((userID, none), s1) →
      middlewares.validateToken authService r s =
        (.ok (r.ctx.WithValue CtxKey.UserIDKey (CtxVal.int64 userID)), s1)) ∧
    (∀ userID err s1, authService r.ctx token s = ((userID, some err), s1) →
      middlewares.validateToken authService r s = (.error err, s1)) := by
  have hne : r.headerGet "Authorization" ≠ "" := by
    intro he
    have h0 : strings.Split "" ' ' = [""] := rfl
    rw [he, h0] at hform
    simp at hform
  constructor
  · intro userID s1 hsvc
    simp [middlewares.validateToken, hne, hform, hsvc]
  · intro userID err s1 hsvc
    simp [middlewares.validateToken, hne, hform, hsvc]

theorem validateToken_not_bearer {σ : Type} (authService : middlewares.TokenValidator σ)
    (r : Request) (s : St σ)
    (hform : ∀ token, strings.Split (r.headerGet "Authorization") ' ' ≠ ["Bearer", token]) :
    ∃ e, middlewares.validateToken authService r s = (.error e, s) := by
  unfold middlewares.validateToken
  split
  · exact ⟨_, rfl⟩
  · simp only []
    split
    · exact ⟨_, rfl⟩
    · rename_i hparts
      exfalso
      simp only [not_or, not_not, ne_eq] at hparts
      obtain ⟨hlen, hfirst⟩ := hparts
      match hsplit : strings.Split (r.headerGet "Authorization") ' ', hlen, hfirst with
      | [a, b], _, hfirst =>
        simp only [List.getD_cons_zero] at hfirst
        exact hform b (by rw [hsplit, hfirst])

theorem GetInfoFromContext_WithValue (ctx : Context) (userID : Int) :
    utils.GetInfoFromContext (ctx.WithValue CtxKey.UserIDKey (CtxVal.int64 userID)) =
      (userID, true) := by
  simp [utils.GetInfoFromContext, Context.WithValue, Context.Value]

/-- The outcome of `validateToken` is one of three: the header is not of the bearer form,
the token is rejected, or the token is accepted. -/
theorem validateToken_cases {σ : Type} (authService : middlewares.TokenValidator σ)
    (r : Request) (s : St σ) :
    ((∀ token, strings.Split (r.headerGet "Authorization") ' ' ≠ ["Bearer", token]) ∧
      ∃ e, middlewares.validateToken authService r s = (.error e, s)) ∨
    (∃ token userID err s1,
      strings.Split (r.headerGet "Authorization") ' ' = ["Bearer", token] ∧
      authService r.ctx token s = ((userID, some err), s1) ∧
      middlewares.validateToken authService r s = (.error err, s1)) ∨
    (∃ token userID s1,
      strings.Split (r.headerGet "Authorization") ' ' = ["Bearer", token] ∧
      authService r.ctx token s = ((userID, none), s1) ∧
      middlewares.validateToken authService r s =
        (.ok (r.ctx.WithValue CtxKey.UserIDKey (CtxVal.int64 userID)), s1)) := by
  by_cases hform : ∃ token, strings.Split (r.headerGet "Authorization") ' ' = ["Bearer", token]
  · obtain ⟨token, hform⟩ := hform
    rcases hsvc : authService r.ctx token s with ⟨⟨userID, _ | err⟩, s1⟩
    · exact Or.inr (Or.inr ⟨token, userID, s1, hform, hsvc,
        (validateToken_bearer authService r s token hform).1 userID s1 hsvc⟩)
    · exact Or.inr (Or.inl ⟨token, userID, err, s1, hform, hsvc,
        (validateToken_bearer authService r s token hform).2 userID err s1 hsvc⟩)
  · have hform' : ∀ token,
        strings.Split (r.headerGet "Authorization") ' ' ≠ ["Bearer", token] :=
      fun token h => hform ⟨token, h⟩
    exact Or.inl ⟨hform', validateToken_not_bearer authService r s hform'⟩

/-- C23: `AuthMiddleware` hands the request to the wrapped handler exactly when the
Authorization header is `Bearer ` followed by a token without a space and the validator
returns a nil error for that token; the handler then runs on the request whose context
binds the user id the validator returned, from the state the validator left.  When the
header is missing or of another form, or the validator returns an error, the response is
401 `unauthorized` whatever the wrapped handler is. -/
theorem C23_auth_middleware_guards_the_handler {σ : Type}
    (authService : middlewares.TokenValidator σ) (h : middlewares.Handler σ) (r : Request)
    (s : St σ) :
    (∀ token, strings.Split (r.headerGet "Authorization") ' ' = ["Bearer", token] ↔
      r.headerGet "Authorization" = "Bearer " ++ token ∧ ' ' ∉ token.data) ∧
    (∀ token userID s1,
      strings.Split (r.headerGet "Authorization") ' ' = ["Bearer", token] →
      authService r.ctx token s = ((userID, none), s1) →
      middlewares.AuthMiddleware authService h r s =
        h (r.WithContext (r.ctx.WithValue CtxKey.UserIDKey (CtxVal.int64 userID))) s1 ∧
      utils.GetInfoFromContext
        (r.WithContext (r.ctx.WithValue CtxKey.UserIDKey (CtxVal.int64 userID))).ctx =
          (userID, true)) ∧
    (∀ token userID err s1,
      strings.Split (r.headerGet "Authorization") ' ' = ["Bearer", token] →
      authService r.ctx token s = ((userID, some err), s1) →
      ∀ other : middlewares.Handler σ,
        middlewares.AuthMiddleware authService other r s =
          (httputil.UnauthorizedError "unauthorized", s1)) ∧
    ((∀ token, strings.Split (r.headerGet "Authorization") ' ' ≠ ["Bearer", token]) →
      ∀ other : middlewares.Handler σ,
        middlewares.AuthMiddleware authService other r s =
          (httputil.UnauthorizedError "unauthorized", s)) ∧
    ((¬ ∃ token userID s1,
        strings.Split (r.headerGet "Authorization") ' ' = ["Bearer", token] ∧
        authService r.ctx token s = ((userID, none), s1)) →
      ∃ s1, ∀ other : middlewares.Handler σ,
        middlewares.AuthMiddleware authService other r s =
          ({ statusCode := 401, data := Body.ErrorResponse "unauthorized" }, s1)) := by
  refine ⟨fun token => Split_bearer_iff _ token, ?_, ?_, ?_, ?_⟩
  · intro token userID s1 hform hsvc
    refine ⟨?_, GetInfoFromContext_WithValue r.ctx userID⟩
    simp only [middlewares.AuthMiddleware,
      (validateToken_bearer authService r s token hform).1 userID s1 hsvc]
  · intro token userID err s1 hform hsvc other
    simp only [middlewares.AuthMiddleware,
      (validateToken_bearer authService r s token hform).2 userID err s1 hsvc]
  · intro hform other
    obtain ⟨e, he⟩ := validateToken_not_bearer authService r s hform
    simp only [middlewares.AuthMiddleware, he]
  · intro hnot
    rcases validateToken_cases authService r s with
      ⟨_, e, he⟩ | ⟨token, userID, err, s1, _, _, he⟩ | ⟨token, userID, s1, hform, hsvc, _⟩
    · exact ⟨s, fun other => by simp only [middlewares.AuthMiddleware, he]; rfl⟩
    · exact ⟨s1, fun other => by simp only [middlewares.AuthMiddleware, he]; rfl⟩
    · exact absurd ⟨token, userID, s1, hform, hsvc⟩ hnot

theorem GetFeed_status {σ : Type} (listingService : ListingHandler.FeedService σ)
    (r : Request) (s : St σ) :
    (ListingHandler.GetFeed listingService r s).1.statusCode = 200 ∨
    (ListingHandler.GetFeed listingService r s).1.statusCode = 400 ∨
    (ListingHandler.GetFeed listingService r s).1.statusCode = 500 := by
  unfold ListingHandler.GetFeed
  split
  · exact Or.inr (Or.inl rfl)
  · split
    · exact Or.inr (Or.inr rfl)
    · exact Or.inl rfl

/-- C29: `OptionalAuthMiddleware` answers every request with what the wrapped handler
returns on one request, whatever that handler is: the request with the validated user id
bound in its context when the header is of the bearer form and the validator accepts the
token, and the request as received when the header is missing or of another form or the
validator returns any error.  A request as received without a user id reads as caller
`-1`, and wrapped around the feed handler the response is never a 401. -/
theorem C29_optional_auth_always_invokes_the_handler {σ : Type}
    (authService : middlewares.TokenValidator σ) (r : Request) (s : St σ) :
    (∃ r' s1, ∀ h : middlewares.Handler σ,
      middlewares.OptionalAuthMiddleware authService h r s = h r' s1) ∧
    (∀ token userID s1,
      strings.Split (r.headerGet "Authorization") ' ' = ["Bearer", token] →
      authService r.ctx token s = ((userID, none), s1) →
      (∀ h : middlewares.Handler σ, middlewares.OptionalAuthMiddleware authService h r s =
        h (r.WithContext (r.ctx.WithValue CtxKey.UserIDKey (CtxVal.int64 userID))) s1) ∧
      utils.GetInfoFromContext
        (r.WithContext (r.ctx.WithValue CtxKey.UserIDKey (CtxVal.int64 userID))).ctx =
          (userID, true)) ∧
    (∀ token userID err s1,
      strings.Split (r.headerGet "Authorization") ' ' = ["Bearer", token] →
      authService r.ctx token s = ((userID, some err), s1) →
      ∀ h : middlewares.Handler σ,
        middlewares.OptionalAuthMiddleware authService h r s = h r s1) ∧
    ((∀ token, strings.Split (r.headerGet "Authorization") ' ' ≠ ["Bearer", token]) →
      ∀ h : middlewares.Handler σ,
        middlewares.OptionalAuthMiddleware authService h r s = h r s) ∧
    (r.ctx.Value CtxKey.UserIDKey = none → utils.GetInfoFromContext r.ctx = (-1, false)) ∧
    (∀ (listingService : ListingHandler.FeedService σ) (e : GoError) (s1 : St σ),
      middlewares.validateToken authService r s = (.error e, s1) →
      middlewares.OptionalAuthMiddleware authService (ListingHandler.GetFeed listingService)
        r s = ListingHandler.GetFeed listingService r s1) ∧
    (∀ listingService : ListingHandler.FeedService σ,
      (middlewares.OptionalAuthMiddleware authService (ListingHandler.GetFeed listingService)
        r s).1.statusCode ≠ 401) := by
  refine ⟨?_, ?_, ?_, ?_, ?_, ?_, ?_⟩
  · rcases hv : middlewares.validateToken authService r s with ⟨e | ctx, s1⟩
    · exact ⟨r, s1, fun h => by simp only [middlewares.OptionalAuthMiddleware, hv]⟩
    · exact ⟨r.WithContext ctx, s1,
        fun h => by simp only [middlewares.OptionalAuthMiddleware, hv]⟩
  · intro token userID s1 hform hsvc
    refine ⟨fun h => ?_, GetInfoFromContext_WithValue r.ctx userID⟩
    simp only [middlewares.OptionalAuthMiddleware,
      (validateToken_bearer authService r s token hform).1 userID s1 hsvc]
  · intro token userID err s1 hform hsvc h
    simp only [middlewares.OptionalAuthMiddleware,
      (validateToken_bearer authService r s token hform).2 userID err s1 hsvc]
  · intro hform h
    obtain ⟨e, he⟩ := validateToken_not_bearer authService r s hform
    simp only [middlewares.OptionalAuthMiddleware, he]
  · intro hnone
    unfold utils.GetInfoFromContext
    rw [hnone]
  · intro listingService e s1 hv
    simp only [middlewares.OptionalAuthMiddleware, hv]
  · intro listingService
    rcases hv : middlewares.validateToken authService r s with ⟨e | ctx, s1⟩
    · simp only [middlewares.OptionalAuthMiddleware, hv]
      rcases GetFeed_status listingService r s1 with h | h | h <;> rw [h] <;> decide
    · simp only [middlewares.OptionalAuthMiddleware, hv]
      rcases GetFeed_status listingService (r.WithContext ctx) s1 with h | h | h <;>
        rw [h] <;> decide

/-! ## The statements of `Register`: C24 -/

/-- The calls the closure of `Register` makes with the context of transaction `tx`: the
existence check alone when it returns early, else the check and the insert, both on `tx`;
it returns nil only after both. -/
theorem Register_fn_trace {σ : Type} (lib : Lib) (env : Env σ) (cfg : Config) (ctx : Context)
    (tx : SqlTx) (login password : String) (newUser : Option UserPublic) (s1 : St σ) :
    ((AuthService.Register.fn lib env cfg login password
        (ctx.WithValue CtxKey.TxKey (CtxVal.sqlTx tx)) newUser s1).1.1 ≠ none ∧
      (AuthService.Register.fn lib env cfg login password
        (ctx.WithValue CtxKey.TxKey (CtxVal.sqlTx tx)) newUser s1).2.trace =
        s1.trace ++ [Event.QueryRow (Conn.tx tx) UserRepo.checkExistsQuery [.str login]]) ∨
    (∃ h, (AuthService.Register.fn lib env cfg login password
        (ctx.WithValue CtxKey.TxKey (CtxVal.sqlTx tx)) newUser s1).1.1 ≠ none ∧
      (AuthService.Register.fn lib env cfg login password
        (ctx.WithValue CtxKey.TxKey (CtxVal.sqlTx tx)) newUser s1).2.trace =
        s1.trace ++ [Event.QueryRow (Conn.tx tx) UserRepo.checkExistsQuery [.str login],
          Event.QueryRow (Conn.tx tx) UserRepo.createQuery [.str login, .str h]]) ∨
    (∃ h, (AuthService.Register.fn lib env cfg login password
        (ctx.WithValue CtxKey.TxKey (CtxVal.sqlTx tx)) newUser s1).1.1 = none ∧
      (AuthService.Register.fn lib env cfg login password
        (ctx.WithValue CtxKey.TxKey (CtxVal.sqlTx tx)) newUser s1).2.trace =
        s1.trace ++ [Event.QueryRow (Conn.tx tx) UserRepo.checkExistsQuery [.str login],
          Event.QueryRow (Conn.tx tx) UserRepo.createQuery [.str login, .str h]]) := by
  simp only [AuthService.Register.fn, UserService_CheckExists_tx]
  rcases hchk : scanBool
      (env.queryRow (Conn.tx tx) UserRepo.checkExistsQuery [.str login] s1.world).1 with e | b
  · exact Or.inl ⟨by simp, rfl⟩
  · cases b with
    | true => exact Or.inl ⟨by simp, rfl⟩
    | false =>
      simp only [bcrypt.GenerateFromPassword]
      rcases hgen : liftExcept (lib.bcryptGenerate password cfg.JWT.BCryptCost
          (env.rand (env.queryRow (Conn.tx tx) UserRepo.checkExistsQuery [.str login]
            s1.world).2).1) with e | h
      · exact Or.inl ⟨by simp, rfl⟩
      · simp only [UserService_Create_tx]
        rcases hcreate : scanUserPublic (env.queryRow (Conn.tx tx) UserRepo.createQuery
            [.str login, .str h] (env.rand (env.queryRow (Conn.tx tx)
              UserRepo.checkExistsQuery [.str login] s1.world).2).2).1 with e | user
        · exact Or.inr (Or.inl ⟨h, by simp, by simp⟩)
        · exact Or.inr (Or.inr ⟨h, by simp, by simp⟩)

theorem Register_eq_WithTransaction {σ : Type} (lib : Lib) (env : Env σ) (cfg : Config)
    (ctx : Context) (login password : String) (s : St σ) :
    (AuthService.Register lib env cfg ctx login password s).2 =
      (WithTransaction env ctx (AuthRepo.BeginTx env)
        (AuthService.Register.fn lib env cfg login password) none s).2 ∧
    (AuthService.Register lib env cfg ctx login password s).1.2 =
      (WithTransaction env ctx (AuthRepo.BeginTx env)
        (AuthService.Register.fn lib env cfg login password) none s).1.1 := by
  simp only [AuthService.Register]
  rcases WithTransaction env ctx (AuthRepo.BeginTx env)
    (AuthService.Register.fn lib env cfg login password) none s with ⟨⟨_ | e, k⟩, s'⟩ <;>
    exact ⟨rfl, rfl⟩

/-- `Register` on the reference store when the login is free and bcrypt fails: nothing is
committed. -/
theorem Store.Register_hash_error_committed (lib : Lib) (cfg : Config) (ctx : Context)
    (login password : String) (s : St Store.World) (e : ExtError)
    (hfree : s.world.committed.users.any (fun u => u.login == login) = false)
    (hgen : lib.bcryptGenerate password cfg.JWT.BCryptCost s.world.seed = .error e) :
    (AuthService.Register lib Store.env cfg ctx login password s).2.world.committed
      = s.world.committed := by
  have hfn : AuthService.Register.fn lib Store.env cfg login password
      (ctx.WithValue CtxKey.TxKey (CtxVal.sqlTx { id := s.world.nextTx })) none
      { world := { s.world with
          active := ({ id := s.world.nextTx }, s.world.committed) :: s.world.active,
          nextTx := s.world.nextTx + 1 },
        trace := s.trace ++ [Event.BeginTx none] } =
      ((some (GoError.ext e), none),
        { world := { s.world with
            active := ({ id := s.world.nextTx }, s.world.committed) :: s.world.active,
            nextTx := s.world.nextTx + 1, seed := s.world.seed + 1 },
          trace := s.trace ++ [Event.BeginTx none,
            Event.QueryRow (Conn.tx { id := s.world.nextTx }) UserRepo.checkExistsQuery
              [.str login]] }) := by
    simp [AuthService.Register.fn, UserService_CheckExists_tx, Store.env_queryRow,
      Store.onConn_tx_head, Store.queryRowOn_checkExists, hfree, scanBool_ok,
      bcrypt.GenerateFromPassword, Store.env_rand, hgen, liftExcept]
  simp only [AuthService.Register,
    WithTransaction_fn_error Store.env ctx _ _ none none s _ _ _ _ (Store.beginTx_eq ctx s) hfn]
  exact (Store.rollback_fields _ _).1

/-- `Register` on the reference store: an error leaves the committed tables as they
were, and a nil error means the new user is committed. -/
theorem Store.Register_outcome (lib : Lib) (cfg : Config) (ctx : Context)
    (login password : String) (s : St Store.World) :
    ((AuthService.Register lib Store.env cfg ctx login password s).1.2 ≠ none →
      (AuthService.Register lib Store.env cfg ctx login password s).2.world.committed
        = s.world.committed) ∧
    ((AuthService.Register lib Store.env cfg ctx login password s).1.2 = none →
      ∃ h, (AuthService.Register lib Store.env cfg ctx login password s).2.world.committed
        = { users := s.world.committed.users ++
              [{ id := s.world.committed.nextUserID, login := login, password_hash := h,
                 created_at := s.world.clock }],
            tokens := s.world.committed.tokens,
            nextUserID := s.world.committed.nextUserID + 1 }) := by
  cases hany : s.world.committed.users.any (fun u => u.login == login) with
  | true =>
    have h := Store.Register_taken lib cfg ctx login password s hany
    refine ⟨fun _ => h.2, fun hnone => ?_⟩
    rw [h.1] at hnone
    exact absurd hnone (by simp)
  | false =>
    cases hgen : lib.bcryptGenerate password cfg.JWT.BCryptCost s.world.seed with
    | error e =>
      refine ⟨fun _ => Store.Register_hash_error_committed lib cfg ctx login password s e
        hany hgen, fun hnone => ?_⟩
      rw [Store.Register_hash_error lib cfg ctx login password s e hany hgen] at hnone
      exact absurd hnone (by simp)
    | ok h =>
      have hreg := Store.Register_free lib cfg ctx login password h s hany hgen
      refine ⟨fun herr => ?_, fun _ => ⟨h, hreg.2.1⟩⟩
      rw [hreg.1] at herr
      exact absurd rfl herr

/-- C24: `Register` calls `BeginTx` once; when that fails nothing else is called; when it
yields `tx`, the existence check and, if reached, the insert are both issued on `tx`
(never on the pool or on a transaction the caller had bound), followed by `Commit` only
after both and by the deferred `Rollback`.  On the reference store a `Register` that
returns an error leaves the committed tables unchanged, and one that returns nil has
committed the new user. -/
theorem C24_register_check_and_insert_share_one_transaction {σ : Type} (lib : Lib)
    (env : Env σ) (cfg : Config) (ctx : Context) (login password : String) (s : St σ) :
    (∀ b, (env.beginTx none s.world).1 = .error b →
      (AuthService.Register lib env cfg ctx login password s).2.trace =
        s.trace ++ [Event.BeginTx none]) ∧
    (∀ tx, (env.beginTx none s.world).1 = .ok tx →
      getTxFromContext (ctx.WithValue CtxKey.TxKey (CtxVal.sqlTx tx)) = some tx ∧
      (((AuthService.Register lib env cfg ctx login password s).1.2 ≠ none ∧
        (AuthService.Register lib env cfg ctx login password s).2.trace =
          s.trace ++ [Event.BeginTx none,
            Event.QueryRow (Conn.tx tx) UserRepo.checkExistsQuery [.str login],
            Event.Rollback tx]) ∨
      (∃ h, (AuthService.Register lib env cfg ctx login password s).1.2 ≠ none ∧
        (AuthService.Register lib env cfg ctx login password s).2.trace =
          s.trace ++ [Event.BeginTx none,
            Event.QueryRow (Conn.tx tx) UserRepo.checkExistsQuery [.str login],
            Event.QueryRow (Conn.tx tx) UserRepo.createQuery [.str login, .str h],
            Event.Rollback tx]) ∨
      (∃ h, (AuthService.Register lib env cfg ctx login password s).2.trace =
          s.trace ++ [Event.BeginTx none,
            Event.QueryRow (Conn.tx tx) UserRepo.checkExistsQuery [.str login],
            Event.QueryRow (Conn.tx tx) UserRepo.createQuery [.str login, .str h],
            Event.Commit tx, Event.Rollback tx]))) ∧
    (∀ (c : Context) (w : St Store.World),
      ((AuthService.Register lib Store.env cfg c login password w).1.2 ≠ none →
        (AuthService.Register lib Store.env cfg c login password w).2.world.committed
          = w.world.committed) ∧
      ((AuthService.Register lib Store.env cfg c login password w).1.2 = none →
        ∃ h, (AuthService.Register lib Store.env cfg c login password w).2.world.committed
          = { users := w.world.committed.users ++
                [{ id := w.world.committed.nextUserID, login := login, password_hash := h,
                   created_at := w.world.clock }],
              tokens := w.world.committed.tokens,
              nextUserID := w.world.committed.nextUserID + 1 })) := by
  obtain ⟨hstate, herr⟩ := Register_eq_WithTransaction lib env cfg ctx login password s
  refine ⟨?_, ?_, fun c w => Store.Register_outcome lib cfg c login password w⟩
  · intro b hb
    rw [hstate, WithTransaction_begin_error env ctx _ _ none s _ _
      (by rw [AuthRepo_BeginTx_eq, hb]; rfl)]
  · intro tx htx
    refine ⟨getTxFromContext_WithValue ctx tx, ?_⟩
    have hbegin : AuthRepo.BeginTx env ctx none s =
        (.ok tx, { world := (env.beginTx none s.world).2,
                   trace := s.trace ++ [Event.BeginTx none] }) := by
      rw [AuthRepo_BeginTx_eq, htx]; rfl
    have hfn := Register_fn_trace lib env cfg ctx tx login password none
      { world := (env.beginTx none s.world).2, trace := s.trace ++ [Event.BeginTx none] }
    rw [hstate, herr]
    rcases hres : AuthService.Register.fn lib env cfg login password
        (ctx.WithValue CtxKey.TxKey (CtxVal.sqlTx tx)) none
        { world := (env.beginTx none s.world).2, trace := s.trace ++ [Event.BeginTx none] }
      with ⟨⟨_ | e, k'⟩, s2⟩
    · rw [hres] at hfn
      rw [WithTransaction_fn_ok env ctx _ _ none k' s _ s2 tx hbegin hres]
      rcases hfn with ⟨hne, _⟩ | ⟨h, hne, _⟩ | ⟨h, _, htrace⟩
      · exact absurd rfl hne
      · exact absurd rfl hne
      · refine Or.inr (Or.inr ⟨h, ?_⟩)
        simp only [] at htrace
        simp [htrace]
    · rw [hres] at hfn
      rw [WithTransaction_fn_error env ctx _ _ none k' s _ s2 tx e hbegin hres]
      rcases hfn with ⟨_, htrace⟩ | ⟨h, _, htrace⟩ | ⟨h, hnone, _⟩
      · refine Or.inl ⟨by simp, ?_⟩
        simp only [] at htrace
        simp [htrace]
      · refine Or.inr (Or.inl ⟨h, by simp, ?_⟩)
        simp only [] at htrace
        simp [htrace]
      · exact absurd hnone (by simp)

/-! ## The ORDER BY clause by sort column: C25 -/

/-- C25: for sortBy `createdAt` the ORDER BY clause is `ORDER BY l.created_at ` followed
by the upper-cased sortOrder, for sortBy `price` it is `ORDER BY l.price ` followed by the
upper-cased sortOrder (`ASC` for `asc`, `DESC` for `desc`), and for every other sortBy, the
empty string included, it is `ORDER BY l.created_at DESC` whatever sortOrder is; the clause
stands in the statement between the WHERE clause and LIMIT. -/
theorem C25_order_by_clause_by_sort_column (sortOrder : String) :
    ListingRepo.GetFeed.orderByClause "createdAt" sortOrder =
      "ORDER BY l.created_at " ++ strings.ToUpper sortOrder ∧
    ListingRepo.GetFeed.orderByClause "price" sortOrder =
      "ORDER BY l.price " ++ strings.ToUpper sortOrder ∧
    strings.ToUpper "asc" = "ASC" ∧ strings.ToUpper "desc" = "DESC" ∧
    ListingRepo.GetFeed.orderByClause "createdAt" "asc" = "ORDER BY l.created_at ASC" ∧
    ListingRepo.GetFeed.orderByClause "createdAt" "desc" = "ORDER BY l.created_at DESC" ∧
    ListingRepo.GetFeed.orderByClause "price" "asc" = "ORDER BY l.price ASC" ∧
    ListingRepo.GetFeed.orderByClause "price" "desc" = "ORDER BY l.price DESC" ∧
    (∀ sortBy : String, sortBy ≠ "createdAt" → sortBy ≠ "price" →
      ListingRepo.GetFeed.orderByClause sortBy sortOrder = "ORDER BY l.created_at DESC") ∧
    ListingRepo.GetFeed.orderByClause "" sortOrder = "ORDER BY l.created_at DESC" ∧
    (∀ (sortBy : String) (minPrice maxPrice : Int),
      ListingRepo.GetFeed.mainQuery sortBy sortOrder minPrice maxPrice =
        ListingRepo.GetFeed.selectFrom ++ ListingRepo.GetFeed.whereClause minPrice maxPrice ++
          "\n\t\t" ++ ListingRepo.GetFeed.orderByClause sortBy sortOrder ++ "\n\t\tLIMIT $" ++
          toString (ListingRepo.GetFeed.filters minPrice maxPrice).2.2 ++ " OFFSET $" ++
          toString ((ListingRepo.GetFeed.filters minPrice maxPrice).2.2 + 1) ++ ";\n\t") := by
  have hne : ¬ ("price" = "createdAt") := by decide
  refine ⟨?_, ?_, by decide, by decide, by decide, by decide, by decide, by decide, ?_, ?_,
    fun _ _ _ => rfl⟩
  · simp [ListingRepo.GetFeed.orderByClause]
  · simp [ListingRepo.GetFeed.orderByClause, hne]
  · intro sortBy h1 h2
    simp [ListingRepo.GetFeed.orderByClause, h1, h2]
  · have h1 : ¬ ("" = "createdAt") := by decide
    have h2 : ¬ ("" = "price") := by decide
    simp [ListingRepo.GetFeed.orderByClause, h1, h2]

/-! ## Rollback and BeginTx in the transaction coordinator: C26, C27 -/

/-- C26: what `WithTransaction` returns (the error and the variables the unit of work
assigned) is the same for every behaviour of `Rollback`: after a failed unit of work it is
the error of the unit of work, after a commit it is nil or the wrapped commit error, and
the error the deferred closure builds from a failed rollback is not returned. -/
theorem C26_returned_error_ignores_rollback {σ κ : Type} (env : Env σ) (ctx : Context)
    (repo : BeginTx σ) (fn : Context → κ → St σ → (Option GoError × κ) × St σ) (k : κ)
    (s : St σ) :
    (∀ rollback' : SqlTx → σ → Option ExtError × σ,
      (WithTransaction { env with rollback := rollback' } ctx repo fn k s).1 =
        (WithTransaction env ctx repo fn k s).1) ∧
    (∀ tx s1 e k' s2, repo ctx none s = (.ok tx, s1) →
      fn (ctx.WithValue CtxKey.TxKey (CtxVal.sqlTx tx)) k s1 = ((some e, k'), s2) →
      (WithTransaction env ctx repo fn k s).1 = (some e, k')) ∧
    (∀ tx s1 k' s2, repo ctx none s = (.ok tx, s1) →
      fn (ctx.WithValue CtxKey.TxKey (CtxVal.sqlTx tx)) k s1 = ((none, k'), s2) →
      (env.commit tx s2.world).1 = none →
      (WithTransaction env ctx repo fn k s).1 = (none, k') ∧
      ∀ rbErr, (env.rollback tx (env.commit tx s2.world).2).1 = some rbErr →
        (WithTransaction.deferred env tx none (SqlTx.Commit env tx s2).2).1 =
          some (.errorsNew ("tx err: <nil>, rb err: " ++ rbErr.Error))) ∧
    (∀ tx s1 k' s2 c, repo ctx none s = (.ok tx, s1) →
      fn (ctx.WithValue CtxKey.TxKey (CtxVal.sqlTx tx)) k s1 = ((none, k'), s2) →
      (env.commit tx s2.world).1 = some c →
      (WithTransaction env ctx repo fn k s).1 =
        (some (.wrapf "failed to commit transaction: " (.ext c)), k')) := by
  refine ⟨?_, ?_, ?_, ?_⟩
  · intro rollback'
    unfold WithTransaction
    rcases repo ctx none s with ⟨b | tx, s1⟩
    · rfl
    · rfl
  · intro tx s1 e k' s2 hbegin hfn
    rw [WithTransaction_fn_error env ctx repo fn k k' s s1 s2 tx e hbegin hfn]
  · intro tx s1 k' s2 hbegin hfn hcommit
    rw [WithTransaction_fn_ok env ctx repo fn k k' s s1 s2 tx hbegin hfn]
    refine ⟨by simp [hcommit], ?_⟩
    intro rbErr hrb
    simp [WithTransaction.deferred, SqlTx.Rollback, SqlTx.Commit, hrb, GoError.Error]
  · intro tx s1 k' s2 c hbegin hfn hcommit
    rw [WithTransaction_fn_ok env ctx repo fn k k' s s1 s2 tx hbegin hfn]
    simp [hcommit]

theorem GoError_Is_refl (e : GoError) : e.Is e = true := by
  induction e with
  | wrapf pfx inner _ => simp [GoError.Is]
  | ext e => simp [GoError.Is, ExtError.Is_self]
  | _ => simp [GoError.Is]

/-- C27: when `BeginTx` fails with `b`, `WithTransaction` returns `b` wrapped under the
prefix `failed to start transaction: ` with the captured variables untouched, in the state
`BeginTx` left, whatever the unit of work is: it is not run, and nothing is committed or
rolled back.  Only the one call `BeginTx(ctx, nil)` decides; on a database-backed
repository the trace gains the single event of `BeginTx` with nil options, and on success
the events that follow the unit of work are `Rollback`, or `Commit` and `Rollback`. -/
theorem C27_begin_failure_stops_the_transaction {σ κ : Type} (env : Env σ) (ctx : Context)
    (repo : BeginTx σ) (fn : Context → κ → St σ → (Option GoError × κ) × St σ) (k : κ)
    (s s1 : St σ) (b : GoError) (hbegin : repo ctx none s = (.error b, s1)) :
    WithTransaction env ctx repo fn k s =
      ((some (.wrapf "failed to start transaction: " b), k), s1) ∧
    (GoError.wrapf "failed to start transaction: " b).Error =
      "failed to start transaction: " ++ b.Error ∧
    (GoError.wrapf "failed to start transaction: " b).Unwrap = some b ∧
    (GoError.wrapf "failed to start transaction: " b).Is b = true ∧
    (∀ fn' : Context → κ → St σ → (Option GoError × κ) × St σ,
      WithTransaction env ctx repo fn' k s = WithTransaction env ctx repo fn k s) ∧
    (∀ (repo' : BeginTx σ) (s' : St σ), repo' ctx none s' = repo ctx none s →
      (WithTransaction env ctx repo' fn k s').1 = (WithTransaction env ctx repo fn k s).1) ∧
    (∀ (w : St σ) (e : ExtError), (env.beginTx none w.world).1 = .error e →
      (WithTransaction env ctx (AuthRepo.BeginTx env) fn k w).2.trace =
        w.trace ++ [Event.BeginTx none]) ∧
    (∀ (w : St σ) (tx : SqlTx), (env.beginTx none w.world).1 = .ok tx →
      ∃ tail, (tail = [Event.Rollback tx] ∨ tail = [Event.Commit tx, Event.Rollback tx]) ∧
        (WithTransaction env ctx (AuthRepo.BeginTx env) fn k w).2.trace =
          (fn (ctx.WithValue CtxKey.TxKey (CtxVal.sqlTx tx)) k
            { world := (env.beginTx none w.world).2,
              trace := w.trace ++ [Event.BeginTx none] }).2.trace ++ tail) := by
  refine ⟨WithTransaction_begin_error env ctx repo fn k s s1 b hbegin, rfl, rfl, ?_, ?_, ?_,
    ?_, ?_⟩
  · simp [GoError.Is, GoError_Is_refl]
  · intro fn'
    rw [WithTransaction_begin_error env ctx repo fn' k s s1 b hbegin,
      WithTransaction_begin_error env ctx repo fn k s s1 b hbegin]
  · intro repo' s' hrepo
    rw [WithTransaction_begin_error env ctx repo' fn k s' s1 b (hrepo.trans hbegin),
      WithTransaction_begin_error env ctx repo fn k s s1 b hbegin]
  · intro w e he
    rw [WithTransaction_begin_error env ctx _ fn k w _ _
      (by rw [AuthRepo_BeginTx_eq, he]; rfl)]
  · intro w tx htx
    have hb : AuthRepo.BeginTx env ctx none w =
        (.ok tx, { world := (env.beginTx none w.world).2,
                   trace := w.trace ++ [Event.BeginTx none] }) := by
      rw [AuthRepo_BeginTx_eq, htx]; rfl
    rcases hfn : fn (ctx.WithValue CtxKey.TxKey (CtxVal.sqlTx tx)) k
      { world := (env.beginTx none w.world).2, trace := w.trace ++ [Event.BeginTx none] }
      with ⟨⟨_ | e, k'⟩, s2⟩
    · rw [WithTransaction_fn_ok env ctx _ fn k k' w _ s2 tx hb hfn]
      exact ⟨_, Or.inr rfl, rfl⟩
    · rw [WithTransaction_fn_error env ctx _ fn k k' w _ s2 tx e hb hfn]
      exact ⟨_, Or.inl rfl, rfl⟩

/-- C27 on an environment whose `BeginTx` fails: the unit of work that would insert `bob`
is not run, and the trace holds the one `BeginTx`. -/
theorem C27_witness :
    (WithTransaction (stubFeedEnv []) [] (AuthRepo.BeginTx (stubFeedEnv []))
      (scriptedUnit (stubFeedEnv [])
        [Stmt.queryRow UserRepo.createQuery [.str "bob", .str "hash"]] none) ()
      Example.feedStart).1.1 =
        some (.wrapf "failed to start transaction: " (.ext (.other "stub"))) ∧
    (WithTransaction (stubFeedEnv []) [] (AuthRepo.BeginTx (stubFeedEnv []))
      (scriptedUnit (stubFeedEnv [])
        [Stmt.queryRow UserRepo.createQuery [.str "bob", .str "hash"]] none) ()
      Example.feedStart).2.trace = [Event.BeginTx none] :=
  have h := (C27_begin_failure_stops_the_transaction (stubFeedEnv []) []
    (AuthRepo.BeginTx (stubFeedEnv []))
    (scriptedUnit (stubFeedEnv [])
      [Stmt.queryRow UserRepo.createQuery [.str "bob", .str "hash"]] none) ()
    Example.feedStart { world := (), trace := [Event.BeginTx none] }
    (.ext (.other "stub")) rfl).1
  ⟨by rw [h], by rw [h]⟩

/-! ## Store failures in `ValidateToken`: C28 -/

theorem CheckTokenExists_error_ext {σ : Type} (env : Env σ) (ctx : Context) (tok : String)
    (s : St σ) (err : GoError)
    (h : (AuthRepo.CheckTokenExists env ctx tok s).1 = .error err) : ∃ e, err = .ext e := by
  simp only [AuthRepo.CheckTokenExists] at h
  unfold scanBool at h
  split at h
  · cases h; exact ⟨_, rfl⟩
  · cases h
  · cases h; exact ⟨_, rfl⟩

/-- C28: when the token decodes with an HMAC method, verifies, passes claim validation
and carries a numeric `userID`, and `CheckTokenExists` fails with `err`, `ValidateToken`
returns id 0 and `err` itself, which is an error of the store and not `ErrInvalidToken`;
and whenever `ValidateToken` returns an error, the id it returns is 0. -/
theorem C28_store_failure_is_returned_unchanged {σ : Type} (lib : Lib) (env : Env σ)
    (cfg : Config) (ctx : Context) (tok : String) (s : St σ) :
    (∀ alg claims x err, lib.jwtDecode tok = .ok (.HMAC alg, claims) →
      lib.jwtVerify (.HMAC alg) tok cfg.JWT.JWTSecret = true →
      jwt.validate claims (env.now s.world).1 = true →
      claims.get "userID" = some (.float64 x) →
      (AuthRepo.CheckTokenExists env ctx tok (timeNow env s).2).1 = .error err →
      (AuthService.ValidateToken lib env cfg ctx tok s).1 = (0, some err) ∧
      err ≠ GoError.ErrInvalidToken ∧ err.Is .ErrInvalidToken = false) ∧
    ((AuthService.ValidateToken lib env cfg ctx tok s).1.2 ≠ none →
      (AuthService.ValidateToken lib env cfg ctx tok s).1.1 = 0) := by
  refine ⟨?_, ?_⟩
  · intro alg claims x err hdec hver hval huid hchk
    refine ⟨(ValidateToken_checked lib env cfg ctx tok s alg claims x hdec hver hval
      huid).2.1 err hchk, ?_⟩
    obtain ⟨e, rfl⟩ := CheckTokenExists_error_ext env ctx tok _ err hchk
    exact ⟨by simp, by simp [GoError.Is]⟩
  · intro herr
    by_cases hpre : ∃ alg claims x, lib.jwtDecode tok = .ok (.HMAC alg, claims) ∧
        lib.jwtVerify (.HMAC alg) tok cfg.JWT.JWTSecret = true ∧
        jwt.validate claims (env.now s.world).1 = true ∧
        claims.get "userID" = some (.float64 x)
    · obtain ⟨alg, claims, x, hdec, hver, hval, huid⟩ := hpre
      have h := ValidateToken_checked lib env cfg ctx tok s alg claims x hdec hver hval huid
      rcases hr : (AuthRepo.CheckTokenExists env ctx tok (timeNow env s).2).1 with e | b
      · rw [h.2.1 e hr]
      · cases b
        · rw [h.2.2.1 hr]
        · rw [h.2.2.2 hr] at herr
          exact absurd rfl herr
    · rw [(ValidateToken_rejects_before_store lib env cfg ctx tok s hpre).1]

/-! ## The table of `ListingRepo.CheckExists`: C30 -/

theorem CheckExists_trace {σ : Type} (env : Env σ) (ctx : Context) (id : Int) (s : St σ) :
    (ListingRepo.CheckExists env ctx id s).2.trace =
      s.trace ++ [Event.QueryRow (connOf ctx)
        "SELECT EXISTS(SELECT 1 FROM listing WHERE id = $1)" [.int64 id]] := by
  simp only [ListingRepo.CheckExists, QueryRowWithTx_connOf]
  rfl

set_option maxRecDepth 100000 in
/-- C30, evaluated: the statement of `CheckExists` names the relation `listing`, which is
not a relation of the schema, while the statements of `Create` and `GetFeed` name
`listings`.  On the reference store `Create` returns the listing with id 1, the store
answers the existence test on `listings` for id 1 with true, and `CheckExists` for id 1
returns the error of the undefined relation.  Every call of `CheckExists` issues that
statement. -/
theorem C30_check_exists_names_another_table :
    "listings" ∈ identifiers ListingRepo.createQuery ∧
    "listings" ∈ identifiers (ListingRepo.GetFeed.mainQuery "createdAt" "desc" 0 0) ∧
    "listing" ∈ identifiers ListingRepo.checkExistsQuery ∧
    "listings" ∉ identifiers ListingRepo.checkExistsQuery ∧
    ListingStore.existsByIDRelation ListingRepo.checkExistsQuery = some "listing" ∧
    "listing" ∉ ListingStore.relations ∧
    (ListingRepo.Create ListingStore.env [] 7 "Lamp" "A desk lamp" "/img/1.png" 1500
        Example.listingStart).1 =
      .ok { ID := 1, UserID := 7, Title := "Lamp", Description := "A desk lamp",
            ImageURL := "/img/1.png", Price := 1500, CreatedAt := 100,
            AuthorLogin := "alice", IsOwner := true } ∧
    (ListingStore.env.queryRow Conn.pool "SELECT EXISTS(SELECT 1 FROM listings WHERE id = $1)"
        [.int64 1] Example.listingCreated.world).1 = .ok [.bool true] ∧
    (ListingRepo.CheckExists ListingStore.env [] 1 Example.listingCreated).1 =
      .error (.ext (ListingStore.errUndefinedRelation "listing")) ∧
    (ListingService.CheckExists ListingStore.env [] 1 Example.listingCreated).1 ≠
      .ok true ∧
    (∀ {σ : Type} (env : Env σ) (ctx : Context) (id : Int) (s : St σ),
      (ListingRepo.CheckExists env ctx id s).2.trace =
        s.trace ++ [Event.QueryRow (connOf ctx)
          "SELECT EXISTS(SELECT 1 FROM listing WHERE id = $1)" [.int64 id]]) := by
  refine ⟨by decide, by decide, by decide, by decide, by decide, by decide, rfl, rfl, rfl,
    ?_, fun env ctx id s => CheckExists_trace env ctx id s⟩
  intro h
  have h' : (ListingService.CheckExists ListingStore.env [] 1 Example.listingCreated).1 =
      .error (.ext (ListingStore.errUndefinedRelation "listing")) := rfl
  rw [h'] at h
  cases h

end Marketplace
